import Mathlib

/-!
Gockup: backup pipeline, artifact naming and configuration store.

Shallow embedding of `internal/backup/service.go`, `internal/config/config.go`
and `internal/google/client.go`.

Go strings are modelled by Lean strings: the text is read as UTF-8, and a byte
that is not valid UTF-8 is read, as Go's `regexp` and `range` read it, as the
character U+FFFD.  `int` and `int64` are modelled by `Int`, slices by lists.
Everything the program obtains from outside (clock, `PATH` lookups, exit
status of processes, network answers) is an explicit input of the embedding;
the filesystem, the Drive folder, the sheet and the configuration object are
explicit state.  Output written with `fmt.Printf` is not modelled.
-/

namespace Gockup

/-! ## `sanitizeName` (service.go, lines 51-70) -/

/-- ASCII letter, the ranges `a-z` and `A-Z`. -/
def isAsciiLetter (c : Char) : Bool :=
  (97 ≤ c.toNat && c.toNat ≤ 122) || (65 ≤ c.toNat && c.toNat ≤ 90)

/-- ASCII digit, the range `0-9`. -/
def isAsciiDigit (c : Char) : Bool :=
  48 ≤ c.toNat && c.toNat ≤ 57

/-- Membership in the character class `[a-zA-Z0-9_-]`; the first regular
expression of `sanitizeName` is its negation. -/
def isNameChar (c : Char) : Bool :=
  isAsciiLetter c || isAsciiDigit c || c == '_' || c == '-'

/-- The call `reg.ReplaceAllString(name, "_")` with `reg = [^a-zA-Z0-9_-]`:
every character outside the class is a match of length one and is replaced by
an underscore. -/
def replaceDisallowed (name : List Char) : List Char :=
  name.map fun c => if isNameChar c then c else '_'

/-- The call `reg2.ReplaceAllString(sanitized, "_")` with `reg2 = _+`: a
left-to-right scan in which every maximal run of underscores is replaced by one
underscore.  The flag tells whether the previous character belonged to a run
whose replacement has already been emitted. -/
def collapseUnderscores : Bool → List Char → List Char
  | _, [] => []
  | inRun, c :: rest =>
    if c = '_' then
      if inRun then collapseUnderscores true rest
      else '_' :: collapseUnderscores true rest
    else c :: collapseUnderscores false rest

/-- The call `strings.Trim(sanitized, "_")`: leading and trailing underscores
are removed. -/
def trimUnderscores (s : List Char) : List Char :=
  ((s.dropWhile (· == '_')).reverse.dropWhile (· == '_')).reverse

/-- ASCII letter, ASCII digit or hyphen: the characters of the class
`[a-zA-Z0-9_-]` other than the underscore. -/
def isLetterDigitHyphen (c : Char) : Bool :=
  isAsciiLetter c || isAsciiDigit c || c == '-'

/-- The function `sanitizeName` on the characters of the name. -/
def sanitizeChars (name : List Char) : List Char :=
  let sanitized := replaceDisallowed name
  let sanitized := collapseUnderscores false sanitized
  let sanitized := trimUnderscores sanitized
  if sanitized = [] then "server".data else sanitized

/-- The function `sanitizeName` of service.go. -/
def sanitizeName (name : String) : String :=
  String.mk (sanitizeChars name.data)


/-! ## Standard-library helpers used by the pipeline -/

/-- The call `strings.ReplaceAll(s, old, new)` for a non-empty `old`, on
characters: a left-to-right scan replacing non-overlapping occurrences.  The
counter is the number of characters of the current occurrence still to be
skipped. -/
def replaceAllChars (old new : List Char) : Nat → List Char → List Char
  | _, [] => []
  | skip + 1, _ :: rest => replaceAllChars old new skip rest
  | 0, c :: rest =>
    if old.isPrefixOf (c :: rest) then new ++ replaceAllChars old new (old.length - 1) rest
    else c :: replaceAllChars old new 0 rest

/-- The call `strings.ReplaceAll(s, old, new)` for a non-empty `old`. -/
def stringsReplaceAll (s old new : String) : String :=
  String.mk (replaceAllChars old.data new.data 0 s.data)

/-- The call `strings.TrimSuffix(s, suffix)`. -/
def stringsTrimSuffix (s suffix : String) : String :=
  if suffix.data.isSuffixOf s.data then
    String.mk (s.data.take (s.data.length - suffix.data.length))
  else s

/-- Splits a path at every `/`. -/
def splitSlash : List Char → List (List Char)
  | [] => [[]]
  | c :: rest =>
    match splitSlash rest with
    | [] => [[]]
    | seg :: segs => if c = '/' then [] :: seg :: segs else (c :: seg) :: segs

/-- The element loop of `filepath.Clean`: empty elements and `.` are dropped,
`..` removes the element before it when there is one that is not itself `..`,
is dropped at the root, and is kept otherwise.  `out` is the output so far,
last element first. -/
def cleanSegments (rooted : Bool) : List (List Char) → List (List Char) → List (List Char)
  | out, [] => out.reverse
  | out, seg :: rest =>
    if seg = [] ∨ seg = ['.'] then cleanSegments rooted out rest
    else if seg = ['.', '.'] then
      match out with
      | top :: below =>
        if top = ['.', '.'] then cleanSegments rooted (seg :: out) rest
        else cleanSegments rooted below rest
      | [] => if rooted then cleanSegments rooted [] rest else cleanSegments rooted [seg] rest
    else cleanSegments rooted (seg :: out) rest

/-- The function `filepath.Clean` with separator `/`. -/
def filepathClean (path : String) : String :=
  let rooted : Bool := path.data.head? = some '/'
  let body := List.intercalate ['/'] (cleanSegments rooted [] (splitSlash path.data))
  if rooted then String.mk ('/' :: body)
  else if body = [] then "." else String.mk body

/-- The call `filepath.Join(a, b)`: empty leading elements are ignored, the
rest is joined with `/` and cleaned. -/
def filepathJoin (a b : String) : String :=
  if a ≠ "" then filepathClean (a ++ "/" ++ b)
  else if b ≠ "" then filepathClean b
  else ""

/-! ## Configuration store (config.go) -/

/-- The struct `MySQLConfig`. -/
structure MySQLConfig where
  Host : String
  Port : Int
  Username : String
  Password : String
  Database : String
deriving DecidableEq

/-- The struct `SSHConfig`. -/
structure SSHConfig where
  Host : String
  Port : Int
  Username : String
  Password : String
  PrivateKey : String
  Passphrase : String
  KeyPath : String
deriving DecidableEq

/-- The struct `Machine`; the field `Type` is named `Kind` here and holds
`"local"` or `"remote"`. -/
structure Machine where
  ID : String
  Name : String
  Kind : String
  Description : String
  MySQL : MySQLConfig
  SSH : SSHConfig
  Enabled : Bool
  CreatedAt : String
  UpdatedAt : String
deriving DecidableEq

/-- The struct `GoogleConfig`. -/
structure GoogleConfig where
  ClientID : String
  ClientSecret : String
  SheetID : String
  DriveFolder : String
  AccessToken : String
  RefreshToken : String
  TokenExpiry : String
deriving DecidableEq

/-- The struct `Schedule`. -/
structure Schedule where
  ID : String
  Name : String
  Description : String
  Enabled : Bool
  MachineID : String
  Databases : List String
  DaysOfWeek : List Int
  Times : List String
  CreatedAt : String
  UpdatedAt : String
deriving DecidableEq

/-- The struct `SchedulerConfig`. -/
structure SchedulerConfig where
  Enabled : Bool
  Schedules : List Schedule
deriving DecidableEq

/-- The struct `ServiceConfig`. -/
structure ServiceConfig where
  Installed : Bool
deriving DecidableEq

/-- The struct `BackupConfig`. -/
structure BackupConfig where
  LocalPath : String
  Compression : Bool
  KeepLocal : Bool
  RetentionDays : Int
deriving DecidableEq

/-- The struct `BackupLog`; `Timestamp` is an instant in Unix nanoseconds. -/
structure BackupLog where
  ID : String
  Timestamp : Int
  MachineID : String
  TableName : String
  FileName : String
  FileSize : Int
  Success : Bool
  Error : String
  DriveID : String
deriving DecidableEq

/-- The struct `Config`, its two unexported fields included. -/
structure Config where
  Machines : List Machine
  Google : GoogleConfig
  Scheduler : SchedulerConfig
  Backup : BackupConfig
  Service : ServiceConfig
  filePath : String
  logs : List BackupLog
deriving DecidableEq

/-- The method `Config.GetMachine`: the first machine with the given id, or the
error `machine not found`. -/
def Config.GetMachine (c : Config) (machineID : String) : Except String Machine :=
  match c.Machines.find? (fun m => m.ID == machineID) with
  | some m => .ok m
  | none => .error "machine not found"

/-- The method `Config.IsGoogleAuthenticated`. -/
def Config.IsGoogleAuthenticated (c : Config) : Bool :=
  c.Google.AccessToken != "" && c.Google.RefreshToken != ""

/-- The in-memory effect of `Config.AddBackupLog`; `now` is the clock reading in
Unix nanoseconds that becomes the entry's `ID`.  The closing `c.Save()` rewrites
the configuration file and does not touch the fields modelled here. -/
def Config.AddBackupLog (c : Config) (log : BackupLog) (now : Int) : Config :=
  let log := { log with ID := toString now }
  let logs := c.logs ++ [log]
  let logs := if logs.length > 1000 then logs.drop (logs.length - 1000) else logs
  { c with logs := logs }

/-! ## State and outside world of a backup job -/

/-- Regular files by path, with their content. -/
abbrev FileSystem := String → Option String

/-- Creating or overwriting a file. -/
def FileSystem.write (fs : FileSystem) (path content : String) : FileSystem :=
  fun p => if p = path then some content else fs p

/-- The call `os.Remove(path)`; its error is discarded at every call site. -/
def FileSystem.remove (fs : FileSystem) (path : String) : FileSystem :=
  fun p => if p = path then none else fs p

/-- Externally visible actions, recorded in the order in which they happen. -/
inductive Event where
  | mkdirAll (path : String)
  | tunnelOpened (localPort : Nat)
  | tunnelClosed
  | commandRun (name : String) (args : List String)
  | uploadFile (filePath fileName : String)
  | logToSheets (log : BackupLog)
  | cleanupOldBackups
deriving DecidableEq

/-- A file stored in the Drive folder. -/
structure DriveFile where
  ID : String
  Name : String
  Content : String
deriving DecidableEq

/-- Everything a job reads and changes: the configuration object shared by
`Service` and `google.Client`, the local filesystem, the Drive folder, the
rows of the spreadsheet and the trace of actions. -/
structure World where
  config : Config
  files : FileSystem
  drive : List DriveFile
  sheet : List (List String)
  trace : List Event

/-- Adds an action to the trace. -/
def World.emit (w : World) (e : Event) : World :=
  { w with trace := w.trace ++ [e] }

/-- Inputs of one `ensureValidToken` call: whether `TokenExpiry` parses and lies
within five minutes, the answer of the token endpoint (new access token and new
expiry text) and the error of the `Save` that follows a refresh. -/
structure TokenExternals where
  expiresSoon : Bool
  refreshAnswer : Except String (String × String)
  saveErr : Option String

/-- Everything the outside world decides while one database is processed.
An error is `none` when the operation succeeds and carries the error text
otherwise. -/
structure DbExternals where
  dumpLookPathErr : Option String
  dumpRunErr : Option String
  dumpStdout : String
  dumpWriteErr : Option String
  gzipLookPathErr : Option String
  renameErr : Option String
  gzipCreateErr : Option String
  gzipRunErr : Option String
  gzipOutput : String
  uploadToken : TokenExternals
  uploadAnswer : Except String String
  sheetsToken : TokenExternals
  sheetsNow : Int
  sheetsTimeText : String
  sheetsPostErr : Option String
  logNow : Int
  logIdNow : Int

/-- Everything the outside world decides during one job: the formatted clock
reading taken at job start, the outcome of `os.MkdirAll`, of the port lookup and
of `CreateTunnel`, and the per-database inputs by position in the list. -/
structure JobExternals where
  timestamp : String
  mkdirErr : Option String
  listenErr : Option String
  localPort : Nat
  createTunnelErr : Option String
  perDatabase : Nat → DbExternals

/-- The `context.Context` argument: whether it is cancelled or past its
deadline. -/
structure Context where
  cancelled : Bool

/-- The struct `BackupResult`. -/
structure BackupResult where
  Database : String
  Success : Bool
  Error : String
  FileName : String
  FileSize : Int
deriving DecidableEq

/-! ## Google client (google/client.go) -/

/-- The method `Client.RefreshToken`. -/
def RefreshToken (t : TokenExternals) (w : World) : World × Option String :=
  if w.config.Google.RefreshToken = "" then (w, some "no refresh token available")
  else
    match t.refreshAnswer with
    | .error e => (w, some e)
    | .ok (accessToken, expiry) =>
      ({ w with config := { w.config with
            Google := { w.config.Google with AccessToken := accessToken, TokenExpiry := expiry } } },
        t.saveErr)

/-- The method `Client.ensureValidToken`. -/
def ensureValidToken (t : TokenExternals) (w : World) : World × Option String :=
  if w.config.Google.TokenExpiry = "" then (w, none)
  else if t.expiresSoon then RefreshToken t w
  else (w, none)

/-- The method `Client.UploadFile`: token check, opening the file, then the
multipart request whose outcome is `uploadAnswer`. -/
def UploadFile (filePath fileName : String) (x : DbExternals) (w : World) :
    World × Except String String :=
  match ensureValidToken x.uploadToken w with
  | (w, some e) => (w, .error ("failed to ensure valid token: " ++ e))
  | (w, none) =>
    match w.files filePath with
    | none => (w, .error ("failed to open file: open " ++ filePath ++ ": no such file or directory"))
    | some content =>
      let w := w.emit (.uploadFile filePath fileName)
      match x.uploadAnswer with
      | .error e => (w, .error e)
      | .ok driveID =>
        ({ w with drive := w.drive ++ [{ ID := driveID, Name := fileName, Content := content }] },
          .ok driveID)

/-- The method `Client.LogToSheets`; its error is discarded by the caller. -/
def LogToSheets (log : BackupLog) (x : DbExternals) (w : World) : World :=
  let w := w.emit (.logToSheets log)
  if w.config.Google.SheetID = "" then w
  else
    match ensureValidToken x.sheetsToken w with
    | (w, some _) => w
    | (w, none) =>
      let status := if log.Success then "SUCESSO" else "ERRO"
      let logMessage :=
        if log.Success then "Backup da database " ++ log.TableName ++ " criado com sucesso"
        else log.Error
      match x.sheetsPostErr with
      | some _ => w
      | none => { w with sheet := w.sheet ++ [[status, x.sheetsTimeText, log.FileName, logMessage]] }

/-! ## Backup service (backup/service.go) -/

/-- The method `Service.createSSHTunnel`: the local port, or the error. -/
def createSSHTunnel (j : JobExternals) : Except String Nat :=
  match j.listenErr with
  | some e => .error ("failed to find available port: " ++ e)
  | none =>
    match j.createTunnelErr with
    | some e => .error ("failed to create SSH tunnel: " ++ e)
    | none => .ok j.localPort

/-- The argument list handed to `mariadb-dump`. -/
def dumpArgs (machine : Machine) (database mysqlHost : String) (mysqlPort : Int) : List String :=
  ["--protocol=TCP", "-h", mysqlHost, "-P", toString mysqlPort, "-u", machine.MySQL.Username,
    "-p" ++ machine.MySQL.Password, "--skip-lock-tables", "--routines", "--triggers",
    "--no-tablespaces", "--default-character-set=utf8mb4", "--force", "--quick",
    "--max_allowed_packet=64M", "--skip-ssl", "--databases", database, "--set-gtid-purged=OFF"]

/-- The method `Service.dumpDatabaseForMachine`.  The captured standard error
is only printed; a failed `os.WriteFile` is taken to leave no file behind. -/
def dumpDatabaseForMachine (machine : Machine) (database filePath mysqlHost : String)
    (mysqlPort : Int) (x : DbExternals) (w : World) : World × Except String Unit :=
  match x.dumpLookPathErr with
  | some e => (w, .error ("mariadb-dump not found in PATH: " ++ e))
  | none =>
    let w := w.emit (.commandRun "mariadb-dump" (dumpArgs machine database mysqlHost mysqlPort))
    match x.dumpRunErr with
    | some e => (w, .error ("mariadb-dump failed: " ++ e))
    | none =>
      let output := x.dumpStdout
      if output.utf8ByteSize = 0 then (w, .error "mariadb-dump produced empty output")
      else
        let filteredOutput := stringsReplaceAll output "DEFINER=" "-- DEFINER="
        match x.dumpWriteErr with
        | some e => (w, .error ("failed to write dump file: " ++ e))
        | none => ({ w with files := w.files.write filePath filteredOutput }, .ok ())

/-- The call `os.Rename(oldpath, newpath)`: fails when the source is missing or
when the system refuses it, and otherwise moves the file. -/
def osRename (oldpath newpath : String) (err : Option String) (w : World) :
    World × Option String :=
  match w.files oldpath with
  | none => (w, some ("rename " ++ oldpath ++ " " ++ newpath ++ ": no such file or directory"))
  | some content =>
    match err with
    | some e => (w, some e)
    | none => ({ w with files := (w.files.remove oldpath).write newpath content }, none)

/-- The method `Service.compressFileGzip`: `none` stands for a nil error. -/
def compressFileGzip (srcPath dstPath : String) (x : DbExternals) (w : World) :
    World × Option String :=
  match x.gzipLookPathErr with
  | some _ => osRename srcPath (stringsTrimSuffix dstPath ".gz") x.renameErr w
  | none =>
    match w.files srcPath with
    | none =>
      (w, some ("failed to open source file: open " ++ srcPath ++ ": no such file or directory"))
    | some _ =>
      match x.gzipCreateErr with
      | some e => (w, some ("failed to create destination file: " ++ e))
      | none =>
        let w := { w with files := w.files.write dstPath "" }
        let w := w.emit (.commandRun "gzip" ["-c"])
        let w := { w with files := w.files.write dstPath x.gzipOutput }
        match x.gzipRunErr with
        | some e => (w, some ("gzip compression failed: " ++ e))
        | none => (w, none)

/-- The result of `os.Stat(path)` as used by the job: the size when the file
exists. -/
def statSize (w : World) (path : String) : Option Int :=
  (w.files path).map fun content => (content.utf8ByteSize : Int)

/-- Lines 340-355 of `createBackupForMachine`: compression of a dumped file.
Returns the new state, the updated result and the updated `filePath`. -/
def compressStage (fileName filePath : String) (result : BackupResult) (x : DbExternals)
    (w : World) : World × BackupResult × String :=
  let compressedPath := filePath ++ ".gz"
  match compressFileGzip filePath compressedPath x w with
  | (w, none) =>
    let w := { w with files := w.files.remove filePath }
    let result := { result with FileName := fileName ++ ".gz" }
    let filePath := compressedPath
    match statSize w filePath with
    | some size => (w, { result with FileSize := size }, filePath)
    | none => (w, result, filePath)
  | (w, some _) => (w, result, filePath)

/-- Lines 357-393 of `createBackupForMachine`: upload and Sheets logging. -/
def uploadStage (machine : Machine) (database filePath : String) (result : BackupResult)
    (x : DbExternals) (w : World) : World :=
  if w.config.IsGoogleAuthenticated then
    match UploadFile filePath result.FileName x w with
    | (w, .ok driveID) =>
      let w := LogToSheets
        { ID := "", Timestamp := x.sheetsNow, MachineID := machine.ID, TableName := database,
          FileName := result.FileName, FileSize := result.FileSize, Success := true,
          Error := "", DriveID := driveID } x w
      { w with files := w.files.remove filePath }
    | (w, .error err) =>
      LogToSheets
        { ID := "", Timestamp := x.sheetsNow, MachineID := machine.ID, TableName := database,
          FileName := result.FileName, FileSize := result.FileSize, Success := false,
          Error := err, DriveID := "" } x w
  else w

/-- The artifact name built at line 323. -/
def artifactName (sanitizedMachineName database timestamp : String) : String :=
  "backup_" ++ sanitizedMachineName ++ "_" ++ database ++ "_" ++ timestamp ++ ".sql"

/-- The path of the uncompressed artifact of a database (line 324); the
compressed artifact is at this path followed by `.gz`. -/
def artifactPath (backupPath sanitizedMachineName database timestamp : String) : String :=
  filepathJoin backupPath (artifactName sanitizedMachineName database timestamp)

/-- The record handed to `LogToSheets` when the upload of the compressed
artifact of a database fails with the given error text (lines 381-389). -/
def uploadFailureLog (machine : Machine) (sanitizedMachineName database timestamp : String)
    (x : DbExternals) (err : String) : BackupLog :=
  { ID := "", Timestamp := x.sheetsNow, MachineID := machine.ID, TableName := database,
    FileName := artifactName sanitizedMachineName database timestamp ++ ".gz",
    FileSize := (x.gzipOutput.utf8ByteSize : Int), Success := false, Error := err,
    DriveID := "" }

/-- The body of the loop of `createBackupForMachine` (lines 319-408) for one
database. -/
def backupDatabase (machine : Machine) (sanitizedMachineName backupPath timestamp : String)
    (mysqlHost : String) (mysqlPort : Int) (database : String) (x : DbExternals) (w : World) :
    World × BackupResult :=
  let result : BackupResult :=
    { Database := database, Success := false, Error := "", FileName := "", FileSize := 0 }
  let fileName := artifactName sanitizedMachineName database timestamp
  let filePath := filepathJoin backupPath fileName
  let (w, result) :=
    match dumpDatabaseForMachine machine database filePath mysqlHost mysqlPort x w with
    | (w, .error err) => (w, { result with Success := false, Error := err })
    | (w, .ok ()) =>
      let result := { result with Success := true, FileName := fileName }
      let result :=
        match statSize w filePath with
        | some size => { result with FileSize := size }
        | none => result
      match compressStage fileName filePath result x w with
      | (w, result, filePath) => (uploadStage machine database filePath result x w, result)
  let logEntry : BackupLog :=
    { ID := "", Timestamp := x.logNow, MachineID := machine.ID, TableName := database,
      FileName := result.FileName, FileSize := result.FileSize, Success := result.Success,
      Error := result.Error, DriveID := "" }
  let w := { w with config := w.config.AddBackupLog logEntry x.logIdNow }
  (w, result)

/-- The loop of `createBackupForMachine` over the databases still to process;
`index` is the position of the first of them in the input list. -/
def backupLoop (machine : Machine) (sanitizedMachineName backupPath timestamp : String)
    (mysqlHost : String) (mysqlPort : Int) (j : JobExternals) :
    Nat → List String → World → List BackupResult → World × List BackupResult
  | _, [], w, results => (w, results)
  | index, database :: rest, w, results =>
    match backupDatabase machine sanitizedMachineName backupPath timestamp mysqlHost mysqlPort
        database (j.perDatabase index) w with
    | (w, result) =>
      backupLoop machine sanitizedMachineName backupPath timestamp mysqlHost mysqlPort j
        (index + 1) rest w (results ++ [result])

/-- The method `Service.createBackupForMachine`.  The context is accepted and
never consulted, as in the source.  The tunnel port is carried as a number: the
source prints it with `strconv.Itoa` and reads it back with `strconv.Atoi`.
The deferred `cleanup()` runs when the function returns. -/
def createBackupForMachine (_ctx : Context) (machine : Machine) (databases : List String)
    (j : JobExternals) (w : World) : World × Except String (List BackupResult) :=
  let sanitizedMachineName := sanitizeName machine.Name
  let backupPath := filepathJoin w.config.Backup.LocalPath machine.ID
  let w := w.emit (.mkdirAll backupPath)
  match j.mkdirErr with
  | some e => (w, .error ("failed to create backup directory: " ++ e))
  | none =>
    let timestamp := j.timestamp
    if machine.Kind = "remote" then
      match createSSHTunnel j with
      | .error e => (w, .error ("failed to create SSH tunnel: " ++ e))
      | .ok localPort =>
        let w := w.emit (.tunnelOpened localPort)
        match backupLoop machine sanitizedMachineName backupPath timestamp "localhost"
            (localPort : Int) j 0 databases w [] with
        | (w, results) => (w.emit .tunnelClosed, .ok results)
    else
      match backupLoop machine sanitizedMachineName backupPath timestamp machine.MySQL.Host
          machine.MySQL.Port j 0 databases w [] with
      | (w, results) => (w, .ok results)

/-- The method `Service.CreateMachineBackup`. -/
def CreateMachineBackup (ctx : Context) (machineID : String) (databases : List String)
    (j : JobExternals) (w : World) : World × Except String (List BackupResult) :=
  match w.config.GetMachine machineID with
  | .error e => (w, .error e)
  | .ok machine => createBackupForMachine ctx machine databases j w

/-! ## Concrete machines, states and runs used to exercise the embedding -/

/-- The reserved local machine created by `NewConfig`. -/
def exampleLocalMachine : Machine :=
  { ID := "local", Name := "Local Machine", Kind := "local", Description := "Local MySQL server",
    MySQL := { Host := "localhost", Port := 3306, Username := "root", Password := "pw",
               Database := "" },
    SSH := { Host := "", Port := 0, Username := "", Password := "", PrivateKey := "",
             Passphrase := "", KeyPath := "" },
    Enabled := true, CreatedAt := "2024-01-01T00:00:00Z", UpdatedAt := "2024-01-01T00:00:00Z" }

/-- A machine reached through an SSH tunnel. -/
def exampleRemoteMachine : Machine :=
  { ID := "machine_1", Name := "Prod DB #1", Kind := "remote", Description := "",
    MySQL := { Host := "127.0.0.1", Port := 3306, Username := "backup", Password := "pw",
               Database := "" },
    SSH := { Host := "db.example.org", Port := 22, Username := "ops", Password := "",
             PrivateKey := "", Passphrase := "", KeyPath := "/home/ops/.ssh/id_ed25519" },
    Enabled := true, CreatedAt := "2024-01-01T00:00:00Z", UpdatedAt := "2024-01-01T00:00:00Z" }

/-- Google settings without credentials. -/
def googleAbsent : GoogleConfig :=
  { ClientID := "", ClientSecret := "", SheetID := "", DriveFolder := "", AccessToken := "",
    RefreshToken := "", TokenExpiry := "" }

/-- Google settings with both tokens and a sheet. -/
def googlePresent : GoogleConfig :=
  { ClientID := "client", ClientSecret := "secret", SheetID := "sheet-1", DriveFolder := "",
    AccessToken := "access", RefreshToken := "refresh", TokenExpiry := "" }

/-- A configuration holding the two example machines. -/
def exampleConfig (google : GoogleConfig) : Config :=
  { Machines := [exampleLocalMachine, exampleRemoteMachine], Google := google,
    Scheduler := { Enabled := false, Schedules := [] },
    Backup := { LocalPath := "/var/backups/mysql", Compression := true, KeepLocal := false,
                RetentionDays := 30 },
    Service := { Installed := false }, filePath := "/etc/mysql-backup-config", logs := [] }

/-- A state with an empty filesystem, Drive folder, sheet and trace. -/
def exampleWorld (google : GoogleConfig) : World :=
  { config := exampleConfig google, files := fun _ => none, drive := [], sheet := [],
    trace := [] }

/-- A token that needs no refresh. -/
def tokenFresh : TokenExternals :=
  { expiresSoon := false, refreshAnswer := .error "not asked", saveErr := none }

/-- A database for which every stage succeeds. -/
def smoothRun : DbExternals :=
  { dumpLookPathErr := none, dumpRunErr := none,
    dumpStdout := "CREATE DEFINER=root VIEW v AS SELECT 1;", dumpWriteErr := none,
    gzipLookPathErr := none, renameErr := none, gzipCreateErr := none, gzipRunErr := none,
    gzipOutput := "gzip-bytes", uploadToken := tokenFresh, uploadAnswer := .ok "drive-id-1",
    sheetsToken := tokenFresh, sheetsNow := 1704164646, sheetsTimeText := "02/01/2024H03:04:06",
    sheetsPostErr := none, logNow := 1704164647, logIdNow := 1704164648 }

/-- A database processed while `mariadb-dump` is not installed. -/
def toolMissing : DbExternals :=
  { smoothRun with dumpLookPathErr := some "exec: mariadb-dump: executable file not found" }

/-- A database whose dump process exits with an error. -/
def dumpFails : DbExternals :=
  { smoothRun with dumpRunErr := some "exit status 2" }

/-- A database processed while `gzip` is not installed. -/
def gzipMissing : DbExternals :=
  { smoothRun with gzipLookPathErr := some "exec: gzip: executable file not found" }

/-- A database whose upload is refused by Drive. -/
def uploadFails : DbExternals :=
  { smoothRun with uploadAnswer := .error "upload failed with status: 403 - quota" }

/-- A job whose directory and tunnel set-up succeed. -/
def exampleJob (perDatabase : Nat → DbExternals) : JobExternals :=
  { timestamp := "20240102_030405", mkdirErr := none, listenErr := none, localPort := 40123,
    createTunnelErr := none, perDatabase := perDatabase }

/-- A job during which the SSH tunnel cannot be established. -/
def tunnelDownJob : JobExternals :=
  { exampleJob (fun _ => smoothRun) with createTunnelErr := some "ssh: handshake failed" }

/-- Two neighbours are not both underscores. -/
def NoDoubleUnderscore (a b : Char) : Prop := ¬ (a = '_' ∧ b = '_')

/-- The state `w'` has the same file as `w` at every path other than `a` and
`b`, and has recorded every action recorded in `w`. -/
def FrameOutside (a b : String) (w w' : World) : Prop :=
  (∀ p, p ≠ a → p ≠ b → w'.files p = w.files p) ∧ ∀ e ∈ w.trace, e ∈ w'.trace

/-! ## Paths as lists of elements -/

/-- Whether a path starts at the root. -/
def pathRooted (path : String) : Bool :=
  path.data.head? = some '/'

/-- The elements of a path that `filepath.Clean` keeps, in order. -/
def pathSegments (path : String) : List (List Char) :=
  cleanSegments (pathRooted path) [] (splitSlash path.data)

/-- The path with the given elements, written from the root or relative. -/
def pathFromSegments (rooted : Bool) (segments : List (List Char)) : String :=
  String.mk ((if rooted then ['/'] else []) ++ List.intercalate ['/'] segments)

/-- Whether an action opens or closes the SSH tunnel. -/
def Event.isTunnel : Event → Bool
  | .tunnelOpened _ => true
  | .tunnelClosed => true
  | _ => false

/-- Whether an action belongs to the processing of a database: running a
command, uploading a file or calling `LogToSheets`. -/
def Event.isDatabaseStep : Event → Bool
  | .commandRun _ _ => true
  | .uploadFile _ _ => true
  | .logToSheets _ => true
  | _ => false

/-- The trace of `w'` is the trace of `w` followed by actions of the
processing of databases. -/
def TraceGrows (w w' : World) : Prop :=
  ∃ es, w'.trace = w.trace ++ es ∧ ∀ e ∈ es, e.isDatabaseStep = true

/-! ## Scheduler (scheduler/service.go) and the cron library it drives -/

/-- The method `Config.GetEnabledSchedules`. -/
def Config.GetEnabledSchedules (c : Config) : List Schedule :=
  c.Scheduler.Schedules.filter fun s => s.Enabled

/-- The helper `getnum(s, fixed)` of package `time`: one or two decimal digits,
two being required when `fixed` is set. -/
def timeGetnum (s : List Char) (fixed : Bool) : Option (Nat × List Char) :=
  match s with
  | [] => none
  | a :: rest =>
    if isAsciiDigit a then
      match rest with
      | [] => if fixed then none else some (a.toNat - 48, [])
      | b :: rest2 =>
        if isAsciiDigit b then some ((a.toNat - 48) * 10 + (b.toNat - 48), rest2)
        else if fixed then none else some (a.toNat - 48, rest)
    else none

/-- The call `time.Parse("15:04", value)`: the hour (one or two digits, below
24), a colon, the minute (two digits, below 60) and nothing more. Returns hour
and minute. -/
def timeParseClock (value : List Char) : Option (Nat × Nat) :=
  match timeGetnum value false with
  | none => none
  | some (hour, rest) =>
    if 24 ≤ hour then none
    else
      match rest with
      | ':' :: rest =>
        match timeGetnum rest true with
        | none => none
        | some (minute, rest) =>
          if 60 ≤ minute then none else if rest = [] then some (hour, minute) else none
      | _ => none

/-- The method `Service.buildCronExpression`. -/
def buildCronExpression (dayOfWeek : Int) (timeStr : String) : Except String String :=
  match timeParseClock timeStr.data with
  | none => .error ("invalid time format: " ++ timeStr)
  | some (hour, minute) =>
    .ok (toString minute ++ " " ++ toString hour ++ " * * " ++ toString dayOfWeek)

/-- White space as `strings.Fields` sees it, for ASCII. -/
def isSpaceChar (c : Char) : Bool :=
  c == ' ' || c == '\t' || c == '\n' || c == '\r' || c.toNat == 11 || c.toNat == 12

/-- Splits a text at every character satisfying `p`. -/
def splitWhere (p : Char → Bool) : List Char → List (List Char)
  | [] => [[]]
  | c :: rest =>
    match splitWhere p rest with
    | [] => [[]]
    | seg :: segs => if p c then [] :: seg :: segs else (c :: seg) :: segs

/-- The call `strings.Fields(s)`: the maximal runs of characters that are not
white space. -/
def stringsFields (s : List Char) : List (List Char) :=
  (splitWhere isSpaceChar s).filter fun field => field ≠ []

/-- An unsigned decimal number: a non-empty run of digits. -/
def parseDecimal : List Char → Option Nat
  | [] => none
  | c :: rest => rest.foldl
      (fun acc d => match acc with
        | none => none
        | some n => if isAsciiDigit d then some (n * 10 + (d.toNat - 48)) else none)
      (if isAsciiDigit c then some (c.toNat - 48) else none)

/-- One field of a cron specification, restricted to the two forms that
`buildCronExpression` produces: `*`, or a decimal number, which has to lie
within the bounds of the field. Lists, ranges, steps and names, which the
library also reads, are rejected here. -/
def cronFieldOk (field : List Char) (lo hi : Nat) : Bool :=
  field = ['*'] ||
    match parseDecimal field with
    | some n => lo ≤ n && n ≤ hi
    | none => false

/-- The standard parser of `robfig/cron` (five fields: minute, hour, day of
month, month, day of week) on specifications whose fields have the forms of
`cronFieldOk`: the error text, or `none` when the specification is accepted. -/
def cronParseStandard (spec : String) : Option String :=
  match stringsFields spec.data with
  | [minute, hour, dom, month, dow] =>
    if cronFieldOk minute 0 59 && cronFieldOk hour 0 23 && cronFieldOk dom 1 31 &&
        cronFieldOk month 1 12 && cronFieldOk dow 0 6 then none
    else some ("failed to parse spec: " ++ spec)
  | fields => some ("expected exactly 5 fields, found " ++ toString fields.length ++ ": " ++ spec)

/-- The zero value of `time.Time`, January 1 of year 1, in Unix nanoseconds. -/
def zeroTime : Int := -62135596800000000000

/-- An entry of the cron: its id, its specification, the schedule captured by
its callback and the cached next activation. -/
structure CronEntry where
  ID : Nat
  Spec : String
  Job : Schedule
  Next : Int
deriving DecidableEq

/-- The state of a `cron.Cron`. -/
structure Cron where
  entries : List CronEntry
  nextID : Nat
  running : Bool
deriving DecidableEq

/-- The call `cron.New()`. -/
def Cron.New : Cron :=
  { entries := [], nextID := 0, running := false }

/-- The call `c.AddFunc(spec, cmd)`. A specification that does not parse
leaves the cron as it is. The new entry gets the next id; its next activation
is the zero time while the cron is not running and is computed from the clock,
given as `nextActivation`, while it runs. -/
def Cron.AddFunc (c : Cron) (nextActivation : String → Int) (spec : String) (job : Schedule) :
    Cron × Except String Nat :=
  match cronParseStandard spec with
  | some err => (c, .error err)
  | none =>
    let entry : CronEntry :=
      { ID := c.nextID + 1, Spec := spec, Job := job,
        Next := if c.running then nextActivation spec else zeroTime }
    ({ c with nextID := c.nextID + 1, entries := c.entries ++ [entry] }, .ok (c.nextID + 1))

/-- The call `c.Start()`: a no-op on a running cron; otherwise the cron runs
and computes the next activation of every entry. -/
def Cron.Start (c : Cron) (nextActivation : String → Int) : Cron :=
  if c.running then c
  else { c with running := true,
                entries := c.entries.map fun e => { e with Next := nextActivation e.Spec } }

/-- The call `c.Stop()`: the cron stops running; its entries stay. -/
def Cron.Stop (c : Cron) : Cron :=
  { c with running := false }

/-- The struct `scheduler.Service`, without its lock and without the pointers
to the configuration and to the backup service, which are passed to the
methods. The map `nextRuns` is a list of pairs with distinct keys. -/
structure SchedulerService where
  cron : Cron
  running : Bool
  nextRuns : List (String × Int)
deriving DecidableEq

/-- The function `scheduler.NewService`. -/
def NewService : SchedulerService :=
  { cron := Cron.New, running := false, nextRuns := [] }

/-- The assignment `m[key] = value` on a map. -/
def mapSet (m : List (String × Int)) (key : String) (value : Int) : List (String × Int) :=
  if m.any (fun kv => kv.1 == key) then
    m.map fun kv => if kv.1 == key then (key, value) else kv
  else m ++ [(key, value)]

/-- The key of `nextRuns` built at line 129. -/
def nextRunKey (scheduleID : String) (dayOfWeek : Int) (timeStr : String) : String :=
  scheduleID ++ "_" ++ toString dayOfWeek ++ "_" ++ timeStr

/-- The inner loop of `addScheduleToCron` over the times of one weekday. -/
def addScheduleTimes (nextActivation : String → Int) (schedule : Schedule) (dayOfWeek : Int) :
    List String → SchedulerService → SchedulerService × Option String
  | [], s => (s, none)
  | timeStr :: rest, s =>
    match buildCronExpression dayOfWeek timeStr with
    | .error e => (s, some ("failed to build cron expression: " ++ e))
    | .ok cronExpr =>
      match s.cron.AddFunc nextActivation cronExpr schedule with
      | (_, .error e) => (s, some ("failed to add cron job: " ++ e))
      | (cron, .ok entryID) =>
        let s := { s with cron := cron }
        let s :=
          match cron.entries.find? (fun entry => entry.ID == entryID) with
          | some entry =>
            let key := nextRunKey schedule.ID dayOfWeek timeStr
            { s with nextRuns := mapSet s.nextRuns key entry.Next }
          | none => s
        addScheduleTimes nextActivation schedule dayOfWeek rest s

/-- The outer loop of `addScheduleToCron` over the weekdays. -/
def addScheduleDays (nextActivation : String → Int) (schedule : Schedule) :
    List Int → SchedulerService → SchedulerService × Option String
  | [], s => (s, none)
  | dayOfWeek :: rest, s =>
    match addScheduleTimes nextActivation schedule dayOfWeek schedule.Times s with
    | (s, some e) => (s, some e)
    | (s, none) => addScheduleDays nextActivation schedule rest s

/-- The method `Service.addScheduleToCron`. -/
def addScheduleToCron (nextActivation : String → Int) (schedule : Schedule)
    (s : SchedulerService) : SchedulerService × Option String :=
  addScheduleDays nextActivation schedule schedule.DaysOfWeek s

/-- The loop of `Start` over the enabled schedules: a schedule whose
registration fails is logged and skipped. -/
def addSchedules (nextActivation : String → Int) :
    List Schedule → SchedulerService → SchedulerService
  | [], s => s
  | schedule :: rest, s =>
    addSchedules nextActivation rest (addScheduleToCron nextActivation schedule s).1

/-- The method `Service.Start`; `cfg` is the configuration at the time of the
call and `none` stands for a nil error. -/
def Start (cfg : Config) (nextActivation : String → Int) (s : SchedulerService) :
    SchedulerService × Option String :=
  if s.running then (s, some "scheduler is already running")
  else
    let schedules := cfg.GetEnabledSchedules
    if schedules.length = 0 then (s, some "no enabled schedules found")
    else
      let s := addSchedules nextActivation schedules s
      ({ s with cron := s.cron.Start nextActivation, running := true }, none)

/-- The method `Service.Stop`. -/
def Stop (s : SchedulerService) : SchedulerService :=
  if !s.running then s
  else { s with cron := s.cron.Stop, running := false, nextRuns := [] }

/-- The method `Service.Restart`. -/
def Restart (cfg : Config) (nextActivation : String → Int) (s : SchedulerService) :
    SchedulerService × Option String :=
  Start cfg nextActivation (Stop s)

/-- The method `Service.IsRunning`. -/
def IsRunning (s : SchedulerService) : Bool :=
  s.running

/-- The method `Service.GetNextRuns`: a copy of the map. -/
def GetNextRuns (s : SchedulerService) : List (String × Int) :=
  s.nextRuns

/-- The loop of `GetNextRun` over the map entries in the order in which `range`
visits them. `earliest` is the value the pointer refers to, if it is set. With
`freshLoopVar` (Go 1.22 and later) every iteration has its own variable
`nextRun`; before, all iterations share one variable, so that a pointer taken to
it reads the value of the current iteration. -/
def getNextRunLoop (freshLoopVar : Bool) : Option Int → List (String × Int) → Option Int
  | earliest, [] => earliest
  | earliest, (_, nextRun) :: rest =>
    let seen := if freshLoopVar then earliest else earliest.map fun _ => nextRun
    match seen with
    | none => getNextRunLoop freshLoopVar (some nextRun) rest
    | some e =>
      if nextRun < e then getNextRunLoop freshLoopVar (some nextRun) rest
      else getNextRunLoop freshLoopVar (some e) rest

/-- The method `Service.GetNextRun`, visiting the map in the order of the
list; `none` stands for a nil pointer. -/
def GetNextRun (freshLoopVar : Bool) (s : SchedulerService) : Option Int :=
  if (GetNextRuns s).length = 0 then none
  else getNextRunLoop freshLoopVar none (GetNextRuns s)

/-- One path visited by `filepath.Walk`: whether it is a directory, its
modification time, the error `Walk` reports for it and the error of
`os.Remove` on it, if any. -/
structure WalkEntry where
  path : String
  isDir : Bool
  modTime : Int
  walkErr : Option String
  removeErr : Option String
deriving DecidableEq

/-- Inputs of `CleanupOldBackups`: the clock in Unix nanoseconds and the paths
under the backup directory in the order in which `filepath.Walk` visits them. -/
structure CleanupExternals where
  now : Int
  visited : List WalkEntry

/-- The callback of `CleanupOldBackups` along the walk: the first error ends
the walk. -/
def cleanupWalk (cutoff : Int) : List WalkEntry → World → World × Option String
  | [], w => (w, none)
  | entry :: rest, w =>
    match entry.walkErr with
    | some err => (w, some err)
    | none =>
      if !entry.isDir && entry.modTime < cutoff then
        if ".sql".data.isSuffixOf entry.path.data || ".gz".data.isSuffixOf entry.path.data ||
            ".zip".data.isSuffixOf entry.path.data then
          match entry.removeErr with
          | some err => (w, some err)
          | none => cleanupWalk cutoff rest { w with files := w.files.remove entry.path }
        else cleanupWalk cutoff rest w
      else cleanupWalk cutoff rest w

/-- The method `Service.CleanupOldBackups`. The call is recorded in the trace.
The cutoff `time.Now().AddDate(0, 0, -RetentionDays)` is taken as that many
days of 24 hours before the clock reading. -/
def CleanupOldBackups (x : CleanupExternals) (w : World) : World × Option String :=
  let w := w.emit .cleanupOldBackups
  if w.config.Backup.RetentionDays ≤ 0 then (w, none)
  else cleanupWalk (x.now - w.config.Backup.RetentionDays * 86400000000000) x.visited w

/-- The method `Service.runScheduledBackup`. The context it creates is not
cancelled when the job starts. -/
def runScheduledBackup (schedule : Schedule) (j : JobExternals) (x : CleanupExternals)
    (w : World) : World :=
  match CreateMachineBackup ⟨false⟩ schedule.MachineID schedule.Databases j w with
  | (w, .error _) => w
  | (w, .ok _) => (CleanupOldBackups x w).1

/-- A schedule on the local machine: Mondays and Wednesdays at 09:00 and at
18:30. -/
def exampleSchedule : Schedule :=
  { ID := "schedule_1", Name := "nightly", Description := "", Enabled := true,
    MachineID := "local", Databases := ["shop"], DaysOfWeek := [1, 3],
    Times := ["09:00", "18:30"], CreatedAt := "2024-01-01T00:00:00Z",
    UpdatedAt := "2024-01-01T00:00:00Z" }

/-- The example configuration with the given schedules. -/
def configWithSchedules (schedules : List Schedule) : Config :=
  { exampleConfig googleAbsent with Scheduler := { Enabled := true, Schedules := schedules } }

/-- A clock for which every specification fires next at the same instant. -/
def exampleNextActivation : String → Int :=
  fun _ => 1704186000000000000

/-- An enabled schedule without weekdays: its weekday × time cross product is
empty. -/
def emptyCrossSchedule : Schedule :=
  { exampleSchedule with ID := "schedule_2", Name := "never", DaysOfWeek := [] }

/-- A schedule whose second time is not a time of day. -/
def badTimeSchedule : Schedule :=
  { exampleSchedule with ID := "schedule_3", Name := "broken", Times := ["07:15", "25:00"] }

/-- A schedule for a machine that is not in the example configuration. -/
def orphanSchedule : Schedule :=
  { exampleSchedule with ID := "schedule_4", Name := "orphan", MachineID := "machine_7" }

/-- A walk over an empty backup directory. -/
def exampleCleanup : CleanupExternals :=
  { now := 1704164700000000000, visited := [] }

/-- The states a scheduler can be in: the state made by `NewService` and every
state reached from it by calls of `Start` and `Stop`. -/
inductive Reachable : SchedulerService → Prop where
  | init : Reachable NewService
  | start (cfg : Config) (nextActivation : String → Int) (s : SchedulerService) :
      Reachable s → Reachable (Start cfg nextActivation s).1
  | stop (s : SchedulerService) : Reachable s → Reachable (Stop s)

/-- A schedule all of whose triggers can be registered: every weekday lies in
0..6 and every time parses in the layout `15:04`. -/
def ScheduleValid (schedule : Schedule) : Prop :=
  (∀ d ∈ schedule.DaysOfWeek, 0 ≤ d ∧ d ≤ 6) ∧
    ∀ t ∈ schedule.Times, (timeParseClock t.data).isSome = true

/-- The cron expression for a weekday and a time, empty when the time does not
parse. -/
def cronExpressionOf (dayOfWeek : Int) (timeStr : String) : String :=
  match buildCronExpression dayOfWeek timeStr with
  | .ok cronExpr => cronExpr
  | .error _ => ""

/-- The triggers of a schedule: one pair of cron expression and schedule per
(weekday, time) tuple, weekdays outermost. -/
def scheduleTriggers (schedule : Schedule) : List (String × Schedule) :=
  schedule.DaysOfWeek.flatMap fun d =>
    schedule.Times.map fun t => (cronExpressionOf d t, schedule)

/-- The keys of the next-fire cache for a schedule: one per (weekday, time)
tuple. -/
def scheduleKeys (schedule : Schedule) : List String :=
  schedule.DaysOfWeek.flatMap fun d =>
    schedule.Times.map fun t => nextRunKey schedule.ID d t

/-- The triggers registered in a cron: expression and schedule of each entry,
in order of registration. -/
def Cron.triggers (c : Cron) : List (String × Schedule) :=
  c.entries.map fun e => (e.Spec, e.Job)

/-- Adding keys to the key set of a map, in order. -/
def insertKeys (keys : List String) (present : List String) : List String :=
  keys.foldl (fun m k => if k ∈ m then m else m ++ [k]) present

/-- Two enabled schedules that carry the same id. -/
def twinSchedules : List Schedule :=
  [{ exampleSchedule with DaysOfWeek := [1], Times := ["09:00"] },
    { exampleSchedule with Name := "twin", DaysOfWeek := [1], Times := ["09:00"] }]

/-- The decimal digit character of a number below ten. -/
def digitChar (n : Nat) : Char :=
  Char.ofNat (48 + n)

/-- The text `HH:MM` of an hour and a minute, two decimal digits each. -/
def clockText (hour minute : Nat) : String :=
  String.mk [digitChar (hour / 10), digitChar (hour % 10), ':', digitChar (minute / 10),
    digitChar (minute % 10)]

/-- A scheduler whose next-fire cache holds three instants, the earliest in
the middle. -/
def threeRunsService : SchedulerService :=
  { cron := Cron.New, running := true,
    nextRuns := [("schedule_1_1_09:00", 1704186000000000000),
      ("schedule_1_3_09:00", 1704099600000000000),
      ("schedule_1_3_18:30", 1704133800000000000)] }

/-- The suffix test of `CleanupOldBackups` on a path. -/
def hasBackupSuffix (path : String) : Bool :=
  ".sql".data.isSuffixOf path.data || ".gz".data.isSuffixOf path.data ||
    ".zip".data.isSuffixOf path.data

/-- The condition under which the callback of `CleanupOldBackups` removes a
visited path: not a directory, modified strictly before the cutoff, and ending
in one of the three suffixes. -/
def RemovalDue (cutoff : Int) (entry : WalkEntry) : Prop :=
  entry.isDir = false ∧ entry.modTime < cutoff ∧ hasBackupSuffix entry.path = true

/-- A backup directory holding an old compressed artifact, a recent one and an
old text file. -/
def retentionFiles : FileSystem :=
  fun p =>
    if p = "/var/backups/mysql/local/backup_Local_Machine_shop_20231101_030405.sql.gz" then
      some "old"
    else if p = "/var/backups/mysql/local/backup_Local_Machine_shop_20240101_030405.sql.gz" then
      some "recent"
    else if p = "/var/backups/mysql/local/notes.txt" then some "text"
    else none

/-- The walk over `retentionFiles` on 2 January 2024, without filesystem
errors. -/
def retentionCleanup : CleanupExternals :=
  { now := 1704164700000000000,
    visited :=
      [{ path := "/var/backups/mysql", isDir := true, modTime := 1698800000000000000,
         walkErr := none, removeErr := none },
        { path := "/var/backups/mysql/local", isDir := true, modTime := 1698800000000000000,
          walkErr := none, removeErr := none },
        { path := "/var/backups/mysql/local/backup_Local_Machine_shop_20231101_030405.sql.gz",
          isDir := false, modTime := 1698807845000000000, walkErr := none, removeErr := none },
        { path := "/var/backups/mysql/local/backup_Local_Machine_shop_20240101_030405.sql.gz",
          isDir := false, modTime := 1704078245000000000, walkErr := none, removeErr := none },
        { path := "/var/backups/mysql/local/notes.txt", isDir := false,
          modTime := 1698807845000000000, walkErr := none, removeErr := none }] }

/-- The example state with the files of `retentionFiles`. -/
def retentionWorld : World :=
  { exampleWorld googleAbsent with files := retentionFiles }

/-! ## Machine management (config.go) -/

/-- What the outside world decides during one mutating method of `Config`: the
clock readings (`UnixNano` for a new id, the RFC 3339 texts for the two
timestamps) and the error of the closing `c.Save()`, `none` when it succeeds. -/
structure MutationExternals where
  nanos : Int
  createdAt : String
  updatedAt : String
  saveErr : Option String

/-- The method `Config.AddMachine`: the configuration in memory afterwards and
the returned error. -/
def Config.AddMachine (c : Config) (machine : Machine) (x : MutationExternals) :
    Config × Option String :=
  let machine := { machine with ID := "machine_" ++ toString x.nanos, CreatedAt := x.createdAt,
                                UpdatedAt := x.updatedAt }
  ({ c with Machines := c.Machines ++ [machine] }, x.saveErr)

/-- The loop of `Config.UpdateMachine`: the list with the first machine of the
given id replaced, or `none` when no machine has it. -/
def updateMachineLoop (machineID : String) (machine : Machine) (updatedAt : String) :
    List Machine → Option (List Machine)
  | [] => none
  | m :: rest =>
    if m.ID = machineID then
      some ({ machine with ID := machineID, CreatedAt := m.CreatedAt, UpdatedAt := updatedAt }
        :: rest)
    else (updateMachineLoop machineID machine updatedAt rest).map fun ms => m :: ms

/-- The method `Config.UpdateMachine`. -/
def Config.UpdateMachine (c : Config) (machineID : String) (machine : Machine)
    (x : MutationExternals) : Config × Option String :=
  match updateMachineLoop machineID machine x.updatedAt c.Machines with
  | some machines => ({ c with Machines := machines }, x.saveErr)
  | none => (c, some "machine not found")

/-- The search loop of `Config.DeleteMachine`: the list without the first
machine of the given id, or `none` when no machine has it. -/
def deleteMachineLoop (machineID : String) : List Machine → Option (List Machine)
  | [] => none
  | m :: rest =>
    if m.ID = machineID then some rest
    else (deleteMachineLoop machineID rest).map fun ms => m :: ms

/-- The method `Config.DeleteMachine`. -/
def Config.DeleteMachine (c : Config) (machineID : String) (x : MutationExternals) :
    Config × Option String :=
  if machineID = "local" then (c, some "cannot delete local machine")
  else
    match deleteMachineLoop machineID c.Machines with
    | some machines =>
      let newSchedules := c.Scheduler.Schedules.filter fun s => s.MachineID != machineID
      ({ c with Machines := machines, Scheduler := { c.Scheduler with Schedules := newSchedules } },
        x.saveErr)
    | none => (c, some "machine not found")

/-- The number of machines carrying the reserved id `local`. -/
def localMachineCount (c : Config) : Nat :=
  c.Machines.countP fun m => m.ID == "local"

/-- Clock readings of a mutating call whose `Save` succeeds. -/
def exampleMutation : MutationExternals :=
  { nanos := 1704164700000000000, createdAt := "2024-01-02T03:05:00Z",
    updatedAt := "2024-01-02T03:05:00Z", saveErr := none }

/-- The example configuration with one schedule on each machine. -/
def twoMachineSchedules : Config :=
  configWithSchedules
    [exampleSchedule, { exampleSchedule with ID := "schedule_5", MachineID := "machine_1" },
      emptyCrossSchedule]

/-! ## The backup log (config.go) -/

/-- The zero value of `BackupLog`, with which `make` fills a new slice. -/
def BackupLog.zero : BackupLog :=
  { ID := "", Timestamp := 0, MachineID := "", TableName := "", FileName := "", FileSize := 0,
    Success := false, Error := "", DriveID := "" }

/-- The method `Config.GetBackupLogs`: a new slice of the length of the log in
which entry `i` of the log is written at position `len - 1 - i`. The error it
returns is always nil, and the receiver is only read. -/
def Config.GetBackupLogs (c : Config) : List BackupLog :=
  c.logs.enum.foldl (fun logs il => logs.set (c.logs.length - 1 - il.1) il.2)
    (List.replicate c.logs.length BackupLog.zero)

/-- Consecutive calls of `AddBackupLog`, each with its argument and the clock
reading that becomes the `ID`. -/
def addBackupLogs (c : Config) (calls : List (BackupLog × Int)) : Config :=
  calls.foldl (fun c call => c.AddBackupLog call.1 call.2) c

/-- The entry as `AddBackupLog` stores it: its argument with the `ID` set from
the clock. -/
def storedLog (call : BackupLog × Int) : BackupLog :=
  { call.1 with ID := toString call.2 }

/-- Three entries for the example machine. -/
def exampleLogCalls : List (BackupLog × Int) :=
  [({ BackupLog.zero with MachineID := "local", TableName := "shop", Success := true },
      1704164648000000001),
    ({ BackupLog.zero with MachineID := "local", TableName := "crm", Error := "exit status 2" },
      1704164648000000002),
    ({ BackupLog.zero with MachineID := "local", TableName := "wiki", Success := true },
      1704164648000000003)]

/-- The calls of `AddBackupLog` that mirror the results of a job: for the
database at position `k`, the entry built at lines 397-405 from the result of
that database, and the clock reading that becomes its `ID`. -/
def jobLogCalls (machineID : String) (j : JobExternals) :
    Nat → List String → List BackupResult → List (BackupLog × Int)
  | k, database :: databases, result :: results =>
    ({ ID := "", Timestamp := (j.perDatabase k).logNow, MachineID := machineID,
       TableName := database, FileName := result.FileName, FileSize := result.FileSize,
       Success := result.Success, Error := result.Error, DriveID := "" },
      (j.perDatabase k).logIdNow) :: jobLogCalls machineID j (k + 1) databases results
  | _, _, _ => []

/-! ## Saving and loading the configuration (config.go) -/

/-- What `json.MarshalIndent(c, ...)` writes and what `json.Unmarshal(data, c)`
sets: the five exported fields of `Config`. The unexported fields `filePath`
and `logs` are not seen by `encoding/json`. A document is taken to carry all
five keys, as every document written by `Save` does. -/
structure ConfigDocument where
  Machines : List Machine
  Google : GoogleConfig
  Scheduler : SchedulerConfig
  Backup : BackupConfig
  Service : ServiceConfig
deriving DecidableEq

/-- The content of a configuration file: the output of `encrypt` (nonce and
AES-GCM ciphertext of a document under the key derived from a host name), a
plain JSON document, or bytes that neither decrypt nor parse. -/
inductive ConfigFile where
  | sealed (hostname : String) (doc : ConfigDocument)
  | json (doc : ConfigDocument)
  | unreadable
deriving DecidableEq

/-- Configuration files by path. -/
abbrev ConfigDisk := String → Option ConfigFile

/-- What the outside world decides while the configuration is built, saved or
loaded: the host name from which the key is derived, the errors of
`os.MkdirAll`, of reading the nonce, of `os.WriteFile` and of `os.ReadFile`
other than a missing file (`none` when the operation succeeds), the two clock
readings of `NewConfig` as RFC 3339 texts and the two default paths. -/
structure StoreExternals where
  hostname : String
  mkdirErr : Option String
  nonceErr : Option String
  writeErr : Option String
  readErr : Option String
  createdAt : String
  updatedAt : String
  defaultConfigPath : String
  defaultBackupPath : String

/-- The document `json.MarshalIndent` makes of a configuration. -/
def Config.marshal (c : Config) : ConfigDocument :=
  { Machines := c.Machines, Google := c.Google, Scheduler := c.Scheduler, Backup := c.Backup,
    Service := c.Service }

/-- The effect of `json.Unmarshal(data, c)` for a document: the exported
fields are set, the others stay. -/
def Config.unmarshal (c : Config) (doc : ConfigDocument) : Config :=
  { c with Machines := doc.Machines, Google := doc.Google, Scheduler := doc.Scheduler,
           Backup := doc.Backup, Service := doc.Service }

/-- The method `Config.Save`: the disk afterwards and the error, `none` for
nil. -/
def Config.Save (c : Config) (x : StoreExternals) (disk : ConfigDisk) :
    ConfigDisk × Option String :=
  match x.mkdirErr with
  | some e => (disk, some ("failed to create config directory: " ++ e))
  | none =>
    let data := c.marshal
    match x.nonceErr with
    | some e => (disk, some ("failed to encrypt config: " ++ e))
    | none =>
      let encrypted := ConfigFile.sealed x.hostname data
      match x.writeErr with
      | some e => (disk, some e)
      | none => (fun p => if p = c.filePath then some encrypted else disk p, none)

/-- The errors of `Config.Load`: the file does not exist, or anything else. -/
inductive LoadError where
  | notExist
  | other (message : String)
deriving DecidableEq

/-- The method `Config.Load`: decryption succeeds on a file sealed under the
key of this host; otherwise the bytes are tried as plain JSON. -/
def Config.Load (c : Config) (x : StoreExternals) (disk : ConfigDisk) : Except LoadError Config :=
  match x.readErr with
  | some e => .error (.other e)
  | none =>
    match disk c.filePath with
    | none => .error .notExist
    | some (.sealed hostname doc) =>
      if hostname = x.hostname then .ok (c.unmarshal doc)
      else .error (.other "failed to decrypt and parse config: invalid character")
    | some (.json doc) => .ok (c.unmarshal doc)
    | some .unreadable => .error (.other "failed to decrypt and parse config: invalid character")

/-- The function `NewConfig`: the disk afterwards and the configuration or the
error. -/
def NewConfig (configPath : String) (x : StoreExternals) (disk : ConfigDisk) :
    ConfigDisk × Except String Config :=
  let cfg : Config :=
    { Machines :=
        [{ ID := "local", Name := "Local Machine", Kind := "local",
           Description := "Local MySQL server",
           MySQL := { Host := "localhost", Port := 3306, Username := "", Password := "",
                      Database := "" },
           SSH := { Host := "", Port := 0, Username := "", Password := "", PrivateKey := "",
                    Passphrase := "", KeyPath := "" },
           Enabled := true, CreatedAt := x.createdAt, UpdatedAt := x.updatedAt }],
      Google := { ClientID := "", ClientSecret := "", SheetID := "", DriveFolder := "",
                  AccessToken := "", RefreshToken := "", TokenExpiry := "" },
      Scheduler := { Enabled := false, Schedules := [] },
      Backup := { LocalPath := x.defaultBackupPath, Compression := true, KeepLocal := false,
                  RetentionDays := 30 },
      Service := { Installed := false },
      filePath := if configPath = "" then x.defaultConfigPath else configPath,
      logs := [] }
  match cfg.Load x disk with
  | .ok cfg => (disk, .ok cfg)
  | .error .notExist =>
    match cfg.Save x disk with
    | (disk, some e) => (disk, .error ("failed to create default config: " ++ e))
    | (disk, none) => (disk, .ok cfg)
  | .error (.other e) => (disk, .error ("failed to load config: " ++ e))

/-- A host on which every filesystem operation succeeds. -/
def exampleStore : StoreExternals :=
  { hostname := "backup-host", mkdirErr := none, nonceErr := none, writeErr := none,
    readErr := none, createdAt := "2024-01-01T00:00:00Z", updatedAt := "2024-01-01T00:00:00Z",
    defaultConfigPath := "/root/config/.mysql-backup-config",
    defaultBackupPath := "/root/mysql-backups" }

/-- A disk without files. -/
def emptyDisk : ConfigDisk :=
  fun _ => none

/-- A log entry for a successful backup of the database `shop`. -/
def exampleLogEntry : BackupLog :=
  { ID := "", Timestamp := 1704164647, MachineID := "local", TableName := "shop",
    FileName := "backup_Local_Machine_shop_20240102_030405.sql.gz", FileSize := 10,
    Success := true, Error := "", DriveID := "" }

/-! ## Definer clauses in the dump output -/

/-- The filter applied to the dump output at line 502, on characters. -/
def neutralizeDefiner (output : List Char) : List Char :=
  replaceAllChars "DEFINER=".data "-- DEFINER=".data 0 output

/-- The number of positions of a text at which `old` occurs. -/
def countOccurrences (old : List Char) : List Char → Nat
  | [] => 0
  | c :: rest => (if old.isPrefixOf (c :: rest) then 1 else 0) + countOccurrences old rest

/-! ## Properties of `sanitizeName` -/

theorem mem_replaceDisallowed {name : List Char} {c : Char}
    (h : c ∈ replaceDisallowed name) : isNameChar c = true := by
  unfold replaceDisallowed at h
  rcases List.mem_map.mp h with ⟨d, -, rfl⟩
  by_cases hd : isNameChar d = true
  · rw [if_pos hd]; exact hd
  · rw [if_neg hd]; decide

theorem mem_collapseUnderscores {c : Char} :
    ∀ (l : List Char) (b : Bool), c ∈ collapseUnderscores b l → c ∈ l
  | [], _, h => by simp [collapseUnderscores] at h
  | d :: rest, b, h => by
    unfold collapseUnderscores at h
    by_cases hd : d = '_'
    · cases b
      · simp only [hd, if_true, Bool.false_eq_true, if_false, List.mem_cons] at h
        rcases h with h | h
        · simp [h, hd]
        · exact List.mem_cons_of_mem _ (mem_collapseUnderscores rest true h)
      · simp only [hd, if_true] at h
        exact List.mem_cons_of_mem _ (mem_collapseUnderscores rest true h)
    · simp only [hd, if_false, List.mem_cons] at h
      rcases h with h | h
      · simp [h]
      · exact List.mem_cons_of_mem _ (mem_collapseUnderscores rest false h)

theorem mem_trimUnderscores {c : Char} {s : List Char}
    (h : c ∈ trimUnderscores s) : c ∈ s := by
  unfold trimUnderscores at h
  have h1 : c ∈ s.dropWhile (· == '_') :=
    ( List.rdropWhile_prefix (· == '_') _).subset h
  exact (List.dropWhile_suffix _).subset h1

theorem collapseUnderscores_chain :
    ∀ (l : List Char) (b : Bool),
      List.Chain' NoDoubleUnderscore (collapseUnderscores b l) ∧
        (b = true → (collapseUnderscores b l).head? ≠ some '_')
  | [], _ => by simp [collapseUnderscores]
  | d :: rest, b => by
    unfold collapseUnderscores
    by_cases hd : d = '_'
    · cases b
      · simp only [hd, if_true, Bool.false_eq_true, if_false, false_implies, and_true]
        rw [List.chain'_cons']
        refine ⟨?_, (collapseUnderscores_chain rest true).1⟩
        intro y hy hboth
        have hy' : (collapseUnderscores true rest).head? = some y := hy
        rw [hboth.2] at hy'
        exact (collapseUnderscores_chain rest true).2 rfl hy'
      · rw [if_pos hd, if_pos rfl]
        exact collapseUnderscores_chain rest true
    · simp only [hd, if_false]
      refine ⟨?_, ?_⟩
      · rw [List.chain'_cons']
        exact ⟨fun y _ hboth => hd hboth.1, (collapseUnderscores_chain rest false).1⟩
      · intro _ h
        simp only [List.head?_cons, Option.some.injEq] at h
        exact hd h

theorem trimUnderscores_contiguous (s : List Char) : trimUnderscores s <:+: s := by
  unfold trimUnderscores
  exact ( List.rdropWhile_prefix (· == '_') _).isInfix.trans
    (List.dropWhile_suffix _).isInfix

theorem trimUnderscores_head (s : List Char) : (trimUnderscores s).head? ≠ some '_' := by
  intro h
  unfold trimUnderscores at h
  obtain ⟨r, hr⟩ := List.rdropWhile_prefix (· == '_') (s.dropWhile (· == '_'))
  unfold List.rdropWhile at hr
  have h2 : (s.dropWhile (· == '_')).head? = some '_' := by
    rw [← hr]
    rcases List.head?_eq_some_iff.mp h with ⟨ys, hys⟩
    rw [hys]
    rfl
  have h3 := List.head?_dropWhile_not (· == '_') s
  rw [h2] at h3
  simp at h3

theorem trimUnderscores_getLast (s : List Char) :
    (trimUnderscores s).getLast? ≠ some '_' := by
  intro h
  have hne : trimUnderscores s ≠ [] := by
    intro h0
    rw [h0] at h
    simp at h
  have hlast : (trimUnderscores s).getLast hne = '_' := by
    rw [List.getLast?_eq_getLast _ hne] at h
    exact Option.some.inj h
  have hnot := List.rdropWhile_last_not (· == '_') (s.dropWhile (· == '_')) hne
  apply hnot
  have : (List.rdropWhile (· == '_') (s.dropWhile (· == '_'))).getLast hne = '_' := hlast
  rw [this]
  rfl

theorem sanitizeChars_ne_nil (name : List Char) : sanitizeChars name ≠ [] := by
  unfold sanitizeChars
  simp only
  split
  · decide
  · assumption

theorem mem_sanitizeChars {name : List Char} {c : Char} (h : c ∈ sanitizeChars name) :
    isNameChar c = true := by
  unfold sanitizeChars at h
  simp only at h
  split at h
  · revert c
    decide
  · exact mem_replaceDisallowed (mem_collapseUnderscores _ _ (mem_trimUnderscores h))

theorem filter_dropWhile_of_disjoint {α : Type} (p q : α → Bool)
    (hpq : ∀ x, p x = true → q x = false) :
    ∀ l : List α, (l.dropWhile p).filter q = l.filter q
  | [] => rfl
  | x :: l => by
    by_cases hx : p x = true
    · rw [List.dropWhile_cons_of_pos hx, List.filter_cons_of_neg (by simp [hpq x hx])]
      exact filter_dropWhile_of_disjoint p q hpq l
    · rw [List.dropWhile_cons_of_neg hx]

theorem filter_trimUnderscores (s : List Char) :
    (trimUnderscores s).filter (fun c => c != '_') = s.filter (fun c => c != '_') := by
  have hpq : ∀ x : Char, (x == '_') = true → (x != '_') = false := by
    intro x hx
    simp only [beq_iff_eq] at hx
    simp [hx]
  unfold trimUnderscores
  rw [List.filter_reverse, filter_dropWhile_of_disjoint _ _ hpq, List.filter_reverse,
    List.reverse_reverse, filter_dropWhile_of_disjoint _ _ hpq]

theorem filter_collapseUnderscores :
    ∀ (l : List Char) (b : Bool),
      (collapseUnderscores b l).filter (fun c => c != '_') = l.filter (fun c => c != '_')
  | [], _ => by simp [collapseUnderscores]
  | d :: rest, b => by
    unfold collapseUnderscores
    by_cases hd : d = '_'
    · cases b
      · rw [if_pos hd, if_neg (by simp), List.filter_cons_of_neg (by simp),
          List.filter_cons_of_neg (by simp [hd])]
        exact filter_collapseUnderscores rest true
      · rw [if_pos hd, if_pos rfl, List.filter_cons_of_neg (by simp [hd])]
        exact filter_collapseUnderscores rest true
    · rw [if_neg hd, List.filter_cons_of_pos (by simp [hd]),
        List.filter_cons_of_pos (by simp [hd])]
      rw [filter_collapseUnderscores rest false]

theorem isNameChar_eq (c : Char) :
    isNameChar c = (isLetterDigitHyphen c || c == '_') := by
  unfold isNameChar isLetterDigitHyphen
  cases isAsciiLetter c <;> cases isAsciiDigit c <;> cases (c == '_') <;> cases (c == '-') <;> rfl

theorem isLetterDigitHyphen_underscore : isLetterDigitHyphen '_' = false := by decide

theorem filter_replaceDisallowed :
    ∀ name : List Char,
      (replaceDisallowed name).filter (fun c => c != '_') = name.filter isLetterDigitHyphen
  | [] => rfl
  | c :: rest => by
    have ih := filter_replaceDisallowed rest
    unfold replaceDisallowed at ih ⊢
    rw [List.map_cons]
    by_cases hc : c = '_'
    · subst hc
      rw [if_pos (by decide), List.filter_cons_of_neg (by decide),
        List.filter_cons_of_neg (by decide)]
      exact ih
    · by_cases hl : isLetterDigitHyphen c = true
      · rw [if_pos (by rw [isNameChar_eq, hl]; rfl), List.filter_cons_of_pos (by simp [hc]),
          List.filter_cons_of_pos hl, ih]
      · have hn : ¬ isNameChar c = true := by
          rw [isNameChar_eq]
          simp [hl, hc]
        rw [if_neg hn, List.filter_cons_of_neg (by decide), List.filter_cons_of_neg hl]
        exact ih

theorem filter_sanitizeChars (name : List Char)
    (h : ∃ c ∈ name, isLetterDigitHyphen c = true) :
    (sanitizeChars name).filter (fun c => c != '_') = name.filter isLetterDigitHyphen := by
  have hkey : (trimUnderscores (collapseUnderscores false (replaceDisallowed name))).filter
      (fun c => c != '_') = name.filter isLetterDigitHyphen := by
    rw [filter_trimUnderscores, filter_collapseUnderscores, filter_replaceDisallowed]
  have hne : trimUnderscores (collapseUnderscores false (replaceDisallowed name)) ≠ [] := by
    intro h0
    rw [h0] at hkey
    obtain ⟨c, hc, hl⟩ := h
    have : c ∈ name.filter isLetterDigitHyphen := List.mem_filter.mpr ⟨hc, hl⟩
    rw [← hkey] at this
    simp at this
  unfold sanitizeChars
  simp only
  rw [if_neg hne]
  exact hkey

/-- C8: for every input string, `sanitizeName` returns a non-empty string each
character of which is an ASCII letter, an ASCII digit, a hyphen or an
underscore. -/
theorem sanitizeName_nonempty_and_safe (name : String) :
    sanitizeName name ≠ "" ∧
      ∀ c ∈ (sanitizeName name).data,
        isAsciiLetter c = true ∨ isAsciiDigit c = true ∨ c = '-' ∨ c = '_' := by
  refine ⟨?_, ?_⟩
  · intro h
    have h2 : (sanitizeName name).data = [] := by rw [h]
    exact sanitizeChars_ne_nil name.data h2
  · intro c hc
    have h := mem_sanitizeChars (show c ∈ sanitizeChars name.data from hc)
    unfold isNameChar at h
    simp only [Bool.or_eq_true, beq_iff_eq] at h
    tauto

/-- C9: for every input string, the result of `sanitizeName` contains no two
consecutive underscores and neither begins nor ends with an underscore. -/
theorem sanitizeName_underscores (name : String) :
    List.Chain' NoDoubleUnderscore (sanitizeName name).data ∧
      (sanitizeName name).data.head? ≠ some '_' ∧
      (sanitizeName name).data.getLast? ≠ some '_' := by
  show List.Chain' NoDoubleUnderscore (sanitizeChars name.data) ∧
      (sanitizeChars name.data).head? ≠ some '_' ∧
      (sanitizeChars name.data).getLast? ≠ some '_'
  unfold sanitizeChars
  simp only
  split
  · refine ⟨?_, by decide, by decide⟩
    show List.Chain' NoDoubleUnderscore ['s', 'e', 'r', 'v', 'e', 'r']
    simp [NoDoubleUnderscore]
  · exact ⟨ List.Chain'.infix (collapseUnderscores_chain _ false).1 (trimUnderscores_contiguous _),
      trimUnderscores_head _, trimUnderscores_getLast _⟩

/-- C10: `sanitizeName` only strips. For every name containing at least one
ASCII letter, digit or hyphen, deleting the underscores from
`sanitizeName name` yields exactly the string obtained from `name` by deleting
every character that is not an ASCII letter, digit or hyphen. -/
theorem sanitizeName_only_strips (name : String)
    (h : ∃ c ∈ name.data, isLetterDigitHyphen c = true) :
    (sanitizeName name).data.filter (fun c => c != '_') =
      name.data.filter isLetterDigitHyphen :=
  filter_sanitizeChars name.data h

/-- Witness for `sanitizeName_only_strips` at the name `"db_srv 01"`. -/
theorem sanitizeName_only_strips_witness :
    (∃ c ∈ "db_srv 01".data, isLetterDigitHyphen c = true) ∧
      (sanitizeName "db_srv 01").data.filter (fun c => c != '_') =
        "db_srv 01".data.filter isLetterDigitHyphen :=
  ⟨⟨'d', by decide, by decide⟩,
    sanitizeName_only_strips "db_srv 01" ⟨'d', by decide, by decide⟩⟩

/-! ## The per-database body -/

theorem string_append_ne_empty {a : String} (b : String) (h : a ≠ "") : a ++ b ≠ "" := by
  intro hab
  apply h
  have h1 : (a ++ b).data = [] := by rw [hab]
  rw [String.data_append] at h1
  have h2 : a.data = [] := (List.append_eq_nil.mp h1).1
  exact String.ext h2

theorem dumpDatabaseForMachine_error_ne_empty (machine : Machine)
    (database filePath mysqlHost : String) (mysqlPort : Int) (x : DbExternals) (w : World)
    (e : String)
    (h : (dumpDatabaseForMachine machine database filePath mysqlHost mysqlPort x w).2 = .error e) :
    e ≠ "" := by
  unfold dumpDatabaseForMachine at h
  split at h
  · injection h with h
    rw [← h]
    exact string_append_ne_empty _ (by decide)
  · simp only at h
    split at h
    · injection h with h
      rw [← h]
      exact string_append_ne_empty _ (by decide)
    · split at h
      · injection h with h
        rw [← h]
        decide
      · split at h
        · injection h with h
          rw [← h]
          exact string_append_ne_empty _ (by decide)
        · cases h

/-- The outcome of the dump stage is decided by the four dump inputs alone: it
is the same in every state and for every path, host and port. -/
theorem dumpDatabaseForMachine_outcome (machine machine' : Machine)
    (database filePath mysqlHost database' filePath' mysqlHost' : String)
    (mysqlPort mysqlPort' : Int) (x x' : DbExternals) (w w' : World)
    (h1 : x'.dumpLookPathErr = x.dumpLookPathErr) (h2 : x'.dumpRunErr = x.dumpRunErr)
    (h3 : x'.dumpStdout = x.dumpStdout) (h4 : x'.dumpWriteErr = x.dumpWriteErr) :
    (dumpDatabaseForMachine machine' database' filePath' mysqlHost' mysqlPort' x' w').2 =
      (dumpDatabaseForMachine machine database filePath mysqlHost mysqlPort x w).2 := by
  unfold dumpDatabaseForMachine
  rw [h1, h2, h3, h4]
  cases x.dumpLookPathErr with
  | some e => rfl
  | none =>
    cases x.dumpRunErr with
    | some e => rfl
    | none =>
      simp only
      by_cases h0 : x.dumpStdout.utf8ByteSize = 0
      · simp only [h0, if_true]
      · simp only [h0, if_false]
        cases x.dumpWriteErr <;> rfl

theorem compressStage_result (fileName filePath : String) (result : BackupResult)
    (x : DbExternals) (w : World) :
    (compressStage fileName filePath result x w).2.1.Database = result.Database ∧
      (compressStage fileName filePath result x w).2.1.Success = result.Success ∧
      (compressStage fileName filePath result x w).2.1.Error = result.Error ∧
      ((compressStage fileName filePath result x w).2.1.FileName = result.FileName ∨
        (compressStage fileName filePath result x w).2.1.FileName = fileName ++ ".gz") := by
  unfold compressStage
  simp only
  rcases compressFileGzip filePath (filePath ++ ".gz") x w with ⟨w1, _ | e⟩
  · simp only
    cases statSize { w1 with files := w1.files.remove filePath } (filePath ++ ".gz") <;> simp
  · simp

theorem backupDatabase_result_error (machine : Machine)
    (sn bp ts mysqlHost : String) (mysqlPort : Int) (database : String) (x : DbExternals)
    (w : World) (e : String)
    (h : (dumpDatabaseForMachine machine database (filepathJoin bp (artifactName sn database ts))
      mysqlHost mysqlPort x w).2 = .error e) :
    (backupDatabase machine sn bp ts mysqlHost mysqlPort database x w).2 =
      { Database := database, Success := false, Error := e, FileName := "", FileSize := 0 } := by
  unfold backupDatabase
  simp only
  rcases hd : dumpDatabaseForMachine machine database (filepathJoin bp (artifactName sn database ts))
      mysqlHost mysqlPort x w with ⟨w1, e1 | u⟩
  · rw [hd] at h
    injection h with h
    simp only [h]
  · rw [hd] at h
    cases h

theorem backupDatabase_result_ok (machine : Machine)
    (sn bp ts mysqlHost : String) (mysqlPort : Int) (database : String) (x : DbExternals)
    (w : World)
    (h : (dumpDatabaseForMachine machine database (filepathJoin bp (artifactName sn database ts))
      mysqlHost mysqlPort x w).2 = .ok ()) :
    (backupDatabase machine sn bp ts mysqlHost mysqlPort database x w).2.Database = database ∧
      (backupDatabase machine sn bp ts mysqlHost mysqlPort database x w).2.Success = true ∧
      (backupDatabase machine sn bp ts mysqlHost mysqlPort database x w).2.Error = "" ∧
      ((backupDatabase machine sn bp ts mysqlHost mysqlPort database x w).2.FileName =
          artifactName sn database ts ∨
        (backupDatabase machine sn bp ts mysqlHost mysqlPort database x w).2.FileName =
          artifactName sn database ts ++ ".gz") := by
  unfold backupDatabase
  simp only
  rcases hd : dumpDatabaseForMachine machine database (filepathJoin bp (artifactName sn database ts))
      mysqlHost mysqlPort x w with ⟨w1, e1 | u⟩
  · rw [hd] at h
    cases h
  · simp only
    have hc := fun r => compressStage_result (artifactName sn database ts)
      (filepathJoin bp (artifactName sn database ts)) r x w1
    cases statSize w1 (filepathJoin bp (artifactName sn database ts)) with
    | none =>
      simp only
      have := hc ⟨database, true, "", artifactName sn database ts, 0⟩
      simpa using this
    | some size =>
      simp only
      have := hc ⟨database, true, "", artifactName sn database ts, size⟩
      simpa using this

/-! ## The loop and the job -/

/-- A property that the body establishes for the result of every database, in
every state, holds for each entry of the result list: the loop appends exactly
one result per database, in order. -/
theorem backupLoop_results (machine : Machine) (sn bp ts mysqlHost : String) (mysqlPort : Int)
    (j : JobExternals) (P : Nat → String → BackupResult → Prop)
    (hP : ∀ i db w,
      P i db (backupDatabase machine sn bp ts mysqlHost mysqlPort db (j.perDatabase i) w).2) :
    ∀ (dbs : List String) (k : Nat) (w : World) (acc : List BackupResult),
      ∃ rs : List BackupResult,
        (backupLoop machine sn bp ts mysqlHost mysqlPort j k dbs w acc).2 = acc ++ rs ∧
          rs.length = dbs.length ∧
          ∀ i (h1 : i < rs.length) (h2 : i < dbs.length),
            P (k + i) (dbs.get ⟨i, h2⟩) (rs.get ⟨i, h1⟩)
  | [], k, w, acc => ⟨[], by simp [backupLoop], rfl, fun i h1 => absurd h1 (Nat.not_lt_zero i)⟩
  | db :: rest, k, w, acc => by
    obtain ⟨rs, h1, h2, h3⟩ := backupLoop_results machine sn bp ts mysqlHost mysqlPort j P hP rest
      (k + 1) (backupDatabase machine sn bp ts mysqlHost mysqlPort db (j.perDatabase k) w).1
      (acc ++ [(backupDatabase machine sn bp ts mysqlHost mysqlPort db (j.perDatabase k) w).2])
    refine ⟨(backupDatabase machine sn bp ts mysqlHost mysqlPort db (j.perDatabase k) w).2 :: rs,
      ?_, ?_, ?_⟩
    · rw [backupLoop, h1, List.append_assoc]
      rfl
    · simp [h2]
    · intro i hi1 hi2
      cases i with
      | zero => exact hP k db w
      | succ n =>
        have := h3 n (by simpa using hi1) (by simpa using hi2)
        simpa [Nat.add_assoc, Nat.add_comm 1 n] using this

/-- An invariant of the state that every step of the loop preserves holds at
the end of the loop. -/
theorem backupLoop_invariant (machine : Machine) (sn bp ts mysqlHost : String) (mysqlPort : Int)
    (j : JobExternals) (I : World → Prop) :
    ∀ (dbs : List String) (k : Nat) (w : World) (acc : List BackupResult),
      (∀ i (h : i < dbs.length) (w : World), I w →
        I (backupDatabase machine sn bp ts mysqlHost mysqlPort (dbs.get ⟨i, h⟩)
          (j.perDatabase (k + i)) w).1) →
      I w → I (backupLoop machine sn bp ts mysqlHost mysqlPort j k dbs w acc).1
  | [], _, _, _, _, hw => by simpa [backupLoop] using hw
  | db :: rest, k, w, acc, hstep, hw => by
    rw [backupLoop]
    apply backupLoop_invariant machine sn bp ts mysqlHost mysqlPort j I rest (k + 1)
    · intro i h w' hw'
      have := hstep (i + 1) (by simpa using h) w' hw'
      simpa [Nat.add_assoc, Nat.add_comm 1 i] using this
    · exact hstep 0 (by simp) w hw

/-- The job returns results exactly when the backup directory could be created
and, for a remote machine, the tunnel could be opened. -/
theorem createBackupForMachine_ok_of (ctx : Context) (machine : Machine)
    (databases : List String) (j : JobExternals) (w : World)
    (hdir : j.mkdirErr = none)
    (htun : machine.Kind = "remote" → ∃ port, createSSHTunnel j = .ok port) :
    ∃ results, (createBackupForMachine ctx machine databases j w).2 = .ok results := by
  unfold createBackupForMachine
  simp only [hdir]
  by_cases hk : machine.Kind = "remote"
  · obtain ⟨port, hp⟩ := htun hk
    simp only [hk, if_true, hp]
    exact ⟨_, rfl⟩
  · simp only [hk, if_false]
    exact ⟨_, rfl⟩

/-- A property that the body establishes for every database, whatever the
state, the host and the port, holds for each entry of the list returned by the
job, which has one entry per database. -/
theorem createBackupForMachine_results (ctx : Context) (machine : Machine)
    (databases : List String) (j : JobExternals) (w : World)
    (P : Nat → String → BackupResult → Prop)
    (hP : ∀ mysqlHost mysqlPort i db w1,
      P i db (backupDatabase machine (sanitizeName machine.Name)
        (filepathJoin w.config.Backup.LocalPath machine.ID) j.timestamp mysqlHost mysqlPort db
        (j.perDatabase i) w1).2)
    (results : List BackupResult)
    (h : (createBackupForMachine ctx machine databases j w).2 = .ok results) :
    results.length = databases.length ∧
      ∀ i (h1 : i < results.length) (h2 : i < databases.length),
        P i (databases.get ⟨i, h2⟩) (results.get ⟨i, h1⟩) := by
  have key : ∀ mysqlHost mysqlPort w1,
      (backupLoop machine (sanitizeName machine.Name)
        (filepathJoin w.config.Backup.LocalPath machine.ID) j.timestamp mysqlHost mysqlPort j 0
        databases w1 []).2 = results →
      results.length = databases.length ∧
        ∀ i (h1 : i < results.length) (h2 : i < databases.length),
          P i (databases.get ⟨i, h2⟩) (results.get ⟨i, h1⟩) := by
    intro mysqlHost mysqlPort w1 hres
    obtain ⟨rs, e1, e2, e3⟩ := backupLoop_results machine (sanitizeName machine.Name)
      (filepathJoin w.config.Backup.LocalPath machine.ID) j.timestamp mysqlHost mysqlPort j P
      (hP mysqlHost mysqlPort) databases 0 w1 []
    rw [hres, List.nil_append] at e1
    subst e1
    refine ⟨e2, fun i h1 h2 => ?_⟩
    have := e3 i h1 h2
    simpa using this
  unfold createBackupForMachine at h
  simp only at h
  split at h
  · cases h
  · split at h
    · split at h
      · cases h
      · simp only at h
        injection h with h
        exact key _ _ _ h
    · simp only at h
      injection h with h
      exact key _ _ _ h

theorem backupDatabase_database (machine : Machine) (sn bp ts mysqlHost : String)
    (mysqlPort : Int) (database : String) (x : DbExternals) (w : World) :
    (backupDatabase machine sn bp ts mysqlHost mysqlPort database x w).2.Database = database := by
  rcases hd : (dumpDatabaseForMachine machine database
      (filepathJoin bp (artifactName sn database ts)) mysqlHost mysqlPort x w).2 with e | u
  · rw [backupDatabase_result_error machine sn bp ts mysqlHost mysqlPort database x w e hd]
  · exact (backupDatabase_result_ok machine sn bp ts mysqlHost mysqlPort database x w hd).1

theorem backupDatabase_success_iff (machine : Machine) (sn bp ts mysqlHost : String)
    (mysqlPort : Int) (database : String) (x : DbExternals) (w : World) :
    ((backupDatabase machine sn bp ts mysqlHost mysqlPort database x w).2.Success = true ↔
        (dumpDatabaseForMachine machine database (filepathJoin bp (artifactName sn database ts))
          mysqlHost mysqlPort x w).2 = .ok ()) ∧
      ((backupDatabase machine sn bp ts mysqlHost mysqlPort database x w).2.Error ≠ "" ↔
        (backupDatabase machine sn bp ts mysqlHost mysqlPort database x w).2.Success = false) := by
  rcases hd : (dumpDatabaseForMachine machine database
      (filepathJoin bp (artifactName sn database ts)) mysqlHost mysqlPort x w).2 with e | u
  · rw [backupDatabase_result_error machine sn bp ts mysqlHost mysqlPort database x w e hd]
    have hne := dumpDatabaseForMachine_error_ne_empty machine database _ mysqlHost mysqlPort x w e hd
    simp [hne]
  · obtain ⟨-, h2, h3, -⟩ :=
      backupDatabase_result_ok machine sn bp ts mysqlHost mysqlPort database x w hd
    simp [h2, h3]

theorem createMachineBackup_eq (ctx : Context) (machineID : String) (databases : List String)
    (j : JobExternals) (w : World) (machine : Machine)
    (hm : w.config.GetMachine machineID = .ok machine) :
    CreateMachineBackup ctx machineID databases j w =
      createBackupForMachine ctx machine databases j w := by
  unfold CreateMachineBackup
  rw [hm]

/-- C1: for a machine present in the configuration and any list of database
names, when the job does not abort (backup directory created, tunnel opened if
the machine is remote) `CreateMachineBackup` returns one result per input
database in input order: same length, and the i-th result carries the i-th
name. -/
theorem createMachineBackup_one_result_per_database (ctx : Context) (machineID : String)
    (databases : List String) (j : JobExternals) (w : World) (machine : Machine)
    (hm : w.config.GetMachine machineID = .ok machine)
    (hdir : j.mkdirErr = none)
    (htun : machine.Kind = "remote" → ∃ port, createSSHTunnel j = .ok port) :
    ∃ results, (CreateMachineBackup ctx machineID databases j w).2 = .ok results ∧
      results.length = databases.length ∧
      ∀ i (h1 : i < results.length) (h2 : i < databases.length),
        (results.get ⟨i, h1⟩).Database = databases.get ⟨i, h2⟩ := by
  rw [createMachineBackup_eq ctx machineID databases j w machine hm]
  obtain ⟨results, hres⟩ := createBackupForMachine_ok_of ctx machine databases j w hdir htun
  refine ⟨results, hres, ?_⟩
  exact createBackupForMachine_results ctx machine databases j w (fun _ db r => r.Database = db)
    (fun mysqlHost mysqlPort i db w1 => backupDatabase_database machine _ _ _ mysqlHost mysqlPort
      db (j.perDatabase i) w1) results hres

/-- Witness for `createMachineBackup_one_result_per_database`: the remote
example machine with two databases. -/
theorem createMachineBackup_one_result_per_database_witness :
    ∃ results, (CreateMachineBackup ⟨false⟩ "machine_1" ["shop", "crm"]
        (exampleJob fun _ => smoothRun) (exampleWorld googleAbsent)).2 = .ok results ∧
      results.length = ["shop", "crm"].length ∧
      ∀ i (h1 : i < results.length) (h2 : i < ["shop", "crm"].length),
        (results.get ⟨i, h1⟩).Database = ["shop", "crm"].get ⟨i, h2⟩ :=
  createMachineBackup_one_result_per_database ⟨false⟩ "machine_1" ["shop", "crm"]
    (exampleJob fun _ => smoothRun) (exampleWorld googleAbsent) exampleRemoteMachine rfl rfl
    (fun _ => ⟨40123, rfl⟩)

/-- C2: per-database failure isolation. In the results of a job, the flag of
database i is true exactly when the dump stage succeeds on the dump inputs of
position i (whatever the state, machine, path, host or port), the error text is
non-empty exactly when the flag is false, and any other run whose dump inputs
at position i are the same reports the same flag at position i, whatever
happens to the other databases and to compression, upload, Sheets logging and
the local log. -/
theorem success_flag_is_dump_outcome (ctx : Context) (machine : Machine)
    (databases : List String) (j : JobExternals) (w : World) (results : List BackupResult)
    (h : (createBackupForMachine ctx machine databases j w).2 = .ok results)
    (i : Nat) (h1 : i < results.length) :
    (∀ (m : Machine) (db path host : String) (port : Int) (w0 : World),
        (results.get ⟨i, h1⟩).Success = true ↔
          (dumpDatabaseForMachine m db path host port (j.perDatabase i) w0).2 = .ok ()) ∧
      ((results.get ⟨i, h1⟩).Error ≠ "" ↔ (results.get ⟨i, h1⟩).Success = false) ∧
      ∀ (ctx' : Context) (machine' : Machine) (databases' : List String) (j' : JobExternals)
        (w' : World) (results' : List BackupResult) (h1' : i < results'.length),
        (createBackupForMachine ctx' machine' databases' j' w').2 = .ok results' →
        (j'.perDatabase i).dumpLookPathErr = (j.perDatabase i).dumpLookPathErr →
        (j'.perDatabase i).dumpRunErr = (j.perDatabase i).dumpRunErr →
        (j'.perDatabase i).dumpStdout = (j.perDatabase i).dumpStdout →
        (j'.perDatabase i).dumpWriteErr = (j.perDatabase i).dumpWriteErr →
        (results'.get ⟨i, h1'⟩).Success = (results.get ⟨i, h1⟩).Success := by
  have main : ∀ (ctx : Context) (machine : Machine) (databases : List String) (j : JobExternals)
      (w : World) (results : List BackupResult),
      (createBackupForMachine ctx machine databases j w).2 = .ok results →
      ∀ (h1 : i < results.length),
        (∀ (m : Machine) (db path host : String) (port : Int) (w0 : World),
          (results.get ⟨i, h1⟩).Success = true ↔
            (dumpDatabaseForMachine m db path host port (j.perDatabase i) w0).2 = .ok ()) ∧
        ((results.get ⟨i, h1⟩).Error ≠ "" ↔ (results.get ⟨i, h1⟩).Success = false) := by
    intro ctx machine databases j w results h h1
    obtain ⟨hlen, hall⟩ := createBackupForMachine_results ctx machine databases j w
      (fun i _ r =>
        (∀ (m : Machine) (db path host : String) (port : Int) (w0 : World),
          r.Success = true ↔
            (dumpDatabaseForMachine m db path host port (j.perDatabase i) w0).2 = .ok ()) ∧
        (r.Error ≠ "" ↔ r.Success = false))
      (fun mysqlHost mysqlPort i db w1 => by
        obtain ⟨a, b⟩ := backupDatabase_success_iff machine (sanitizeName machine.Name)
          (filepathJoin w.config.Backup.LocalPath machine.ID) j.timestamp mysqlHost mysqlPort db
          (j.perDatabase i) w1
        refine ⟨fun m db' path host port w0 => ?_, b⟩
        rw [a, dumpDatabaseForMachine_outcome m machine db' path host db _ mysqlHost port
          mysqlPort (j.perDatabase i) (j.perDatabase i) w0 w1 rfl rfl rfl rfl])
      results h
    exact hall i h1 (hlen ▸ h1)
  obtain ⟨a, b⟩ := main ctx machine databases j w results h h1
  refine ⟨a, b, ?_⟩
  intro ctx' machine' databases' j' w' results' h1' h' e1 e2 e3 e4
  obtain ⟨a', -⟩ := main ctx' machine' databases' j' w' results' h' h1'
  have hiff : (results'.get ⟨i, h1'⟩).Success = true ↔ (results.get ⟨i, h1⟩).Success = true := by
    rw [a' machine "" "" "" 0 w, a machine "" "" "" 0 w,
      dumpDatabaseForMachine_outcome machine machine "" "" "" "" "" "" 0 0 (j.perDatabase i)
        (j'.perDatabase i) w w e1 e2 e3 e4]
  cases hs : (results.get ⟨i, h1⟩).Success <;> cases hs' : (results'.get ⟨i, h1'⟩).Success <;>
    simp_all

/-- Witness for `success_flag_is_dump_outcome`: a job over two databases in
which the dump of the second one fails. -/
theorem success_flag_is_dump_outcome_witness :
    (createBackupForMachine ⟨false⟩ exampleLocalMachine ["shop", "crm"]
        (exampleJob fun i => if i = 1 then dumpFails else smoothRun)
        (exampleWorld googleAbsent)).2 =
      .ok [⟨"shop", true, "", "backup_Local_Machine_shop_20240102_030405.sql.gz", 10⟩,
        ⟨"crm", false, "mariadb-dump failed: exit status 2", "", 0⟩] ∧
    ((false = true ↔
        (dumpDatabaseForMachine exampleLocalMachine "crm" "/tmp/crm.sql" "localhost" 3306
          dumpFails (exampleWorld googleAbsent)).2 = .ok ()) ∧
      ("mariadb-dump failed: exit status 2" ≠ "" ↔ false = false)) :=
  ⟨rfl,
    ⟨(success_flag_is_dump_outcome ⟨false⟩ exampleLocalMachine ["shop", "crm"]
        (exampleJob fun i => if i = 1 then dumpFails else smoothRun)
        (exampleWorld googleAbsent)
        [⟨"shop", true, "", "backup_Local_Machine_shop_20240102_030405.sql.gz", 10⟩,
          ⟨"crm", false, "mariadb-dump failed: exit status 2", "", 0⟩]
        rfl 1 (by decide)).1 exampleLocalMachine "crm" "/tmp/crm.sql" "localhost" 3306
        (exampleWorld googleAbsent),
      (success_flag_is_dump_outcome ⟨false⟩ exampleLocalMachine ["shop", "crm"]
        (exampleJob fun i => if i = 1 then dumpFails else smoothRun)
        (exampleWorld googleAbsent)
        [⟨"shop", true, "", "backup_Local_Machine_shop_20240102_030405.sql.gz", 10⟩,
          ⟨"crm", false, "mariadb-dump failed: exit status 2", "", 0⟩]
        rfl 1 (by decide)).2.1⟩⟩

/-- C7: for every successful result of a job, `FileName` is
`backup_<sanitizeName machine.Name>_<database>_<timestamp>.sql`, optionally
followed by `.gz`, where the timestamp is the one token read at job start and
shared by all databases of the job. -/
theorem successful_result_file_name (ctx : Context) (machine : Machine)
    (databases : List String) (j : JobExternals) (w : World) (results : List BackupResult)
    (h : (createBackupForMachine ctx machine databases j w).2 = .ok results)
    (i : Nat) (h1 : i < results.length) (h2 : i < databases.length)
    (hs : (results.get ⟨i, h1⟩).Success = true) :
    (results.get ⟨i, h1⟩).FileName =
        "backup_" ++ sanitizeName machine.Name ++ "_" ++ databases.get ⟨i, h2⟩ ++ "_" ++
          j.timestamp ++ ".sql" ∨
      (results.get ⟨i, h1⟩).FileName =
        "backup_" ++ sanitizeName machine.Name ++ "_" ++ databases.get ⟨i, h2⟩ ++ "_" ++
          j.timestamp ++ ".sql" ++ ".gz" := by
  obtain ⟨-, hall⟩ := createBackupForMachine_results ctx machine databases j w
    (fun _ db r => r.Success = true →
      (r.FileName = artifactName (sanitizeName machine.Name) db j.timestamp ∨
        r.FileName = artifactName (sanitizeName machine.Name) db j.timestamp ++ ".gz"))
    (fun mysqlHost mysqlPort i db w1 hsucc => by
      have hd := (backupDatabase_success_iff machine (sanitizeName machine.Name)
        (filepathJoin w.config.Backup.LocalPath machine.ID) j.timestamp mysqlHost mysqlPort db
        (j.perDatabase i) w1).1.mp hsucc
      exact (backupDatabase_result_ok machine _ _ _ mysqlHost mysqlPort db (j.perDatabase i) w1
        hd).2.2.2)
    results h
  exact hall i h1 h2 hs

/-- Witness for `successful_result_file_name`: the first database of a job on
the remote example machine. -/
theorem successful_result_file_name_witness :
    (createBackupForMachine ⟨false⟩ exampleRemoteMachine ["shop", "crm"]
        (exampleJob fun i => if i = 1 then gzipMissing else smoothRun)
        (exampleWorld googleAbsent)).2 =
      .ok [⟨"shop", true, "", "backup_Prod_DB_1_shop_20240102_030405.sql.gz", 10⟩,
        ⟨"crm", true, "", "backup_Prod_DB_1_crm_20240102_030405.sql.gz", 42⟩] ∧
    ("backup_Prod_DB_1_shop_20240102_030405.sql.gz" =
        "backup_" ++ sanitizeName "Prod DB #1" ++ "_" ++ "shop" ++ "_" ++ "20240102_030405" ++
          ".sql" ∨
      "backup_Prod_DB_1_shop_20240102_030405.sql.gz" =
        "backup_" ++ sanitizeName "Prod DB #1" ++ "_" ++ "shop" ++ "_" ++ "20240102_030405" ++
          ".sql" ++ ".gz") :=
  ⟨rfl,
    successful_result_file_name ⟨false⟩ exampleRemoteMachine ["shop", "crm"]
      (exampleJob fun i => if i = 1 then gzipMissing else smoothRun)
      (exampleWorld googleAbsent)
      [⟨"shop", true, "", "backup_Prod_DB_1_shop_20240102_030405.sql.gz", 10⟩,
        ⟨"crm", true, "", "backup_Prod_DB_1_crm_20240102_030405.sql.gz", 42⟩]
      rfl 0 (by decide) (by decide) rfl⟩

theorem backupDatabase_tool_missing (machine : Machine) (sn bp ts mysqlHost : String)
    (mysqlPort : Int) (database : String) (x : DbExternals) (w : World) (e : String)
    (h : x.dumpLookPathErr = some e) :
    (backupDatabase machine sn bp ts mysqlHost mysqlPort database x w).1.files = w.files ∧
      (backupDatabase machine sn bp ts mysqlHost mysqlPort database x w).2 =
        { Database := database, Success := false,
          Error := "mariadb-dump not found in PATH: " ++ e, FileName := "", FileSize := 0 } := by
  unfold backupDatabase dumpDatabaseForMachine
  rw [h]
  exact ⟨rfl, rfl⟩

/-- An invariant of the state that is kept by recording an action and by the
body for every database of the list holds in the state the job ends in. -/
theorem createBackupForMachine_invariant (ctx : Context) (machine : Machine)
    (databases : List String) (j : JobExternals) (w : World) (I : World → Prop)
    (hemit : ∀ w1 e, I w1 → I (w1.emit e))
    (hstep : ∀ mysqlHost mysqlPort i (h : i < databases.length) w1, I w1 →
      I (backupDatabase machine (sanitizeName machine.Name)
        (filepathJoin w.config.Backup.LocalPath machine.ID) j.timestamp mysqlHost mysqlPort
        (databases.get ⟨i, h⟩) (j.perDatabase i) w1).1)
    (hw : I w) : I (createBackupForMachine ctx machine databases j w).1 := by
  have key : ∀ mysqlHost mysqlPort w1, I w1 →
      I (backupLoop machine (sanitizeName machine.Name)
        (filepathJoin w.config.Backup.LocalPath machine.ID) j.timestamp mysqlHost mysqlPort j 0
        databases w1 []).1 := by
    intro mysqlHost mysqlPort w1 hw1
    apply backupLoop_invariant machine _ _ _ mysqlHost mysqlPort j I databases 0 w1 []
    · intro i h w2 hw2
      have := hstep mysqlHost mysqlPort i h w2 hw2
      simpa using this
    · exact hw1
  unfold createBackupForMachine
  simp only
  split
  · exact hemit _ _ hw
  · split
    · split
      · exact hemit _ _ hw
      · exact hemit _ _ (key _ _ _ (hemit _ _ (hemit _ _ hw)))
    · exact key _ _ _ (hemit _ _ hw)

/-- C5: if `mariadb-dump` cannot be found then, in a job that is not aborted,
every requested database gets a result with `Success = false`, a non-empty
`Error` naming the missing tool, an empty `FileName` and `FileSize = 0`, and the
job leaves the files on disk as they were. -/
theorem dump_tool_missing (ctx : Context) (machineID : String) (databases : List String)
    (j : JobExternals) (w : World) (machine : Machine)
    (hm : w.config.GetMachine machineID = .ok machine)
    (hdir : j.mkdirErr = none)
    (htun : machine.Kind = "remote" → ∃ port, createSSHTunnel j = .ok port)
    (hmiss : ∀ i, i < databases.length → ∃ e, (j.perDatabase i).dumpLookPathErr = some e) :
    (CreateMachineBackup ctx machineID databases j w).1.files = w.files ∧
      ∃ results, (CreateMachineBackup ctx machineID databases j w).2 = .ok results ∧
        results.length = databases.length ∧
        ∀ i (h1 : i < results.length) (h2 : i < databases.length),
          (results.get ⟨i, h1⟩).Database = databases.get ⟨i, h2⟩ ∧
          (results.get ⟨i, h1⟩).Success = false ∧
          (results.get ⟨i, h1⟩).Error ≠ "" ∧
          (∃ e, (j.perDatabase i).dumpLookPathErr = some e ∧
            (results.get ⟨i, h1⟩).Error = "mariadb-dump not found in PATH: " ++ e) ∧
          (results.get ⟨i, h1⟩).FileName = "" ∧
          (results.get ⟨i, h1⟩).FileSize = 0 := by
  rw [createMachineBackup_eq ctx machineID databases j w machine hm]
  refine ⟨?_, ?_⟩
  · apply createBackupForMachine_invariant ctx machine databases j w
      (fun w1 => w1.files = w.files)
    · intro w1 e h
      exact h
    · intro mysqlHost mysqlPort i h w1 hw1
      obtain ⟨e, he⟩ := hmiss i h
      rw [(backupDatabase_tool_missing machine _ _ _ mysqlHost mysqlPort _ (j.perDatabase i) w1 e
        he).1]
      exact hw1
    · rfl
  · obtain ⟨results, hres⟩ := createBackupForMachine_ok_of ctx machine databases j w hdir htun
    obtain ⟨hlen, hall⟩ := createBackupForMachine_results ctx machine databases j w
      (fun i db r => ∀ e, (j.perDatabase i).dumpLookPathErr = some e →
        r = { Database := db, Success := false,
              Error := "mariadb-dump not found in PATH: " ++ e, FileName := "", FileSize := 0 })
      (fun mysqlHost mysqlPort i db w1 e he =>
        (backupDatabase_tool_missing machine _ _ _ mysqlHost mysqlPort db (j.perDatabase i) w1 e
          he).2)
      results hres
    refine ⟨results, hres, hlen, ?_⟩
    intro i h1 h2
    obtain ⟨e, he⟩ := hmiss i h2
    have hr := hall i h1 h2 e he
    rw [hr]
    exact ⟨rfl, rfl, string_append_ne_empty _ (by decide), ⟨e, he, rfl⟩, rfl, rfl⟩

/-- Witness for `dump_tool_missing`: two databases on the local example
machine while the dump utility is absent. -/
theorem dump_tool_missing_witness :
    (CreateMachineBackup ⟨false⟩ "local" ["shop", "crm"] (exampleJob fun _ => toolMissing)
        (exampleWorld googlePresent)).1.files = (exampleWorld googlePresent).files ∧
      ∃ results, (CreateMachineBackup ⟨false⟩ "local" ["shop", "crm"]
          (exampleJob fun _ => toolMissing) (exampleWorld googlePresent)).2 = .ok results ∧
        results.length = ["shop", "crm"].length ∧
        ∀ i (h1 : i < results.length) (h2 : i < ["shop", "crm"].length),
          (results.get ⟨i, h1⟩).Database = ["shop", "crm"].get ⟨i, h2⟩ ∧
          (results.get ⟨i, h1⟩).Success = false ∧
          (results.get ⟨i, h1⟩).Error ≠ "" ∧
          (∃ e, ((exampleJob fun _ => toolMissing).perDatabase i).dumpLookPathErr = some e ∧
            (results.get ⟨i, h1⟩).Error = "mariadb-dump not found in PATH: " ++ e) ∧
          (results.get ⟨i, h1⟩).FileName = "" ∧
          (results.get ⟨i, h1⟩).FileSize = 0 :=
  dump_tool_missing ⟨false⟩ "local" ["shop", "crm"] (exampleJob fun _ => toolMissing)
    (exampleWorld googlePresent) exampleLocalMachine rfl rfl (fun h => absurd h (by decide))
    (fun _ _ => ⟨_, rfl⟩)

/-! ## Aborting a job -/

theorem createBackupForMachine_mkdir_error (ctx : Context) (machine : Machine)
    (databases : List String) (j : JobExternals) (w : World) (e : String)
    (h : j.mkdirErr = some e) :
    createBackupForMachine ctx machine databases j w =
      (w.emit (.mkdirAll (filepathJoin w.config.Backup.LocalPath machine.ID)),
        .error ("failed to create backup directory: " ++ e)) := by
  unfold createBackupForMachine
  simp only [h]

theorem createBackupForMachine_tunnel_error (ctx : Context) (machine : Machine)
    (databases : List String) (j : JobExternals) (w : World) (e : String)
    (hdir : j.mkdirErr = none) (hk : machine.Kind = "remote")
    (h : createSSHTunnel j = .error e) :
    createBackupForMachine ctx machine databases j w =
      (w.emit (.mkdirAll (filepathJoin w.config.Backup.LocalPath machine.ID)),
        .error ("failed to create SSH tunnel: " ++ e)) := by
  unfold createBackupForMachine
  simp only [hdir, hk, if_true, h]

theorem commandRun_mem_emit_mkdirAll (w : World) (path name : String) (args : List String)
    (h : Event.commandRun name args ∈ (w.emit (.mkdirAll path)).trace) :
    Event.commandRun name args ∈ w.trace := by
  unfold World.emit at h
  simp only [List.mem_append, List.mem_singleton] at h
  rcases h with h | h
  · exact h
  · cases h

/-- C3 (counterexample): a machine that is present in the configuration but
whose SSH tunnel cannot be established makes `CreateMachineBackup` return an
error and no result at all, instead of a nil error with one failed result per
requested database. -/
theorem tunnel_failure_aborts_job :
    (CreateMachineBackup ⟨false⟩ "machine_1" ["shop", "crm"] tunnelDownJob
        (exampleWorld googleAbsent)).2 =
      .error "failed to create SSH tunnel: failed to create SSH tunnel: ssh: handshake failed" ∧
    ¬ ∃ results, (CreateMachineBackup ⟨false⟩ "machine_1" ["shop", "crm"] tunnelDownJob
        (exampleWorld googleAbsent)).2 = .ok results ∧ results.length = 2 := by
  refine ⟨rfl, ?_⟩
  rintro ⟨results, h, -⟩
  have h0 : (CreateMachineBackup ⟨false⟩ "machine_1" ["shop", "crm"] tunnelDownJob
      (exampleWorld googleAbsent)).2 =
    .error "failed to create SSH tunnel: failed to create SSH tunnel: ssh: handshake failed" :=
    rfl
  rw [h0] at h
  cases h

/-- C3 (amended): a job is aborted, with an error and no results, exactly in
three cases: the machine id is not in the configuration, the backup directory
cannot be created, or the machine is remote and the SSH tunnel cannot be
established. An aborted job has attempted no database: files and configuration
are as before and no command has been run. In every other case
`CreateMachineBackup` returns a nil error and one result per requested
database. -/
theorem job_abort_conditions (ctx : Context) (machineID : String) (databases : List String)
    (j : JobExternals) (w : World) :
    ((∃ e, (CreateMachineBackup ctx machineID databases j w).2 = .error e) ↔
        ((∃ e, w.config.GetMachine machineID = .error e) ∨
          ∃ m, w.config.GetMachine machineID = .ok m ∧
            (j.mkdirErr ≠ none ∨ (m.Kind = "remote" ∧ ∃ e, createSSHTunnel j = .error e)))) ∧
      (∀ e, (CreateMachineBackup ctx machineID databases j w).2 = .error e →
        (CreateMachineBackup ctx machineID databases j w).1.files = w.files ∧
        (CreateMachineBackup ctx machineID databases j w).1.config = w.config ∧
        ∀ name args,
          Event.commandRun name args ∈ (CreateMachineBackup ctx machineID databases j w).1.trace →
          Event.commandRun name args ∈ w.trace) ∧
      (∀ results, (CreateMachineBackup ctx machineID databases j w).2 = .ok results →
        results.length = databases.length) := by
  rcases hm : w.config.GetMachine machineID with e0 | m
  · have hc : CreateMachineBackup ctx machineID databases j w = (w, .error e0) := by
      unfold CreateMachineBackup
      rw [hm]
    rw [hc]
    refine ⟨⟨fun _ => Or.inl ⟨e0, rfl⟩, fun _ => ⟨e0, rfl⟩⟩, ?_, ?_⟩
    · intro e _
      exact ⟨rfl, rfl, fun _ _ h => h⟩
    · intro results h
      cases h
  · rw [createMachineBackup_eq ctx machineID databases j w m hm]
    have hlen : ∀ results, (createBackupForMachine ctx m databases j w).2 = .ok results →
        results.length = databases.length := fun results h =>
      (createBackupForMachine_results ctx m databases j w (fun _ _ _ => True)
        (fun _ _ _ _ _ => trivial) results h).1
    rcases hdir : j.mkdirErr with _ | e1
    · by_cases hk : m.Kind = "remote"
      · rcases ht : createSSHTunnel j with e2 | port
        · rw [createBackupForMachine_tunnel_error ctx m databases j w e2 hdir hk ht]
          refine ⟨⟨fun _ => Or.inr ⟨m, rfl, Or.inr ⟨hk, e2, rfl⟩⟩, fun _ => ⟨_, rfl⟩⟩, ?_, ?_⟩
          · intro e _
            exact ⟨rfl, rfl, fun name args h => commandRun_mem_emit_mkdirAll w _ name args h⟩
          · intro results h
            cases h
        · obtain ⟨results, hres⟩ := createBackupForMachine_ok_of ctx m databases j w hdir
            (fun _ => ⟨port, ht⟩)
          refine ⟨⟨?_, ?_⟩, ?_, hlen⟩
          · rintro ⟨e, he⟩
            rw [hres] at he
            cases he
          · rintro (⟨e, he⟩ | ⟨m', hm', hc⟩)
            · cases he
            · rcases hc with hc | ⟨-, e, he⟩
              · exact absurd rfl hc
              · cases he
          · intro e he
            rw [hres] at he
            cases he
      · obtain ⟨results, hres⟩ := createBackupForMachine_ok_of ctx m databases j w hdir
          (fun h => absurd h hk)
        refine ⟨⟨?_, ?_⟩, ?_, hlen⟩
        · rintro ⟨e, he⟩
          rw [hres] at he
          cases he
        · rintro (⟨e, he⟩ | ⟨m', hm', hc⟩)
          · cases he
          · rcases hc with hc | ⟨hk', -⟩
            · exact absurd rfl hc
            · injection hm' with hm'
              rw [← hm'] at hk'
              exact absurd hk' hk
        · intro e he
          rw [hres] at he
          cases he
    · rw [createBackupForMachine_mkdir_error ctx m databases j w e1 hdir]
      refine ⟨⟨fun _ => Or.inr ⟨m, rfl, Or.inl (by simp)⟩, fun _ => ⟨_, rfl⟩⟩, ?_, ?_⟩
      · intro e _
        exact ⟨rfl, rfl, fun name args h => commandRun_mem_emit_mkdirAll w _ name args h⟩
      · intro results h
        cases h

/-- Witness for `job_abort_conditions`: an unknown machine id aborts the job
and leaves the files untouched. -/
theorem job_abort_conditions_witness :
    (∃ e, (CreateMachineBackup ⟨false⟩ "machine_7" ["shop"] (exampleJob fun _ => smoothRun)
        (exampleWorld googleAbsent)).2 = .error e) ∧
      (CreateMachineBackup ⟨false⟩ "machine_7" ["shop"] (exampleJob fun _ => smoothRun)
        (exampleWorld googleAbsent)).1.files = (exampleWorld googleAbsent).files :=
  ⟨(job_abort_conditions ⟨false⟩ "machine_7" ["shop"] (exampleJob fun _ => smoothRun)
      (exampleWorld googleAbsent)).1.mpr (Or.inl ⟨"machine not found", rfl⟩),
    ((job_abort_conditions ⟨false⟩ "machine_7" ["shop"] (exampleJob fun _ => smoothRun)
      (exampleWorld googleAbsent)).2.1 "machine not found" rfl).1⟩

/-! ## Missing compressor -/

/-- C4 (behaviour of the code): with `gzip` absent and a successful dump, the
fallback `os.Rename(src, src)` reports success, so the job deletes the
uncompressed dump and reports a `.sql.gz` name for a file that does not exist:
neither the `.sql` nor the `.sql.gz` path holds a file afterwards. -/
theorem gzip_missing_deletes_dump :
    (CreateMachineBackup ⟨false⟩ "local" ["shop"] (exampleJob fun _ => gzipMissing)
        (exampleWorld googleAbsent)).2 =
      .ok [⟨"shop", true, "", "backup_Local_Machine_shop_20240102_030405.sql.gz", 42⟩] ∧
    (CreateMachineBackup ⟨false⟩ "local" ["shop"] (exampleJob fun _ => gzipMissing)
        (exampleWorld googleAbsent)).1.files
      "/var/backups/mysql/local/backup_Local_Machine_shop_20240102_030405.sql" = none ∧
    (CreateMachineBackup ⟨false⟩ "local" ["shop"] (exampleJob fun _ => gzipMissing)
        (exampleWorld googleAbsent)).1.files
      "/var/backups/mysql/local/backup_Local_Machine_shop_20240102_030405.sql.gz" = none :=
  ⟨rfl, rfl, rfl⟩

/-! ## Upload stage: what happens to the local artifact -/

theorem stringsTrimSuffix_append_gz (p : String) : stringsTrimSuffix (p ++ ".gz") ".gz" = p := by
  unfold stringsTrimSuffix
  have hs : (".gz" : String).data.isSuffixOf (p ++ ".gz").data = true := by
    rw [String.data_append, List.isSuffixOf_iff_suffix]
    exact List.suffix_append _ _
  rw [if_pos hs, String.data_append, List.length_append, Nat.add_sub_cancel, List.take_left']
  rfl

theorem ne_append_gz (p : String) : p ≠ p ++ ".gz" := by
  intro h
  have h1 : p.data.length = (p ++ ".gz").data.length := by rw [← h]
  rw [String.data_append, List.length_append] at h1
  have h2 : (".gz" : String).data.length = 3 := by decide
  omega

theorem ensureValidToken_frame (t : TokenExternals) (w : World) :
    (ensureValidToken t w).1.files = w.files ∧ (ensureValidToken t w).1.trace = w.trace ∧
      (ensureValidToken t w).1.drive = w.drive := by
  unfold ensureValidToken RefreshToken
  split
  · exact ⟨rfl, rfl, rfl⟩
  · split
    · split
      · exact ⟨rfl, rfl, rfl⟩
      · split <;> exact ⟨rfl, rfl, rfl⟩
    · exact ⟨rfl, rfl, rfl⟩

/-- The verdict of the token check depends on the configuration alone. -/
theorem ensureValidToken_verdict (t : TokenExternals) (w w' : World)
    (h : w'.config = w.config) : (ensureValidToken t w').2 = (ensureValidToken t w).2 := by
  unfold ensureValidToken RefreshToken
  rw [h]
  split
  · rfl
  · split
    · split
      · rfl
      · split <;> rfl
    · rfl

theorem logToSheets_frame (log : BackupLog) (x : DbExternals) (w : World) :
    (LogToSheets log x w).files = w.files ∧ (LogToSheets log x w).drive = w.drive ∧
      (∀ e ∈ w.trace, e ∈ (LogToSheets log x w).trace) ∧
      Event.logToSheets log ∈ (LogToSheets log x w).trace := by
  have hf := ensureValidToken_frame x.sheetsToken (w.emit (.logToSheets log))
  have hmem : Event.logToSheets log ∈ (w.emit (.logToSheets log)).trace := by
    unfold World.emit
    simp
  have hmono : ∀ e ∈ w.trace, e ∈ (w.emit (.logToSheets log)).trace := by
    intro e he
    unfold World.emit
    simp [he]
  unfold LogToSheets
  simp only
  split
  · exact ⟨rfl, rfl, hmono, hmem⟩
  · rcases hev : ensureValidToken x.sheetsToken (w.emit (.logToSheets log)) with ⟨w1, r⟩
    rw [hev] at hf
    obtain ⟨f1, f2, f3⟩ := hf
    simp only at f1 f2 f3
    have base : w1.files = w.files ∧ w1.drive = w.drive ∧ (∀ e ∈ w.trace, e ∈ w1.trace) ∧
        Event.logToSheets log ∈ w1.trace :=
      ⟨f1, f3, fun e he => f2 ▸ hmono e he, f2 ▸ hmem⟩
    cases r with
    | some e => exact base
    | none =>
      simp only
      split
      · exact base
      · exact base

theorem mem_trace_emit (w : World) (e0 e : Event) (h : e ∈ w.trace) : e ∈ (w.emit e0).trace := by
  unfold World.emit
  simp [h]

theorem uploadFile_frame (filePath fileName : String) (x : DbExternals) (w : World) :
    (UploadFile filePath fileName x w).1.files = w.files ∧
      ∀ e ∈ w.trace, e ∈ (UploadFile filePath fileName x w).1.trace := by
  have hf := ensureValidToken_frame x.uploadToken w
  unfold UploadFile
  rcases hev : ensureValidToken x.uploadToken w with ⟨w1, r⟩
  rw [hev] at hf
  obtain ⟨f1, f2, -⟩ := hf
  simp only at f1 f2
  cases r with
  | some e => exact ⟨f1, fun e he => f2 ▸ he⟩
  | none =>
    simp only
    split
    · exact ⟨f1, fun e he => f2 ▸ he⟩
    · split
      · exact ⟨f1, fun e he => mem_trace_emit _ _ _ (f2 ▸ he)⟩
      · exact ⟨f1, fun e he => mem_trace_emit _ _ _ (f2 ▸ he)⟩

theorem uploadFile_ok (filePath fileName : String) (x : DbExternals) (w : World)
    (content driveID : String)
    (htok : (ensureValidToken x.uploadToken w).2 = none)
    (hfile : w.files filePath = some content)
    (hans : x.uploadAnswer = .ok driveID) :
    (UploadFile filePath fileName x w).2 = .ok driveID ∧
      (UploadFile filePath fileName x w).1.drive =
        w.drive ++ [{ ID := driveID, Name := fileName, Content := content }] := by
  have hf := ensureValidToken_frame x.uploadToken w
  unfold UploadFile
  rcases hev : ensureValidToken x.uploadToken w with ⟨w1, r⟩
  rw [hev] at hf htok
  obtain ⟨f1, -, f3⟩ := hf
  simp only at f1 f3 htok
  subst htok
  simp only
  rw [f1, hfile]
  simp only [hans]
  rw [← f3]
  exact ⟨trivial, rfl⟩

theorem uploadFile_error (filePath fileName : String) (x : DbExternals) (w : World)
    (content err : String)
    (hfile : w.files filePath = some content)
    (hfail : (∃ e0, (ensureValidToken x.uploadToken w).2 = some e0 ∧
          err = "failed to ensure valid token: " ++ e0) ∨
        ((ensureValidToken x.uploadToken w).2 = none ∧ x.uploadAnswer = .error err)) :
    (UploadFile filePath fileName x w).2 = .error err ∧
      (UploadFile filePath fileName x w).1.drive = w.drive := by
  have hf := ensureValidToken_frame x.uploadToken w
  unfold UploadFile
  rcases hev : ensureValidToken x.uploadToken w with ⟨w1, r⟩
  rw [hev] at hf hfail
  obtain ⟨f1, -, f3⟩ := hf
  simp only at f1 f3 hfail
  rcases hfail with ⟨e0, h1, h2⟩ | ⟨h1, h2⟩
  · subst h1
    simp only
    exact ⟨by rw [h2], f3⟩
  · subst h1
    simp only
    rw [f1, hfile]
    simp only [h2]
    exact ⟨trivial, f3⟩

/-- The upload stage on an artifact that exists, with credentials present:
a successful upload stores the file in Drive and removes the local file; a
failed upload leaves Drive and the local file as they were and hands a failure
record with the error text to `LogToSheets`. -/
theorem uploadStage_artifact (machine : Machine) (database filePath : String)
    (result : BackupResult) (x : DbExternals) (w : World) (content : String)
    (hauth : w.config.IsGoogleAuthenticated = true)
    (hfile : w.files filePath = some content) :
    (∀ driveID, (ensureValidToken x.uploadToken w).2 = none → x.uploadAnswer = .ok driveID →
        (uploadStage machine database filePath result x w).files filePath = none ∧
        (uploadStage machine database filePath result x w).drive =
          w.drive ++ [{ ID := driveID, Name := result.FileName, Content := content }]) ∧
      (∀ err,
        ((∃ e0, (ensureValidToken x.uploadToken w).2 = some e0 ∧
            err = "failed to ensure valid token: " ++ e0) ∨
          ((ensureValidToken x.uploadToken w).2 = none ∧ x.uploadAnswer = .error err)) →
        (uploadStage machine database filePath result x w).files filePath = some content ∧
        (uploadStage machine database filePath result x w).drive = w.drive ∧
        Event.logToSheets
            { ID := "", Timestamp := x.sheetsNow, MachineID := machine.ID, TableName := database,
              FileName := result.FileName, FileSize := result.FileSize, Success := false,
              Error := err, DriveID := "" } ∈
          (uploadStage machine database filePath result x w).trace) := by
  have hfr := uploadFile_frame filePath result.FileName x w
  refine ⟨?_, ?_⟩
  · intro driveID htok hans
    obtain ⟨h1, h2⟩ := uploadFile_ok filePath result.FileName x w content driveID htok hfile hans
    unfold uploadStage
    rw [if_pos hauth]
    rcases hup : UploadFile filePath result.FileName x w with ⟨w1, r⟩
    rw [hup] at h1 h2
    simp only at h1 h2
    subst h1
    simp only
    refine ⟨?_, ?_⟩
    · unfold FileSystem.remove
      simp
    · rw [(logToSheets_frame _ x w1).2.1, h2]
  · intro err hfail
    obtain ⟨h1, h2⟩ := uploadFile_error filePath result.FileName x w content err hfile hfail
    unfold uploadStage
    rw [if_pos hauth]
    rcases hup : UploadFile filePath result.FileName x w with ⟨w1, r⟩
    rw [hup] at h1 h2 hfr
    simp only at h1 h2 hfr
    subst h1
    simp only
    obtain ⟨l1, l2, -, l4⟩ := logToSheets_frame
      { ID := "", Timestamp := x.sheetsNow, MachineID := machine.ID, TableName := database,
        FileName := result.FileName, FileSize := result.FileSize, Success := false,
        Error := err, DriveID := "" } x w1
    refine ⟨?_, ?_, l4⟩
    · rw [l1, hfr.1, hfile]
    · rw [l2, h2]

/-! ## What one database can change -/

theorem FrameOutside.refl (a b : String) (w : World) : FrameOutside a b w w :=
  ⟨fun _ _ _ => rfl, fun _ h => h⟩

theorem FrameOutside.trans {a b : String} {w1 w2 w3 : World}
    (h12 : FrameOutside a b w1 w2) (h23 : FrameOutside a b w2 w3) : FrameOutside a b w1 w3 :=
  ⟨fun p ha hb => (h23.1 p ha hb).trans (h12.1 p ha hb), fun e he => h23.2 e (h12.2 e he)⟩

theorem FrameOutside.emit (a b : String) (w : World) (e : Event) :
    FrameOutside a b w (w.emit e) :=
  ⟨fun _ _ _ => rfl, fun e' he => mem_trace_emit w e e' he⟩

theorem FrameOutside.write_left (a b : String) (w : World) (content : String) :
    FrameOutside a b w { w with files := w.files.write a content } :=
  ⟨fun p ha _ => by simp [FileSystem.write, ha], fun _ h => h⟩

theorem FrameOutside.write_right (a b : String) (w : World) (content : String) :
    FrameOutside a b w { w with files := w.files.write b content } :=
  ⟨fun p _ hb => by simp [FileSystem.write, hb], fun _ h => h⟩

theorem FrameOutside.remove_left (a b : String) (w : World) :
    FrameOutside a b w { w with files := w.files.remove a } :=
  ⟨fun p ha _ => by simp [FileSystem.remove, ha], fun _ h => h⟩

theorem FrameOutside.remove_right (a b : String) (w : World) :
    FrameOutside a b w { w with files := w.files.remove b } :=
  ⟨fun p _ hb => by simp [FileSystem.remove, hb], fun _ h => h⟩

theorem FrameOutside.remove_of {a b : String} {w w' : World} (h : FrameOutside a b w w')
    (filePath : String) (hp : filePath = a ∨ filePath = b) :
    FrameOutside a b w { w' with files := w'.files.remove filePath } := by
  rcases hp with hp | hp
  · rw [hp]
    exact h.trans (FrameOutside.remove_left _ _ _)
  · rw [hp]
    exact h.trans (FrameOutside.remove_right _ _ _)

theorem dumpDatabaseForMachine_frame (machine : Machine) (database filePath mysqlHost : String)
    (mysqlPort : Int) (x : DbExternals) (w : World) (b : String) :
    FrameOutside filePath b w
      (dumpDatabaseForMachine machine database filePath mysqlHost mysqlPort x w).1 := by
  unfold dumpDatabaseForMachine
  split
  · exact FrameOutside.refl _ _ _
  · simp only
    split
    · exact FrameOutside.emit _ _ _ _
    · split
      · exact FrameOutside.emit _ _ _ _
      · split
        · exact FrameOutside.emit _ _ _ _
        · exact (FrameOutside.emit _ _ _ _).trans (FrameOutside.write_left _ _ _ _)

theorem compressFileGzip_frame (srcPath : String) (x : DbExternals) (w : World) :
    FrameOutside srcPath (srcPath ++ ".gz") w
      (compressFileGzip srcPath (srcPath ++ ".gz") x w).1 := by
  unfold compressFileGzip
  split
  · rw [stringsTrimSuffix_append_gz]
    unfold osRename
    split
    · exact FrameOutside.refl _ _ _
    · split
      · exact FrameOutside.refl _ _ _
      · exact (FrameOutside.remove_left srcPath _ w).trans (FrameOutside.write_left _ _ _ _)
  · split
    · exact FrameOutside.refl _ _ _
    · split
      · exact FrameOutside.refl _ _ _
      · simp only
        have h1 := FrameOutside.write_right srcPath (srcPath ++ ".gz") w ""
        have h2 := FrameOutside.emit srcPath (srcPath ++ ".gz")
          { w with files := w.files.write (srcPath ++ ".gz") "" } (.commandRun "gzip" ["-c"])
        have h3 := FrameOutside.write_right srcPath (srcPath ++ ".gz")
          ({ w with files := w.files.write (srcPath ++ ".gz") "" }.emit
            (.commandRun "gzip" ["-c"])) x.gzipOutput
        split
        · exact (h1.trans h2).trans h3
        · exact (h1.trans h2).trans h3

theorem compressStage_frame (fileName filePath : String) (result : BackupResult)
    (x : DbExternals) (w : World) :
    FrameOutside filePath (filePath ++ ".gz") w (compressStage fileName filePath result x w).1 ∧
      ((compressStage fileName filePath result x w).2.2 = filePath ∨
        (compressStage fileName filePath result x w).2.2 = filePath ++ ".gz") := by
  have hc := compressFileGzip_frame filePath x w
  unfold compressStage
  simp only
  rcases hg : compressFileGzip filePath (filePath ++ ".gz") x w with ⟨w1, _ | e⟩
  · rw [hg] at hc
    simp only
    have h2 := hc.trans (FrameOutside.remove_left filePath (filePath ++ ".gz") w1)
    split
    · exact ⟨h2, Or.inr rfl⟩
    · exact ⟨h2, Or.inr rfl⟩
  · rw [hg] at hc
    exact ⟨hc, Or.inl rfl⟩

theorem logToSheets_frameOutside (log : BackupLog) (x : DbExternals) (w : World)
    (a b : String) : FrameOutside a b w (LogToSheets log x w) :=
  ⟨fun p _ _ => by rw [(logToSheets_frame log x w).1], (logToSheets_frame log x w).2.2.1⟩

theorem uploadFile_frameOutside (filePath fileName : String) (x : DbExternals) (w : World)
    (a b : String) : FrameOutside a b w (UploadFile filePath fileName x w).1 :=
  ⟨fun p _ _ => by rw [(uploadFile_frame filePath fileName x w).1],
    (uploadFile_frame filePath fileName x w).2⟩

theorem uploadStage_frame (machine : Machine) (database filePath : String)
    (result : BackupResult) (x : DbExternals) (w : World) (a b : String)
    (hp : filePath = a ∨ filePath = b) :
    FrameOutside a b w (uploadStage machine database filePath result x w) := by
  have hu := uploadFile_frameOutside filePath result.FileName x w a b
  unfold uploadStage
  split
  · rcases hup : UploadFile filePath result.FileName x w with ⟨w1, e | driveID⟩
    · rw [hup] at hu
      exact hu.trans (logToSheets_frameOutside _ x w1 a b)
    · rw [hup] at hu
      simp only
      exact FrameOutside.remove_of (hu.trans (logToSheets_frameOutside _ x w1 a b)) filePath hp
  · exact FrameOutside.refl _ _ _

/-- Processing one database touches no file other than its `.sql` path and its
`.sql.gz` path, and erases nothing from the trace. -/
theorem backupDatabase_frame (machine : Machine) (sn bp ts mysqlHost : String)
    (mysqlPort : Int) (database : String) (x : DbExternals) (w : World) :
    FrameOutside (filepathJoin bp (artifactName sn database ts))
      (filepathJoin bp (artifactName sn database ts) ++ ".gz") w
      (backupDatabase machine sn bp ts mysqlHost mysqlPort database x w).1 := by
  have hd := dumpDatabaseForMachine_frame machine database
    (filepathJoin bp (artifactName sn database ts)) mysqlHost mysqlPort x w
    (filepathJoin bp (artifactName sn database ts) ++ ".gz")
  unfold backupDatabase
  simp only
  rcases hdump : dumpDatabaseForMachine machine database
      (filepathJoin bp (artifactName sn database ts)) mysqlHost mysqlPort x w with ⟨w1, e | u⟩
  · rw [hdump] at hd
    exact ⟨hd.1, hd.2⟩
  · rw [hdump] at hd
    simp only
    have key : ∀ r : BackupResult,
        FrameOutside (filepathJoin bp (artifactName sn database ts))
          (filepathJoin bp (artifactName sn database ts) ++ ".gz") w
          (uploadStage machine database
            (compressStage (artifactName sn database ts)
              (filepathJoin bp (artifactName sn database ts)) r x w1).2.2
            (compressStage (artifactName sn database ts)
              (filepathJoin bp (artifactName sn database ts)) r x w1).2.1 x
            (compressStage (artifactName sn database ts)
              (filepathJoin bp (artifactName sn database ts)) r x w1).1) := by
      intro r
      obtain ⟨c1, c2⟩ := compressStage_frame (artifactName sn database ts)
        (filepathJoin bp (artifactName sn database ts)) r x w1
      exact (hd.trans c1).trans (uploadStage_frame machine database _ _ x _ _ _ c2)
    split
    · exact ⟨(key _).1, (key _).2⟩
    · exact ⟨(key _).1, (key _).2⟩

/-! ## A database whose dump and compression succeed -/

theorem dumpDatabaseForMachine_ok (machine : Machine) (database filePath mysqlHost : String)
    (mysqlPort : Int) (x : DbExternals) (w : World)
    (hd1 : x.dumpLookPathErr = none) (hd2 : x.dumpRunErr = none)
    (hd3 : x.dumpStdout.utf8ByteSize ≠ 0) (hd4 : x.dumpWriteErr = none) :
    (dumpDatabaseForMachine machine database filePath mysqlHost mysqlPort x w).2 = .ok () ∧
      (dumpDatabaseForMachine machine database filePath mysqlHost mysqlPort x w).1.files filePath =
        some (stringsReplaceAll x.dumpStdout "DEFINER=" "-- DEFINER=") ∧
      (dumpDatabaseForMachine machine database filePath mysqlHost mysqlPort x w).1.config =
        w.config ∧
      (dumpDatabaseForMachine machine database filePath mysqlHost mysqlPort x w).1.drive =
        w.drive := by
  unfold dumpDatabaseForMachine
  rw [hd1]
  simp only
  rw [hd2]
  simp only
  rw [if_neg hd3, hd4]
  refine ⟨rfl, ?_, rfl, rfl⟩
  simp [FileSystem.write]

theorem compressStage_gzip_ok (fileName filePath : String) (result : BackupResult)
    (x : DbExternals) (w : World) (content : String)
    (hg1 : x.gzipLookPathErr = none) (hg2 : x.gzipCreateErr = none)
    (hg3 : x.gzipRunErr = none) (hfile : w.files filePath = some content) :
    (compressStage fileName filePath result x w).2.2 = filePath ++ ".gz" ∧
      (compressStage fileName filePath result x w).2.1 =
        { result with FileName := fileName ++ ".gz",
                      FileSize := (x.gzipOutput.utf8ByteSize : Int) } ∧
      (compressStage fileName filePath result x w).1.files (filePath ++ ".gz") =
        some x.gzipOutput ∧
      (compressStage fileName filePath result x w).1.config = w.config ∧
      (compressStage fileName filePath result x w).1.drive = w.drive := by
  have hne : filePath ++ ".gz" ≠ filePath := fun h => ne_append_gz filePath h.symm
  have hgz : compressFileGzip filePath (filePath ++ ".gz") x w =
      ({ ({ w with files := w.files.write (filePath ++ ".gz") "" }.emit
            (.commandRun "gzip" ["-c"])) with
          files := (w.files.write (filePath ++ ".gz") "").write (filePath ++ ".gz")
            x.gzipOutput }, none) := by
    unfold compressFileGzip
    rw [hg1]
    simp only
    rw [hfile]
    simp only
    rw [hg2]
    simp only
    rw [hg3]
    rfl
  unfold compressStage
  simp only
  rw [hgz]
  simp only
  split
  · rename_i size hsz
    have hsize : (x.gzipOutput.utf8ByteSize : Int) = size := by
      simpa [statSize, FileSystem.remove, FileSystem.write, hne, World.emit] using hsz
    subst hsize
    refine ⟨rfl, rfl, ?_, rfl, rfl⟩
    simp [FileSystem.remove, FileSystem.write, hne, World.emit]
  · rename_i hsz
    simp [statSize, FileSystem.remove, FileSystem.write, hne, World.emit] at hsz

/-- One database whose dump and gzip compression succeed while credentials are
present: the effect of the upload on the compressed artifact, on Drive and on
the trace, in the state right after this database. -/
theorem backupDatabase_upload (machine : Machine) (sn bp ts mysqlHost : String)
    (mysqlPort : Int) (database : String) (x : DbExternals) (w : World)
    (hd1 : x.dumpLookPathErr = none) (hd2 : x.dumpRunErr = none)
    (hd3 : x.dumpStdout.utf8ByteSize ≠ 0) (hd4 : x.dumpWriteErr = none)
    (hg1 : x.gzipLookPathErr = none) (hg2 : x.gzipCreateErr = none)
    (hg3 : x.gzipRunErr = none)
    (hauth : w.config.IsGoogleAuthenticated = true) :
    (∀ driveID, (ensureValidToken x.uploadToken w).2 = none → x.uploadAnswer = .ok driveID →
        (backupDatabase machine sn bp ts mysqlHost mysqlPort database x w).1.files
          (artifactPath bp sn database ts ++ ".gz") = none ∧
        (backupDatabase machine sn bp ts mysqlHost mysqlPort database x w).1.drive =
          w.drive ++ [{ ID := driveID, Name := artifactName sn database ts ++ ".gz",
                        Content := x.gzipOutput }]) ∧
      (∀ err,
        ((∃ e0, (ensureValidToken x.uploadToken w).2 = some e0 ∧
            err = "failed to ensure valid token: " ++ e0) ∨
          ((ensureValidToken x.uploadToken w).2 = none ∧ x.uploadAnswer = .error err)) →
        (backupDatabase machine sn bp ts mysqlHost mysqlPort database x w).1.files
          (artifactPath bp sn database ts ++ ".gz") = some x.gzipOutput ∧
        (backupDatabase machine sn bp ts mysqlHost mysqlPort database x w).1.drive = w.drive ∧
        Event.logToSheets (uploadFailureLog machine sn database ts x err) ∈
          (backupDatabase machine sn bp ts mysqlHost mysqlPort database x w).1.trace) := by
  obtain ⟨d1, d2, d3, d4⟩ := dumpDatabaseForMachine_ok machine database
    (filepathJoin bp (artifactName sn database ts)) mysqlHost mysqlPort x w hd1 hd2 hd3 hd4
  unfold backupDatabase artifactPath
  simp only
  rcases hdump : dumpDatabaseForMachine machine database
      (filepathJoin bp (artifactName sn database ts)) mysqlHost mysqlPort x w with ⟨wd, e | u⟩
  · rw [hdump] at d1
    cases d1
  · rw [hdump] at d2 d3 d4
    simp only at d2 d3 d4
    simp only
    have key : ∀ r : BackupResult, r.FileName = artifactName sn database ts →
        (∀ driveID, (ensureValidToken x.uploadToken w).2 = none →
          x.uploadAnswer = .ok driveID →
          (uploadStage machine database
            (compressStage (artifactName sn database ts)
              (filepathJoin bp (artifactName sn database ts)) r x wd).2.2
            (compressStage (artifactName sn database ts)
              (filepathJoin bp (artifactName sn database ts)) r x wd).2.1 x
            (compressStage (artifactName sn database ts)
              (filepathJoin bp (artifactName sn database ts)) r x wd).1).files
              (filepathJoin bp (artifactName sn database ts) ++ ".gz") = none ∧
          (uploadStage machine database
            (compressStage (artifactName sn database ts)
              (filepathJoin bp (artifactName sn database ts)) r x wd).2.2
            (compressStage (artifactName sn database ts)
              (filepathJoin bp (artifactName sn database ts)) r x wd).2.1 x
            (compressStage (artifactName sn database ts)
              (filepathJoin bp (artifactName sn database ts)) r x wd).1).drive =
            w.drive ++ [{ ID := driveID, Name := artifactName sn database ts ++ ".gz",
                          Content := x.gzipOutput }]) ∧
        (∀ err,
          ((∃ e0, (ensureValidToken x.uploadToken w).2 = some e0 ∧
              err = "failed to ensure valid token: " ++ e0) ∨
            ((ensureValidToken x.uploadToken w).2 = none ∧ x.uploadAnswer = .error err)) →
          (uploadStage machine database
            (compressStage (artifactName sn database ts)
              (filepathJoin bp (artifactName sn database ts)) r x wd).2.2
            (compressStage (artifactName sn database ts)
              (filepathJoin bp (artifactName sn database ts)) r x wd).2.1 x
            (compressStage (artifactName sn database ts)
              (filepathJoin bp (artifactName sn database ts)) r x wd).1).files
              (filepathJoin bp (artifactName sn database ts) ++ ".gz") = some x.gzipOutput ∧
          (uploadStage machine database
            (compressStage (artifactName sn database ts)
              (filepathJoin bp (artifactName sn database ts)) r x wd).2.2
            (compressStage (artifactName sn database ts)
              (filepathJoin bp (artifactName sn database ts)) r x wd).2.1 x
            (compressStage (artifactName sn database ts)
              (filepathJoin bp (artifactName sn database ts)) r x wd).1).drive = w.drive ∧
          Event.logToSheets (uploadFailureLog machine sn database ts x err) ∈
            (uploadStage machine database
              (compressStage (artifactName sn database ts)
                (filepathJoin bp (artifactName sn database ts)) r x wd).2.2
              (compressStage (artifactName sn database ts)
                (filepathJoin bp (artifactName sn database ts)) r x wd).2.1 x
              (compressStage (artifactName sn database ts)
                (filepathJoin bp (artifactName sn database ts)) r x wd).1).trace) := by
      intro r hr
      obtain ⟨c1, c2, c3, c4, c5⟩ := compressStage_gzip_ok (artifactName sn database ts)
        (filepathJoin bp (artifactName sn database ts)) r x wd _ hg1 hg2 hg3 d2
      rcases hcs : compressStage (artifactName sn database ts)
        (filepathJoin bp (artifactName sn database ts)) r x wd with ⟨wc, rc, pc⟩
      rw [hcs] at c1 c2 c3 c4 c5
      simp only at c1 c2 c3 c4 c5
      subst c1
      have hauth' : wc.config.IsGoogleAuthenticated = true := by rw [c4, d3]; exact hauth
      have htok : (ensureValidToken x.uploadToken wc).2 = (ensureValidToken x.uploadToken w).2 :=
        ensureValidToken_verdict x.uploadToken w wc (by rw [c4, d3])
      obtain ⟨u1, u2⟩ := uploadStage_artifact machine database
        (filepathJoin bp (artifactName sn database ts) ++ ".gz") rc x wc x.gzipOutput hauth' c3
      rw [htok] at u1 u2
      have hname : rc.FileName = artifactName sn database ts ++ ".gz" := by rw [c2]
      have hsize : rc.FileSize = (x.gzipOutput.utf8ByteSize : Int) := by rw [c2]
      rw [hname] at u1
      rw [hname, hsize] at u2
      rw [c5, d4] at u1 u2
      exact ⟨u1, u2⟩
    split
    · exact key _ rfl
    · exact key _ rfl

/-- A file and a recorded action survive the processing of further databases
none of which has the file's path as its `.sql` or `.sql.gz` path. -/
theorem backupLoop_keeps (machine : Machine) (sn bp ts mysqlHost : String) (mysqlPort : Int)
    (j : JobExternals) (p content : String) (e : Event) (rest : List String) (k : Nat)
    (w : World) (acc : List BackupResult)
    (hpaths : ∀ db ∈ rest, artifactPath bp sn db ts ≠ p ∧ artifactPath bp sn db ts ++ ".gz" ≠ p)
    (hfile : w.files p = some content) (he : e ∈ w.trace) :
    (backupLoop machine sn bp ts mysqlHost mysqlPort j k rest w acc).1.files p = some content ∧
      e ∈ (backupLoop machine sn bp ts mysqlHost mysqlPort j k rest w acc).1.trace := by
  apply backupLoop_invariant machine sn bp ts mysqlHost mysqlPort j
    (fun w1 => w1.files p = some content ∧ e ∈ w1.trace) rest k w acc
  · intro i h w1 hw1
    obtain ⟨f1, f2⟩ := backupDatabase_frame machine sn bp ts mysqlHost mysqlPort
      (rest.get ⟨i, h⟩) (j.perDatabase (k + i)) w1
    obtain ⟨n1, n2⟩ := hpaths (rest.get ⟨i, h⟩) (List.get_mem rest i h)
    refine ⟨?_, f2 e hw1.2⟩
    rw [f1 p (fun hp => n1 hp.symm) (fun hp => n2 hp.symm)]
    exact hw1.1
  · exact ⟨hfile, he⟩

/-- C6 (amended): for a database whose dump and gzip compression succeeded
while Google credentials are present. If the upload succeeds, the file is
stored in Drive and the local compressed artifact is removed. If the upload
fails with some error text, Drive is unchanged, the local compressed artifact
exists when this database is finished, and a record with `Success = false`
carrying that text has been handed to `LogToSheets`; both still hold at the end
of the loop over the remaining databases of the job provided none of them has
this artifact's path as its own `.sql` or `.sql.gz` path. Here `w` is the
state in which the database's turn begins and `rest` are the databases after
it. -/
theorem local_artifact_after_upload (machine : Machine) (sn bp ts mysqlHost : String)
    (mysqlPort : Int) (j : JobExternals) (k : Nat) (database : String) (rest : List String)
    (w : World) (acc : List BackupResult)
    (hd1 : (j.perDatabase k).dumpLookPathErr = none) (hd2 : (j.perDatabase k).dumpRunErr = none)
    (hd3 : (j.perDatabase k).dumpStdout.utf8ByteSize ≠ 0)
    (hd4 : (j.perDatabase k).dumpWriteErr = none)
    (hg1 : (j.perDatabase k).gzipLookPathErr = none)
    (hg2 : (j.perDatabase k).gzipCreateErr = none)
    (hg3 : (j.perDatabase k).gzipRunErr = none)
    (hauth : w.config.IsGoogleAuthenticated = true) :
    (∀ driveID, (ensureValidToken (j.perDatabase k).uploadToken w).2 = none →
        (j.perDatabase k).uploadAnswer = .ok driveID →
        (backupDatabase machine sn bp ts mysqlHost mysqlPort database (j.perDatabase k) w).1.files
          (artifactPath bp sn database ts ++ ".gz") = none ∧
        (backupDatabase machine sn bp ts mysqlHost mysqlPort database (j.perDatabase k) w).1.drive =
          w.drive ++ [{ ID := driveID, Name := artifactName sn database ts ++ ".gz",
                        Content := (j.perDatabase k).gzipOutput }]) ∧
      (∀ err,
        ((∃ e0, (ensureValidToken (j.perDatabase k).uploadToken w).2 = some e0 ∧
            err = "failed to ensure valid token: " ++ e0) ∨
          ((ensureValidToken (j.perDatabase k).uploadToken w).2 = none ∧
            (j.perDatabase k).uploadAnswer = .error err)) →
        ((backupDatabase machine sn bp ts mysqlHost mysqlPort database (j.perDatabase k) w).1.files
            (artifactPath bp sn database ts ++ ".gz") = some (j.perDatabase k).gzipOutput ∧
          (backupDatabase machine sn bp ts mysqlHost mysqlPort database (j.perDatabase k) w).1.drive =
            w.drive ∧
          Event.logToSheets (uploadFailureLog machine sn database ts (j.perDatabase k) err) ∈
            (backupDatabase machine sn bp ts mysqlHost mysqlPort database
              (j.perDatabase k) w).1.trace) ∧
        ((∀ db ∈ rest, artifactPath bp sn db ts ≠ artifactPath bp sn database ts ++ ".gz" ∧
            artifactPath bp sn db ts ++ ".gz" ≠ artifactPath bp sn database ts ++ ".gz") →
          (backupLoop machine sn bp ts mysqlHost mysqlPort j (k + 1) rest
            (backupDatabase machine sn bp ts mysqlHost mysqlPort database (j.perDatabase k) w).1
            (acc ++ [(backupDatabase machine sn bp ts mysqlHost mysqlPort database
              (j.perDatabase k) w).2])).1.files
              (artifactPath bp sn database ts ++ ".gz") = some (j.perDatabase k).gzipOutput ∧
          Event.logToSheets (uploadFailureLog machine sn database ts (j.perDatabase k) err) ∈
            (backupLoop machine sn bp ts mysqlHost mysqlPort j (k + 1) rest
              (backupDatabase machine sn bp ts mysqlHost mysqlPort database (j.perDatabase k) w).1
              (acc ++ [(backupDatabase machine sn bp ts mysqlHost mysqlPort database
                (j.perDatabase k) w).2])).1.trace)) := by
  obtain ⟨hok, hfail⟩ := backupDatabase_upload machine sn bp ts mysqlHost mysqlPort database
    (j.perDatabase k) w hd1 hd2 hd3 hd4 hg1 hg2 hg3 hauth
  refine ⟨hok, ?_⟩
  intro err herr
  obtain ⟨f1, f2, f3⟩ := hfail err herr
  refine ⟨⟨f1, f2, f3⟩, ?_⟩
  intro hpaths
  exact backupLoop_keeps machine sn bp ts mysqlHost mysqlPort j _ _ _ rest (k + 1) _ _ hpaths f1 f3

/-- Witness for `local_artifact_after_upload`: the first of two databases of
a job on the local example machine, with an upload that Drive refuses. -/
theorem local_artifact_after_upload_witness :
    (backupLoop exampleLocalMachine "Local_Machine" "/var/backups/mysql/local" "20240102_030405"
        "localhost" 3306 (exampleJob fun i => if i = 0 then uploadFails else smoothRun) (0 + 1)
        ["crm"]
        (backupDatabase exampleLocalMachine "Local_Machine" "/var/backups/mysql/local"
          "20240102_030405" "localhost" 3306 "shop" uploadFails (exampleWorld googlePresent)).1
        ([] ++ [(backupDatabase exampleLocalMachine "Local_Machine" "/var/backups/mysql/local"
          "20240102_030405" "localhost" 3306 "shop" uploadFails
          (exampleWorld googlePresent)).2])).1.files
        (artifactPath "/var/backups/mysql/local" "Local_Machine" "shop" "20240102_030405" ++
          ".gz") = some "gzip-bytes" ∧
      Event.logToSheets (uploadFailureLog exampleLocalMachine "Local_Machine" "shop"
          "20240102_030405" uploadFails "upload failed with status: 403 - quota") ∈
        (backupLoop exampleLocalMachine "Local_Machine" "/var/backups/mysql/local"
          "20240102_030405" "localhost" 3306
          (exampleJob fun i => if i = 0 then uploadFails else smoothRun) (0 + 1) ["crm"]
          (backupDatabase exampleLocalMachine "Local_Machine" "/var/backups/mysql/local"
            "20240102_030405" "localhost" 3306 "shop" uploadFails (exampleWorld googlePresent)).1
          ([] ++ [(backupDatabase exampleLocalMachine "Local_Machine" "/var/backups/mysql/local"
            "20240102_030405" "localhost" 3306 "shop" uploadFails
            (exampleWorld googlePresent)).2])).1.trace :=
  ((local_artifact_after_upload exampleLocalMachine "Local_Machine" "/var/backups/mysql/local"
      "20240102_030405" "localhost" 3306
      (exampleJob fun i => if i = 0 then uploadFails else smoothRun) 0 "shop" ["crm"]
      (exampleWorld googlePresent) [] rfl rfl (by decide) rfl rfl rfl rfl rfl).2
    "upload failed with status: 403 - quota" (Or.inr ⟨rfl, rfl⟩)).2
    (fun db hdb => by
      rw [List.mem_singleton] at hdb
      subst hdb
      exact ⟨by decide, by decide⟩)

/-- C6 (counterexample): a job that lists the database `shop` twice while
Google credentials are present. Dump and compression succeed for both entries;
the upload of the first entry fails, so its compressed artifact is kept and the
failure is handed to `LogToSheets`; the second entry has the same artifact
path, its upload succeeds and the file is removed. After the job the artifact
of the first entry no longer exists, although it exists after a job over the
first entry alone. -/
theorem failed_upload_artifact_removed_by_duplicate :
    (exampleWorld googlePresent).config.IsGoogleAuthenticated = true ∧
    (CreateMachineBackup ⟨false⟩ "local" ["shop", "shop"]
        (exampleJob fun i => if i = 0 then uploadFails else smoothRun)
        (exampleWorld googlePresent)).2 =
      .ok [⟨"shop", true, "", "backup_Local_Machine_shop_20240102_030405.sql.gz", 10⟩,
        ⟨"shop", true, "", "backup_Local_Machine_shop_20240102_030405.sql.gz", 10⟩] ∧
    Event.logToSheets (uploadFailureLog exampleLocalMachine "Local_Machine" "shop"
        "20240102_030405" uploadFails "upload failed with status: 403 - quota") ∈
      (CreateMachineBackup ⟨false⟩ "local" ["shop", "shop"]
        (exampleJob fun i => if i = 0 then uploadFails else smoothRun)
        (exampleWorld googlePresent)).1.trace ∧
    (CreateMachineBackup ⟨false⟩ "local" ["shop", "shop"]
        (exampleJob fun i => if i = 0 then uploadFails else smoothRun)
        (exampleWorld googlePresent)).1.files
      "/var/backups/mysql/local/backup_Local_Machine_shop_20240102_030405.sql.gz" = none ∧
    (CreateMachineBackup ⟨false⟩ "local" ["shop"]
        (exampleJob fun i => if i = 0 then uploadFails else smoothRun)
        (exampleWorld googlePresent)).1.files
      "/var/backups/mysql/local/backup_Local_Machine_shop_20240102_030405.sql.gz" =
        some "gzip-bytes" :=
  ⟨rfl, rfl, by decide, rfl, rfl⟩

/-! ## Fallback of `sanitizeName` and distinct artifact names -/

theorem trimmed_eq_nil_of_no_letterDigitHyphen (name : List Char)
    (h : ∀ c ∈ name, isLetterDigitHyphen c = false) :
    trimUnderscores (collapseUnderscores false (replaceDisallowed name)) = [] := by
  have hkey : (trimUnderscores (collapseUnderscores false (replaceDisallowed name))).filter
      (fun c => c != '_') = [] := by
    rw [filter_trimUnderscores, filter_collapseUnderscores, filter_replaceDisallowed,
      List.filter_eq_nil_iff]
    intro c hc
    simp [h c hc]
  cases ht : trimUnderscores (collapseUnderscores false (replaceDisallowed name)) with
  | nil => rfl
  | cons c rest =>
    exfalso
    have hhead := trimUnderscores_head (collapseUnderscores false (replaceDisallowed name))
    rw [ht] at hhead hkey
    have hc : c ≠ '_' := fun hc => hhead (by rw [hc]; rfl)
    rw [List.filter_cons_of_pos (by simp [hc])] at hkey
    cases hkey

/-- C11: a name without any ASCII letter, digit or hyphen is sanitized to the
placeholder `server`; for every other name the text left after replacing,
collapsing and trimming is non-empty and is the result, so the fallback branch
is not taken. -/
theorem sanitizeName_fallback (name : String) :
    ((∀ c ∈ name.data, isLetterDigitHyphen c = false) → sanitizeName name = "server") ∧
      ((∃ c ∈ name.data, isLetterDigitHyphen c = true) →
        trimUnderscores (collapseUnderscores false (replaceDisallowed name.data)) ≠ [] ∧
        sanitizeName name =
          String.mk (trimUnderscores (collapseUnderscores false (replaceDisallowed name.data)))) := by
  refine ⟨?_, ?_⟩
  · intro h
    unfold sanitizeName sanitizeChars
    simp only
    rw [if_pos (trimmed_eq_nil_of_no_letterDigitHyphen name.data h)]
  · intro h
    have hkey : (trimUnderscores (collapseUnderscores false (replaceDisallowed name.data))).filter
        (fun c => c != '_') = name.data.filter isLetterDigitHyphen := by
      rw [filter_trimUnderscores, filter_collapseUnderscores, filter_replaceDisallowed]
    have hne : trimUnderscores (collapseUnderscores false (replaceDisallowed name.data)) ≠ [] := by
      intro h0
      rw [h0] at hkey
      obtain ⟨c, hc, hl⟩ := h
      have : c ∈ name.data.filter isLetterDigitHyphen := List.mem_filter.mpr ⟨hc, hl⟩
      rw [← hkey] at this
      simp at this
    refine ⟨hne, ?_⟩
    unfold sanitizeName sanitizeChars
    simp only
    rw [if_neg hne]

/-- Witness for `sanitizeName_fallback`: a name of underscores, spaces and
punctuation takes the fallback, the name `db 1` does not. -/
theorem sanitizeName_fallback_witness :
    sanitizeName "_ !é_" = "server" ∧
      sanitizeName "db 1" =
        String.mk (trimUnderscores (collapseUnderscores false (replaceDisallowed "db 1".data))) :=
  ⟨(sanitizeName_fallback "_ !é_").1 (by decide),
    ((sanitizeName_fallback "db 1").2 ⟨'d', by decide, by decide⟩).2⟩

theorem string_append_right_cancel {a b c : String} (h : a ++ c = b ++ c) : a = b := by
  have h1 : (a ++ c).data = (b ++ c).data := by rw [h]
  rw [String.data_append, String.data_append] at h1
  exact String.ext (List.append_cancel_right h1)

theorem string_append_left_cancel {a b c : String} (h : a ++ b = a ++ c) : b = c := by
  have h1 : (a ++ b).data = (a ++ c).data := by rw [h]
  rw [String.data_append, String.data_append] at h1
  exact String.ext (List.append_cancel_left h1)

/-- C13: for every machine name and database name and any two distinct
timestamp tokens, the artifact names built for the two tokens are different,
in the `.sql` form and in the `.sql.gz` form. -/
theorem artifactName_distinct_timestamps (machineName database t1 t2 : String) (h : t1 ≠ t2) :
    artifactName (sanitizeName machineName) database t1 ≠
        artifactName (sanitizeName machineName) database t2 ∧
      artifactName (sanitizeName machineName) database t1 ++ ".gz" ≠
        artifactName (sanitizeName machineName) database t2 ++ ".gz" := by
  have key : artifactName (sanitizeName machineName) database t1 ≠
      artifactName (sanitizeName machineName) database t2 := by
    intro heq
    unfold artifactName at heq
    exact h (string_append_left_cancel (string_append_right_cancel heq))
  exact ⟨key, fun heq => key (string_append_right_cancel heq)⟩

/-- Witness for `artifactName_distinct_timestamps`: two jobs one second
apart. -/
theorem artifactName_distinct_timestamps_witness :
    artifactName (sanitizeName "Prod DB #1") "shop" "20240102_030405" ≠
        artifactName (sanitizeName "Prod DB #1") "shop" "20240102_030406" ∧
      artifactName (sanitizeName "Prod DB #1") "shop" "20240102_030405" ++ ".gz" ≠
        artifactName (sanitizeName "Prod DB #1") "shop" "20240102_030406" ++ ".gz" :=
  artifactName_distinct_timestamps "Prod DB #1" "shop" "20240102_030405" "20240102_030406"
    (by decide)

/-! ## Artifact names and path separators -/

theorem splitSlash_ne_nil : ∀ l : List Char, splitSlash l ≠ []
  | [] => by simp [splitSlash]
  | c :: rest => by
    unfold splitSlash
    split
    · simp
    · split <;> simp

theorem splitSlash_append_slash : ∀ a b : List Char,
    splitSlash (a ++ '/' :: b) = splitSlash a ++ splitSlash b
  | [], b => by
    rcases hb : splitSlash b with _ | ⟨seg, segs⟩
    · exact absurd hb (splitSlash_ne_nil b)
    · simp [splitSlash, hb]
  | c :: a, b => by
    have ih := splitSlash_append_slash a b
    rcases ha : splitSlash a with _ | ⟨seg, segs⟩
    · exact absurd ha (splitSlash_ne_nil a)
    · rw [ha] at ih
      rw [List.cons_append, splitSlash, ih, splitSlash, ha]
      by_cases hc : c = '/' <;> simp [hc]

theorem splitSlash_of_no_slash : ∀ l : List Char, '/' ∉ l → splitSlash l = [l]
  | [], _ => rfl
  | c :: rest, h => by
    have hc : c ≠ '/' := fun hc => h (by simp [hc])
    have hrest : '/' ∉ rest := fun hr => h (List.mem_cons_of_mem _ hr)
    rw [splitSlash, splitSlash_of_no_slash rest hrest]
    simp [hc]

theorem cleanSegments_append_plain (rooted : Bool) (seg : List Char) (h1 : seg ≠ [])
    (h2 : seg ≠ ['.']) (h3 : seg ≠ ['.', '.']) :
    ∀ (xs out : List (List Char)),
      cleanSegments rooted out (xs ++ [seg]) = cleanSegments rooted out xs ++ [seg]
  | [], out => by
    simp [cleanSegments, h1, h2, h3]
  | x :: xs, out => by
    rw [List.cons_append]
    unfold cleanSegments
    by_cases hx : x = [] ∨ x = ['.']
    · rw [if_pos hx, if_pos hx]
      exact cleanSegments_append_plain rooted seg h1 h2 h3 xs out
    · rw [if_neg hx, if_neg hx]
      by_cases hdd : x = ['.', '.']
      · rw [if_pos hdd, if_pos hdd]
        cases out with
        | nil =>
          simp only
          by_cases hr : rooted = true
          · rw [if_pos hr, if_pos hr]
            exact cleanSegments_append_plain rooted seg h1 h2 h3 xs _
          · rw [if_neg hr, if_neg hr]
            exact cleanSegments_append_plain rooted seg h1 h2 h3 xs _
        | cons top below =>
          simp only
          by_cases ht : top = ['.', '.']
          · rw [if_pos ht, if_pos ht]
            exact cleanSegments_append_plain rooted seg h1 h2 h3 xs _
          · rw [if_neg ht, if_neg ht]
            exact cleanSegments_append_plain rooted seg h1 h2 h3 xs _
      · rw [if_neg hdd, if_neg hdd]
        exact cleanSegments_append_plain rooted seg h1 h2 h3 xs _

theorem intercalate_append_singleton (sep seg : List Char) :
    ∀ xs : List (List Char), ∃ front, List.intercalate sep (xs ++ [seg]) = front ++ seg
  | [] => ⟨[], by simp [List.intercalate]⟩
  | [x] => ⟨x ++ sep, by simp [List.intercalate]⟩
  | x :: y :: xs => by
    obtain ⟨front, hf⟩ := intercalate_append_singleton sep seg (y :: xs)
    refine ⟨x ++ sep ++ front, ?_⟩
    simp only [List.intercalate, List.cons_append, List.intersperse_cons₂, List.flatten_cons,
      List.append_assoc] at hf ⊢
    rw [hf]

theorem filepathJoin_plain (backupPath fileName : String) (h0 : '/' ∉ fileName.data)
    (h1 : fileName.data ≠ []) (h2 : fileName.data ≠ ['.'])
    (h3 : fileName.data ≠ ['.', '.']) :
    filepathJoin backupPath fileName =
      pathFromSegments (pathRooted backupPath) (pathSegments backupPath ++ [fileName.data]) := by
  have hbody : ∀ xs : List (List Char), List.intercalate ['/'] (xs ++ [fileName.data]) ≠ [] := by
    intro xs hnil
    obtain ⟨front, hf⟩ := intercalate_append_singleton ['/'] fileName.data xs
    rw [hf] at hnil
    exact h1 (List.append_eq_nil.mp hnil).2
  have hfn : fileName ≠ "" := fun h => h1 (by rw [h])
  by_cases hb : backupPath = ""
  · subst hb
    have hr : (fileName.data.head? = some '/') = False := by
      apply eq_false
      intro hh
      rcases List.head?_eq_some_iff.mp hh with ⟨ys, hys⟩
      exact h0 (by rw [hys]; simp)
    unfold filepathJoin filepathClean
    rw [if_neg (by simp), if_pos hfn]
    simp only [hr, decide_False, Bool.false_eq_true, if_false]
    rw [splitSlash_of_no_slash _ h0]
    have hseg := cleanSegments_append_plain false fileName.data h1 h2 h3 [] []
    simp only [List.nil_append] at hseg
    rw [hseg]
    have hb2 := hbody (cleanSegments false [] [])
    rw [if_neg hb2]
    rfl
  · have hdata : (backupPath ++ "/" ++ fileName).data = backupPath.data ++ '/' :: fileName.data := by
      rw [String.data_append, String.data_append]
      simp
    have hbne : backupPath.data ≠ [] := fun h => hb (String.ext h)
    have hhead : (backupPath.data ++ '/' :: fileName.data).head? = backupPath.data.head? := by
      cases hbd : backupPath.data with
      | nil => exact absurd hbd hbne
      | cons c rest => rfl
    unfold filepathJoin filepathClean pathFromSegments pathSegments pathRooted
    rw [if_pos hb]
    simp only [hdata, hhead]
    rw [splitSlash_append_slash, splitSlash_of_no_slash _ h0,
      cleanSegments_append_plain _ fileName.data h1 h2 h3]
    by_cases hr : backupPath.data.head? = some '/'
    · simp [hr]
    · simp only [hr, decide_False, Bool.false_eq_true, if_false]
      rw [if_neg (hbody _)]
      rfl

theorem artifactName_data (sn database ts : String) :
    (artifactName sn database ts).data =
      'b' :: ("ackup_".data ++ sn.data ++ '_' :: database.data ++ '_' :: ts.data ++ ".sql".data) := by
  unfold artifactName
  simp only [String.data_append]
  simp

/-- C12 (counterexample): the database name is copied into the artifact name
as it is. A database name with path separators gives an artifact name that
contains `/`, and the joined path lies outside the machine's backup directory
`/var/backups/mysql/local`. -/
theorem artifact_name_with_separator :
    '/' ∈ (artifactName (sanitizeName "Local Machine") "../../../../../../etc/cron.d/x"
        "20240102_030405").data ∧
      artifactPath "/var/backups/mysql/local" (sanitizeName "Local Machine")
        "../../../../../../etc/cron.d/x" "20240102_030405" = "/etc/cron.d/x_20240102_030405.sql" := by
  refine ⟨by decide, by decide⟩

/-- C12 (amended): for every machine name, and every database name and
timestamp token that contain no `/`, the artifact file name contains no `/`,
and the artifact path is the backup directory's path with the file name as one
further element: a direct child of that directory. -/
theorem artifact_path_direct_child (backupPath machineName database timestamp : String)
    (hdb : '/' ∉ database.data) (hts : '/' ∉ timestamp.data) :
    '/' ∉ (artifactName (sanitizeName machineName) database timestamp).data ∧
      artifactPath backupPath (sanitizeName machineName) database timestamp =
        pathFromSegments (pathRooted backupPath)
          (pathSegments backupPath ++
            [(artifactName (sanitizeName machineName) database timestamp).data]) := by
  have hsn : '/' ∉ (sanitizeName machineName).data := by
    intro h
    have := mem_sanitizeChars (show '/' ∈ sanitizeChars machineName.data from h)
    revert this
    decide
  have hno : '/' ∉ (artifactName (sanitizeName machineName) database timestamp).data := by
    rw [artifactName_data]
    simp only [List.mem_cons, List.mem_append, not_or]
    refine ⟨by decide, ⟨⟨⟨by decide, hsn⟩, by decide, hdb⟩, by decide, hts⟩, by decide⟩
  refine ⟨hno, ?_⟩
  unfold artifactPath
  apply filepathJoin_plain _ _ hno
  · rw [artifactName_data]
    simp
  · rw [artifactName_data]
    intro h
    injection h with h _
    revert h
    decide
  · rw [artifactName_data]
    intro h
    injection h with h _
    revert h
    decide

/-- Witness for `artifact_path_direct_child`: the database `shop` on the local
example machine. -/
theorem artifact_path_direct_child_witness :
    '/' ∉ (artifactName (sanitizeName "Local Machine") "shop" "20240102_030405").data ∧
      artifactPath "/var/backups/mysql/local" (sanitizeName "Local Machine") "shop"
          "20240102_030405" =
        pathFromSegments (pathRooted "/var/backups/mysql/local")
          (pathSegments "/var/backups/mysql/local" ++
            [(artifactName (sanitizeName "Local Machine") "shop" "20240102_030405").data]) :=
  artifact_path_direct_child "/var/backups/mysql/local" "Local Machine" "shop" "20240102_030405"
    (by decide) (by decide)

/-! ## Tunnel teardown -/

theorem TraceGrows.same (w : World) : TraceGrows w w :=
  ⟨[], by simp, by simp⟩

theorem TraceGrows.andThen {w1 w2 w3 : World} (h12 : TraceGrows w1 w2) (h23 : TraceGrows w2 w3) :
    TraceGrows w1 w3 := by
  obtain ⟨es1, e1, n1⟩ := h12
  obtain ⟨es2, e2, n2⟩ := h23
  refine ⟨es1 ++ es2, by rw [e2, e1, List.append_assoc], ?_⟩
  intro e he
  rcases List.mem_append.mp he with h | h
  · exact n1 e h
  · exact n2 e h

theorem TraceGrows.of_trace_eq {w w' : World} (h : w'.trace = w.trace) : TraceGrows w w' :=
  ⟨[], by simp [h], by simp⟩

theorem TraceGrows.ofEmit (w : World) (e : Event) (h : e.isDatabaseStep = true) :
    TraceGrows w (w.emit e) :=
  ⟨[e], rfl, by simpa using h⟩

theorem ensureValidToken_traceGrows (t : TokenExternals) (w : World) :
    TraceGrows w (ensureValidToken t w).1 :=
  TraceGrows.of_trace_eq (ensureValidToken_frame t w).2.1

theorem uploadFile_traceGrows (filePath fileName : String) (x : DbExternals) (w : World) :
    TraceGrows w (UploadFile filePath fileName x w).1 := by
  have ht := ensureValidToken_traceGrows x.uploadToken w
  unfold UploadFile
  rcases hev : ensureValidToken x.uploadToken w with ⟨w1, r⟩
  rw [hev] at ht
  cases r with
  | some e => exact ht
  | none =>
    simp only
    split
    · exact ht
    · have h2 := ht.andThen (TraceGrows.ofEmit w1 (.uploadFile filePath fileName) rfl)
      split
      · exact h2
      · exact h2.andThen (TraceGrows.of_trace_eq rfl)

theorem logToSheets_traceGrows (log : BackupLog) (x : DbExternals) (w : World) :
    TraceGrows w (LogToSheets log x w) := by
  have h1 := TraceGrows.ofEmit w (.logToSheets log) rfl
  have ht := ensureValidToken_traceGrows x.sheetsToken (w.emit (.logToSheets log))
  unfold LogToSheets
  simp only
  split
  · exact h1
  · rcases hev : ensureValidToken x.sheetsToken (w.emit (.logToSheets log)) with ⟨w1, r⟩
    rw [hev] at ht
    cases r with
    | some e => exact h1.andThen ht
    | none =>
      simp only
      split
      · exact h1.andThen ht
      · exact (h1.andThen ht).andThen (TraceGrows.of_trace_eq rfl)

theorem uploadStage_traceGrows (machine : Machine) (database filePath : String)
    (result : BackupResult) (x : DbExternals) (w : World) :
    TraceGrows w (uploadStage machine database filePath result x w) := by
  have hu := uploadFile_traceGrows filePath result.FileName x w
  unfold uploadStage
  split
  · rcases hup : UploadFile filePath result.FileName x w with ⟨w1, e | driveID⟩
    · rw [hup] at hu
      exact hu.andThen (logToSheets_traceGrows _ x w1)
    · rw [hup] at hu
      simp only
      exact (hu.andThen (logToSheets_traceGrows _ x w1)).andThen (TraceGrows.of_trace_eq rfl)
  · exact TraceGrows.same w

theorem dumpDatabaseForMachine_traceGrows (machine : Machine)
    (database filePath mysqlHost : String) (mysqlPort : Int) (x : DbExternals) (w : World) :
    TraceGrows w (dumpDatabaseForMachine machine database filePath mysqlHost mysqlPort x w).1 := by
  have he := TraceGrows.ofEmit w
    (.commandRun "mariadb-dump" (dumpArgs machine database mysqlHost mysqlPort)) rfl
  unfold dumpDatabaseForMachine
  split
  · exact TraceGrows.same w
  · simp only
    split
    · exact he
    · split
      · exact he
      · split
        · exact he
        · exact he.andThen (TraceGrows.of_trace_eq rfl)

theorem compressFileGzip_traceGrows (srcPath dstPath : String) (x : DbExternals) (w : World) :
    TraceGrows w (compressFileGzip srcPath dstPath x w).1 := by
  unfold compressFileGzip
  split
  · unfold osRename
    split
    · exact TraceGrows.same w
    · split
      · exact TraceGrows.same w
      · exact TraceGrows.of_trace_eq rfl
  · split
    · exact TraceGrows.same w
    · split
      · exact TraceGrows.same w
      · simp only
        have h : TraceGrows w
            { ({ w with files := w.files.write dstPath "" }.emit (.commandRun "gzip" ["-c"])) with
              files := ({ w with files := w.files.write dstPath "" }.emit
                (.commandRun "gzip" ["-c"])).files.write dstPath x.gzipOutput } :=
          ⟨[.commandRun "gzip" ["-c"]], rfl, by simp [Event.isDatabaseStep]⟩
        split
        · exact h
        · exact h

theorem compressStage_traceGrows (fileName filePath : String) (result : BackupResult)
    (x : DbExternals) (w : World) :
    TraceGrows w (compressStage fileName filePath result x w).1 := by
  have hc := compressFileGzip_traceGrows filePath (filePath ++ ".gz") x w
  unfold compressStage
  simp only
  rcases hg : compressFileGzip filePath (filePath ++ ".gz") x w with ⟨w1, _ | e⟩
  · rw [hg] at hc
    simp only
    have h2 : TraceGrows w { w1 with files := w1.files.remove filePath } :=
      hc.andThen (TraceGrows.of_trace_eq rfl)
    split
    · exact h2
    · exact h2
  · rw [hg] at hc
    exact hc

theorem backupDatabase_traceGrows (machine : Machine) (sn bp ts mysqlHost : String)
    (mysqlPort : Int) (database : String) (x : DbExternals) (w : World) :
    TraceGrows w (backupDatabase machine sn bp ts mysqlHost mysqlPort database x w).1 := by
  have hd := dumpDatabaseForMachine_traceGrows machine database
    (filepathJoin bp (artifactName sn database ts)) mysqlHost mysqlPort x w
  unfold backupDatabase
  simp only
  rcases hdump : dumpDatabaseForMachine machine database
      (filepathJoin bp (artifactName sn database ts)) mysqlHost mysqlPort x w with ⟨w1, e | u⟩
  · rw [hdump] at hd
    exact hd.andThen (TraceGrows.of_trace_eq rfl)
  · rw [hdump] at hd
    simp only
    have key : ∀ r : BackupResult,
        TraceGrows w
          (uploadStage machine database
            (compressStage (artifactName sn database ts)
              (filepathJoin bp (artifactName sn database ts)) r x w1).2.2
            (compressStage (artifactName sn database ts)
              (filepathJoin bp (artifactName sn database ts)) r x w1).2.1 x
            (compressStage (artifactName sn database ts)
              (filepathJoin bp (artifactName sn database ts)) r x w1).1) := fun r =>
      (hd.andThen (compressStage_traceGrows _ _ r x w1)).andThen
        (uploadStage_traceGrows machine database _ _ x _)
    split
    · exact (key _).andThen (TraceGrows.of_trace_eq rfl)
    · exact (key _).andThen (TraceGrows.of_trace_eq rfl)

theorem backupLoop_traceGrows (machine : Machine) (sn bp ts mysqlHost : String)
    (mysqlPort : Int) (j : JobExternals) (databases : List String) (k : Nat) (w : World)
    (acc : List BackupResult) :
    TraceGrows w (backupLoop machine sn bp ts mysqlHost mysqlPort j k databases w acc).1 :=
  backupLoop_invariant machine sn bp ts mysqlHost mysqlPort j (fun w1 => TraceGrows w w1)
    databases k w acc
    (fun _ _ w1 hw1 => hw1.andThen (backupDatabase_traceGrows machine sn bp ts mysqlHost mysqlPort
      _ _ w1))
    (TraceGrows.same w)

theorem isTunnel_of_isDatabaseStep (e : Event) (h : e.isDatabaseStep = true) :
    e.isTunnel = false := by
  cases e <;> simp_all [Event.isDatabaseStep, Event.isTunnel]

/-- C14: for a remote machine whose tunnel was opened, the actions of a run of
`createBackupForMachine` are: creating the directory, opening the tunnel, the
actions of the loop over all databases, none of which opens or closes a tunnel,
and then closing the tunnel, which therefore happens exactly once and after the
last database, whatever the databases and their failures. For a local machine
no action of the run opens or closes a tunnel. -/
theorem tunnel_closed_exactly_once (ctx : Context) (machine : Machine)
    (databases : List String) (j : JobExternals) (w : World) (hdir : j.mkdirErr = none) :
    (∀ port, machine.Kind = "remote" → createSSHTunnel j = .ok port →
      ∃ es,
        (backupLoop machine (sanitizeName machine.Name)
            (filepathJoin w.config.Backup.LocalPath machine.ID) j.timestamp "localhost"
            (port : Int) j 0 databases
            ((w.emit (.mkdirAll (filepathJoin w.config.Backup.LocalPath machine.ID))).emit
              (.tunnelOpened port)) []).1.trace =
          w.trace ++ ([.mkdirAll (filepathJoin w.config.Backup.LocalPath machine.ID),
            .tunnelOpened port] ++ es) ∧
        (createBackupForMachine ctx machine databases j w).1.trace =
          w.trace ++ ([.mkdirAll (filepathJoin w.config.Backup.LocalPath machine.ID),
            .tunnelOpened port] ++ es ++ [.tunnelClosed]) ∧
        (∀ e ∈ es, e.isTunnel = false) ∧
        List.count Event.tunnelClosed
          ([.mkdirAll (filepathJoin w.config.Backup.LocalPath machine.ID),
            .tunnelOpened port] ++ es ++ [.tunnelClosed]) = 1) ∧
      (machine.Kind ≠ "remote" →
        ∃ es,
          (createBackupForMachine ctx machine databases j w).1.trace =
            w.trace ++ (.mkdirAll (filepathJoin w.config.Backup.LocalPath machine.ID) :: es) ∧
          ∀ e ∈ es, e.isTunnel = false) := by
  refine ⟨?_, ?_⟩
  · intro port hk ht
    obtain ⟨es, he, hstep⟩ := backupLoop_traceGrows machine (sanitizeName machine.Name)
      (filepathJoin w.config.Backup.LocalPath machine.ID) j.timestamp "localhost" (port : Int) j
      databases 0
      ((w.emit (.mkdirAll (filepathJoin w.config.Backup.LocalPath machine.ID))).emit
        (.tunnelOpened port)) []
    have hn : ∀ e ∈ es, e.isTunnel = false := fun e he =>
      isTunnel_of_isDatabaseStep e (hstep e he)
    have he' : (backupLoop machine (sanitizeName machine.Name)
        (filepathJoin w.config.Backup.LocalPath machine.ID) j.timestamp "localhost"
        (port : Int) j 0 databases
        ((w.emit (.mkdirAll (filepathJoin w.config.Backup.LocalPath machine.ID))).emit
          (.tunnelOpened port)) []).1.trace =
        w.trace ++ ([.mkdirAll (filepathJoin w.config.Backup.LocalPath machine.ID),
          .tunnelOpened port] ++ es) := by
      rw [he]
      simp [World.emit]
    refine ⟨es, he', ?_, hn, ?_⟩
    · unfold createBackupForMachine
      simp only [hdir, hk, if_true, ht]
      show ((backupLoop machine (sanitizeName machine.Name)
        (filepathJoin w.config.Backup.LocalPath machine.ID) j.timestamp "localhost"
        (port : Int) j 0 databases
        ((w.emit (.mkdirAll (filepathJoin w.config.Backup.LocalPath machine.ID))).emit
          (.tunnelOpened port)) []).1.emit .tunnelClosed).trace = _
      unfold World.emit at he' ⊢
      simp only
      rw [he']
      simp
    · have hcount : List.count Event.tunnelClosed es = 0 := by
        rw [List.count_eq_zero]
        intro hmem
        have := hn _ hmem
        simp [Event.isTunnel] at this
      simp [List.count_append, List.count_cons, hcount]
  · intro hk
    obtain ⟨es, he, hstep⟩ := backupLoop_traceGrows machine (sanitizeName machine.Name)
      (filepathJoin w.config.Backup.LocalPath machine.ID) j.timestamp machine.MySQL.Host
      machine.MySQL.Port j databases 0
      (w.emit (.mkdirAll (filepathJoin w.config.Backup.LocalPath machine.ID))) []
    have hn : ∀ e ∈ es, e.isTunnel = false := fun e he =>
      isTunnel_of_isDatabaseStep e (hstep e he)
    refine ⟨es, ?_, hn⟩
    unfold createBackupForMachine
    simp only [hdir, hk, if_false]
    show (backupLoop machine (sanitizeName machine.Name)
      (filepathJoin w.config.Backup.LocalPath machine.ID) j.timestamp machine.MySQL.Host
      machine.MySQL.Port j 0 databases
      (w.emit (.mkdirAll (filepathJoin w.config.Backup.LocalPath machine.ID))) []).1.trace = _
    rw [he]
    simp [World.emit]

/-- Witness for `tunnel_closed_exactly_once`: two databases on the remote
example machine, the second of which fails to dump; the trace of the run ends
with the one closing of the tunnel. -/
theorem tunnel_closed_exactly_once_witness :
    ∃ es,
      (createBackupForMachine ⟨false⟩ exampleRemoteMachine ["shop", "crm"]
          (exampleJob fun i => if i = 1 then dumpFails else smoothRun)
          (exampleWorld googleAbsent)).1.trace =
        (exampleWorld googleAbsent).trace ++
          ([.mkdirAll (filepathJoin (exampleWorld googleAbsent).config.Backup.LocalPath
              exampleRemoteMachine.ID), .tunnelOpened 40123] ++ es ++ [.tunnelClosed]) ∧
      (∀ e ∈ es, e.isTunnel = false) := by
  obtain ⟨es, -, h2, h3, -⟩ := (tunnel_closed_exactly_once ⟨false⟩ exampleRemoteMachine
    ["shop", "crm"] (exampleJob fun i => if i = 1 then dumpFails else smoothRun)
    (exampleWorld googleAbsent) rfl).1 40123 rfl rfl
  exact ⟨es, h2, h3⟩

/-! ## Scheduler: starting and stopping -/

theorem start_running (cfg : Config) (na : String → Int) (s : SchedulerService)
    (h : s.running = true) : Start cfg na s = (s, some "scheduler is already running") := by
  unfold Start
  rw [if_pos h]

theorem start_no_schedules (cfg : Config) (na : String → Int) (s : SchedulerService)
    (h : s.running = false) (h0 : cfg.GetEnabledSchedules = []) :
    Start cfg na s = (s, some "no enabled schedules found") := by
  unfold Start
  rw [if_neg (by simp [h])]
  simp [h0]

theorem start_ok (cfg : Config) (na : String → Int) (s : SchedulerService)
    (h : s.running = false) (h0 : cfg.GetEnabledSchedules ≠ []) :
    Start cfg na s =
      ({ addSchedules na cfg.GetEnabledSchedules s with
          cron := (addSchedules na cfg.GetEnabledSchedules s).cron.Start na,
          running := true }, none) := by
  unfold Start
  rw [if_neg (by simp [h])]
  simp only
  rw [if_neg (by simpa using h0)]

/-- C15 (counterexample): the only enabled schedule has no weekdays, so no
schedule has a non-empty weekday × time cross product; `Start` on the stopped
scheduler nevertheless returns a nil error, marks the scheduler running and
registers no trigger. -/
theorem start_succeeds_with_empty_cross_product :
    (configWithSchedules [emptyCrossSchedule]).GetEnabledSchedules = [emptyCrossSchedule] ∧
      emptyCrossSchedule.DaysOfWeek = [] ∧
      (Start (configWithSchedules [emptyCrossSchedule]) exampleNextActivation NewService).2 =
        none ∧
      (Start (configWithSchedules [emptyCrossSchedule]) exampleNextActivation
        NewService).1.running = true ∧
      (Start (configWithSchedules [emptyCrossSchedule]) exampleNextActivation
        NewService).1.cron.entries = [] := by
  decide

/-- C15 (amended): called on a stopped scheduler, `Start` returns an error and
leaves the scheduler as it was, hence stopped, if and only if no schedule is
enabled; otherwise it returns a nil error and marks the scheduler running,
also when every enabled schedule has an empty weekday × time cross
product. -/
theorem start_fails_iff_no_enabled_schedule (cfg : Config) (na : String → Int)
    (s : SchedulerService) (h : s.running = false) :
    ((Start cfg na s).2 ≠ none ↔ cfg.GetEnabledSchedules = []) ∧
      ((Start cfg na s).2 ≠ none → (Start cfg na s).1 = s) ∧
      ((Start cfg na s).2 = none → (Start cfg na s).1.running = true) := by
  by_cases h0 : cfg.GetEnabledSchedules = []
  · rw [start_no_schedules cfg na s h h0]
    simp [h0]
  · rw [start_ok cfg na s h h0]
    simp [h0]

/-- Witness for `start_fails_iff_no_enabled_schedule`: a fresh scheduler and a
configuration whose only schedule is disabled. -/
theorem start_fails_iff_no_enabled_schedule_witness :
    (Start (configWithSchedules [{ exampleSchedule with Enabled := false }])
        exampleNextActivation NewService).2 ≠ none ∧
      (Start (configWithSchedules [{ exampleSchedule with Enabled := false }])
        exampleNextActivation NewService).1 = NewService :=
  ⟨(start_fails_iff_no_enabled_schedule
      (configWithSchedules [{ exampleSchedule with Enabled := false }]) exampleNextActivation
      NewService rfl).1.mpr rfl,
    (start_fails_iff_no_enabled_schedule
      (configWithSchedules [{ exampleSchedule with Enabled := false }]) exampleNextActivation
      NewService rfl).2.1 (by decide)⟩

theorem stop_of_not_running (s : SchedulerService) (h : s.running = false) : Stop s = s := by
  unfold Stop
  rw [if_pos (by simp [h])]

theorem stop_running (s : SchedulerService) : (Stop s).running = false := by
  unfold Stop
  cases h : s.running <;> simp [h]

/-- A stopped scheduler has an empty next-fire cache, in every reachable
state. -/
theorem reachable_stopped_cache_empty (s : SchedulerService) (hr : Reachable s) :
    s.running = false → s.nextRuns = [] := by
  induction hr with
  | init => intro _; rfl
  | start cfg na s _ ih =>
    intro h
    by_cases hrun : s.running = true
    · rw [start_running cfg na s hrun] at h
      simp only at h
      rw [hrun] at h
      cases h
    · have hrun' : s.running = false := by simpa using hrun
      by_cases h0 : cfg.GetEnabledSchedules = []
      · rw [start_no_schedules cfg na s hrun' h0]
        exact ih hrun'
      · rw [start_ok cfg na s hrun' h0] at h
        cases h
  | stop s _ ih =>
    intro _
    by_cases hrun : s.running = true
    · unfold Stop
      rw [if_neg (by simp [hrun])]
    · have hrun' : s.running = false := by simpa using hrun
      rw [stop_of_not_running s hrun']
      exact ih hrun'

/-- C17: `Stop` is idempotent and clears the next-fire state. In every state a
scheduler can reach, after `Stop` the scheduler reports `IsRunning = false`,
`GetNextRuns` is empty and `GetNextRun` is nil; `Stop` on a stopped scheduler
changes nothing, and `Stop` followed by `Stop` leaves the state of a single
`Stop`. -/
theorem stop_clears_and_is_idempotent (s : SchedulerService) (hr : Reachable s) :
    IsRunning (Stop s) = false ∧ GetNextRuns (Stop s) = [] ∧
      (∀ freshLoopVar, GetNextRun freshLoopVar (Stop s) = none) ∧
      (IsRunning s = false → Stop s = s) ∧ Stop (Stop s) = Stop s := by
  have hcache : (Stop s).nextRuns = [] :=
    reachable_stopped_cache_empty (Stop s) (Reachable.stop s hr) (stop_running s)
  refine ⟨stop_running s, hcache, ?_, stop_of_not_running s, stop_of_not_running _ (stop_running s)⟩
  intro flv
  unfold GetNextRun GetNextRuns
  rw [hcache]
  rfl

/-- Witness for `stop_clears_and_is_idempotent`: the scheduler started with the
example schedule. -/
theorem stop_clears_and_is_idempotent_witness :
    IsRunning (Stop (Start (configWithSchedules [exampleSchedule]) exampleNextActivation
        NewService).1) = false ∧
      GetNextRuns (Stop (Start (configWithSchedules [exampleSchedule]) exampleNextActivation
        NewService).1) = [] :=
  ⟨(stop_clears_and_is_idempotent _ (Reachable.start (configWithSchedules [exampleSchedule])
      exampleNextActivation NewService Reachable.init)).1,
    (stop_clears_and_is_idempotent _ (Reachable.start (configWithSchedules [exampleSchedule])
      exampleNextActivation NewService Reachable.init)).2.1⟩

/-- C18 (behaviour of the code): `Stop` leaves the entries in the cron, and the
second `Start` adds the triggers of the configuration again. With the example
schedule (four tuples) and an unchanged configuration the cron holds eight
entries after Start, Stop, Start, each specification twice, while the next-fire
cache has four keys; and when the second `Start` reads a configuration in which
the example schedule is replaced by another one, the four triggers of the
example schedule are still registered. -/
theorem restart_keeps_stale_triggers :
    (Start (configWithSchedules [exampleSchedule]) exampleNextActivation
        NewService).1.cron.entries.length = 4 ∧
      ((Start (configWithSchedules [exampleSchedule]) exampleNextActivation
        (Stop (Start (configWithSchedules [exampleSchedule]) exampleNextActivation
          NewService).1)).1.cron.entries.map fun e => e.Spec) =
        ["0 9 * * 1", "30 18 * * 1", "0 9 * * 3", "30 18 * * 3",
          "0 9 * * 1", "30 18 * * 1", "0 9 * * 3", "30 18 * * 3"] ∧
      (Start (configWithSchedules [exampleSchedule]) exampleNextActivation
        (Stop (Start (configWithSchedules [exampleSchedule]) exampleNextActivation
          NewService).1)).1.nextRuns.length = 4 ∧
      ((Start (configWithSchedules [badTimeSchedule]) exampleNextActivation
        (Stop (Start (configWithSchedules [exampleSchedule]) exampleNextActivation
          NewService).1)).1.cron.entries.map fun e => (e.Spec, e.Job.ID)) =
        [("0 9 * * 1", "schedule_1"), ("30 18 * * 1", "schedule_1"),
          ("0 9 * * 3", "schedule_1"), ("30 18 * * 3", "schedule_1"),
          ("15 7 * * 1", "schedule_3")] := by
  decide

/-! ## Retention cleanup after a scheduled job -/

theorem cleanupWalk_trace (cutoff : Int) :
    ∀ (visited : List WalkEntry) (w : World), (cleanupWalk cutoff visited w).1.trace = w.trace
  | [], _ => rfl
  | entry :: rest, w => by
    unfold cleanupWalk
    split
    · rfl
    · split
      · split
        · split
          · rfl
          · exact cleanupWalk_trace cutoff rest _
        · exact cleanupWalk_trace cutoff rest w
      · exact cleanupWalk_trace cutoff rest w

theorem cleanupOldBackups_trace (x : CleanupExternals) (w : World) :
    (CleanupOldBackups x w).1.trace = w.trace ++ [.cleanupOldBackups] := by
  unfold CleanupOldBackups
  simp only
  split
  · rfl
  · rw [cleanupWalk_trace]
    rfl

theorem not_cleanup_of_isDatabaseStep (es : List Event)
    (h : ∀ e ∈ es, e.isDatabaseStep = true) : Event.cleanupOldBackups ∉ es := by
  intro hmem
  have := h _ hmem
  simp [Event.isDatabaseStep] at this

/-- No action of a backup job is a call of `CleanupOldBackups`. -/
theorem createMachineBackup_no_cleanup (ctx : Context) (machineID : String)
    (databases : List String) (j : JobExternals) (w : World) :
    ∃ es, (CreateMachineBackup ctx machineID databases j w).1.trace = w.trace ++ es ∧
      Event.cleanupOldBackups ∉ es := by
  unfold CreateMachineBackup
  split
  · exact ⟨[], by simp, by simp⟩
  · rename_i machine _
    unfold createBackupForMachine
    simp only
    split
    · exact ⟨[.mkdirAll _], rfl, by simp⟩
    · split
      · split
        · exact ⟨[.mkdirAll _], rfl, by simp⟩
        · rename_i port _
          obtain ⟨es, he, hstep⟩ := backupLoop_traceGrows machine (sanitizeName machine.Name)
            (filepathJoin w.config.Backup.LocalPath machine.ID) j.timestamp "localhost"
            (port : Int) j databases 0
            ((w.emit (.mkdirAll (filepathJoin w.config.Backup.LocalPath machine.ID))).emit
              (.tunnelOpened port)) []
          refine ⟨[.mkdirAll (filepathJoin w.config.Backup.LocalPath machine.ID),
            .tunnelOpened port] ++ es ++ [.tunnelClosed], ?_, ?_⟩
          · show ((backupLoop machine (sanitizeName machine.Name)
              (filepathJoin w.config.Backup.LocalPath machine.ID) j.timestamp "localhost"
              (port : Int) j 0 databases
              ((w.emit (.mkdirAll (filepathJoin w.config.Backup.LocalPath machine.ID))).emit
                (.tunnelOpened port)) []).1.emit .tunnelClosed).trace = _
            unfold World.emit at he ⊢
            simp only
            rw [he]
            simp
          · have := not_cleanup_of_isDatabaseStep es hstep
            simp [this]
      · obtain ⟨es, he, hstep⟩ := backupLoop_traceGrows machine (sanitizeName machine.Name)
          (filepathJoin w.config.Backup.LocalPath machine.ID) j.timestamp machine.MySQL.Host
          machine.MySQL.Port j databases 0
          (w.emit (.mkdirAll (filepathJoin w.config.Backup.LocalPath machine.ID))) []
        refine ⟨.mkdirAll (filepathJoin w.config.Backup.LocalPath machine.ID) :: es, ?_, ?_⟩
        · show (backupLoop machine (sanitizeName machine.Name)
            (filepathJoin w.config.Backup.LocalPath machine.ID) j.timestamp machine.MySQL.Host
            machine.MySQL.Port j 0 databases
            (w.emit (.mkdirAll (filepathJoin w.config.Backup.LocalPath machine.ID))) []).1.trace = _
          rw [he]
          simp [World.emit]
        · have := not_cleanup_of_isDatabaseStep es hstep
          simp [this]

/-- C19 (counterexample): a schedule whose machine is not in the
configuration. `CreateMachineBackup` returns an error, `runScheduledBackup`
returns at once, and `CleanupOldBackups` is not invoked. -/
theorem no_cleanup_after_aborted_job :
    (CreateMachineBackup ⟨false⟩ orphanSchedule.MachineID orphanSchedule.Databases
        (exampleJob fun _ => smoothRun) (exampleWorld googleAbsent)).2 =
      .error "machine not found" ∧
    Event.cleanupOldBackups ∉
      (runScheduledBackup orphanSchedule (exampleJob fun _ => smoothRun) exampleCleanup
        (exampleWorld googleAbsent)).trace :=
  ⟨rfl, by decide⟩

/-- C19 (amended): a fired trigger runs the retention cleanup exactly once
after its job returns whenever the job returns results, whatever the mix of
per-database failures: the trace of `runScheduledBackup` is the trace of the
job, which contains no cleanup, followed by the one call of
`CleanupOldBackups`. When `CreateMachineBackup` returns an error,
`runScheduledBackup` ends in the state the job left and does not invoke the
cleanup. -/
theorem cleanup_after_job_with_results (schedule : Schedule) (j : JobExternals)
    (x : CleanupExternals) (w : World) :
    (∀ results,
        (CreateMachineBackup ⟨false⟩ schedule.MachineID schedule.Databases j w).2 = .ok results →
        (runScheduledBackup schedule j x w).trace =
          (CreateMachineBackup ⟨false⟩ schedule.MachineID schedule.Databases j w).1.trace ++
            [.cleanupOldBackups]) ∧
      (∀ e,
        (CreateMachineBackup ⟨false⟩ schedule.MachineID schedule.Databases j w).2 = .error e →
        runScheduledBackup schedule j x w =
          (CreateMachineBackup ⟨false⟩ schedule.MachineID schedule.Databases j w).1) ∧
      ∃ es,
        (CreateMachineBackup ⟨false⟩ schedule.MachineID schedule.Databases j w).1.trace =
          w.trace ++ es ∧
        Event.cleanupOldBackups ∉ es := by
  refine ⟨?_, ?_, createMachineBackup_no_cleanup _ _ _ j w⟩
  · intro results h
    unfold runScheduledBackup
    rcases hc : CreateMachineBackup ⟨false⟩ schedule.MachineID schedule.Databases j w with
      ⟨w1, e | r⟩
    · rw [hc] at h
      cases h
    · simp only
      exact cleanupOldBackups_trace x w1
  · intro e h
    unfold runScheduledBackup
    rcases hc : CreateMachineBackup ⟨false⟩ schedule.MachineID schedule.Databases j w with
      ⟨w1, e1 | r⟩
    · rfl
    · rw [hc] at h
      cases h

/-- Witness for `cleanup_after_job_with_results`: the example schedule with a
database whose dump fails; the job returns results and the cleanup follows. -/
theorem cleanup_after_job_with_results_witness :
    (runScheduledBackup exampleSchedule (exampleJob fun _ => dumpFails) exampleCleanup
        (exampleWorld googleAbsent)).trace =
      (CreateMachineBackup ⟨false⟩ exampleSchedule.MachineID exampleSchedule.Databases
        (exampleJob fun _ => dumpFails) (exampleWorld googleAbsent)).1.trace ++
        [.cleanupOldBackups] :=
  (cleanup_after_job_with_results exampleSchedule (exampleJob fun _ => dumpFails) exampleCleanup
    (exampleWorld googleAbsent)).1
    [⟨"shop", false, "mariadb-dump failed: exit status 2", "", 0⟩] rfl

/-! ## Cron expressions are accepted by the cron -/

theorem splitWhere_ne_nil (p : Char → Bool) : ∀ l : List Char, splitWhere p l ≠ []
  | [] => by simp [splitWhere]
  | c :: rest => by
    unfold splitWhere
    split
    · simp
    · split <;> simp

theorem splitWhere_append_sep (p : Char → Bool) (sep : Char) (hsep : p sep = true) :
    ∀ a b : List Char, splitWhere p (a ++ sep :: b) = splitWhere p a ++ splitWhere p b
  | [], b => by
    rcases hb : splitWhere p b with _ | ⟨seg, segs⟩
    · exact absurd hb (splitWhere_ne_nil p b)
    · simp [splitWhere, hb, hsep]
  | c :: a, b => by
    have ih := splitWhere_append_sep p sep hsep a b
    rcases ha : splitWhere p a with _ | ⟨seg, segs⟩
    · exact absurd ha (splitWhere_ne_nil p a)
    · rw [ha] at ih
      rw [List.cons_append, splitWhere, ih, splitWhere, ha]
      by_cases hc : p c = true <;> simp [hc]

theorem splitWhere_of_none (p : Char → Bool) :
    ∀ l : List Char, (∀ c ∈ l, p c = false) → splitWhere p l = [l]
  | [], _ => rfl
  | c :: rest, h => by
    have hc : p c = false := h c (by simp)
    have hrest : ∀ d ∈ rest, p d = false := fun d hd => h d (List.mem_cons_of_mem _ hd)
    rw [splitWhere, splitWhere_of_none p rest hrest]
    simp [hc]

theorem stringsFields_append_space (a b : List Char) :
    stringsFields (a ++ ' ' :: b) = stringsFields a ++ stringsFields b := by
  unfold stringsFields
  rw [splitWhere_append_sep isSpaceChar ' ' (by decide), List.filter_append]

theorem stringsFields_plain (a : List Char) (h : ∀ c ∈ a, isSpaceChar c = false)
    (hne : a ≠ []) : stringsFields a = [a] := by
  unfold stringsFields
  rw [splitWhere_of_none isSpaceChar a h]
  simp [hne]

/-- The text of a number below 60 is a non-empty run of characters without
white space. -/
theorem toString_small_plain :
    ∀ n, n < 60 → (toString n).data ≠ [] ∧ ∀ c ∈ (toString n).data, isSpaceChar c = false := by
  decide

theorem minute_field_ok : ∀ n, n < 60 → cronFieldOk (toString n).data 0 59 = true := by
  decide

theorem hour_field_ok : ∀ n, n < 24 → cronFieldOk (toString n).data 0 23 = true := by
  decide

theorem weekday_field_ok : ∀ n, n < 7 → cronFieldOk (toString n).data 0 6 = true := by
  decide

theorem weekday_toString (d : Int) (h0 : 0 ≤ d) (h6 : d ≤ 6) :
    ∃ n, n < 7 ∧ toString d = toString n := by
  refine ⟨d.toNat, by omega, ?_⟩
  have hd : d = (d.toNat : Int) := by omega
  conv_lhs => rw [hd]
  rfl

theorem cronParseStandard_accepts (minute hour : Nat) (dayOfWeek : Int) (hm : minute < 60)
    (hh : hour < 24) (h0 : 0 ≤ dayOfWeek) (h6 : dayOfWeek ≤ 6) :
    cronParseStandard
      (toString minute ++ " " ++ toString hour ++ " * * " ++ toString dayOfWeek) = none := by
  obtain ⟨n, hn, hd⟩ := weekday_toString dayOfWeek h0 h6
  rw [hd]
  obtain ⟨m1, m2⟩ := toString_small_plain minute hm
  obtain ⟨h1, h2⟩ := toString_small_plain hour (by omega)
  obtain ⟨d1, d2⟩ := toString_small_plain n (by omega)
  have hdata : (toString minute ++ " " ++ toString hour ++ " * * " ++ toString n).data =
      (toString minute).data ++ ' ' :: ((toString hour).data ++ ' ' :: (['*'] ++ ' ' ::
        (['*'] ++ ' ' :: (toString n).data))) := by
    simp only [String.data_append]
    simp
  have hfields : stringsFields
      (toString minute ++ " " ++ toString hour ++ " * * " ++ toString n).data =
      [(toString minute).data, (toString hour).data, ['*'], ['*'], (toString n).data] := by
    rw [hdata, stringsFields_append_space, stringsFields_append_space,
      stringsFields_append_space, stringsFields_append_space, stringsFields_plain _ m2 m1,
      stringsFields_plain _ h2 h1, stringsFields_plain _ d2 d1,
      stringsFields_plain ['*'] (by decide) (by decide)]
    rfl
  unfold cronParseStandard
  rw [hfields]
  simp only
  rw [minute_field_ok minute hm, hour_field_ok hour hh, weekday_field_ok n hn]
  rfl

/-! ## Registering the triggers of a schedule -/

theorem timeGetnum_bound (s : List Char) (fixed : Bool) (n : Nat) (rest : List Char)
    (h : timeGetnum s fixed = some (n, rest)) : n < 100 := by
  unfold timeGetnum at h
  split at h
  · cases h
  · rename_i a r
    have hdig : ∀ c : Char, isAsciiDigit c = true → c.toNat - 48 ≤ 9 := by
      intro c hc
      unfold isAsciiDigit at hc
      simp only [Bool.and_eq_true, decide_eq_true_eq] at hc
      omega
    split at h
    · rename_i ha
      split at h
      · split at h
        · cases h
        · injection h with h
          injection h with h _
          have := hdig a ha
          omega
      · rename_i b r2
        split at h
        · rename_i hb
          injection h with h
          injection h with h _
          have := hdig a ha
          have := hdig b hb
          omega
        · split at h
          · cases h
          · injection h with h
            injection h with h _
            have := hdig a ha
            omega
    · cases h

theorem timeParseClock_bounds (l : List Char) (hour minute : Nat)
    (h : timeParseClock l = some (hour, minute)) : hour < 24 ∧ minute < 60 := by
  unfold timeParseClock at h
  split at h
  · cases h
  · rename_i hr rest _
    split at h
    · cases h
    · rename_i hlt
      split at h
      · split at h
        · cases h
        · rename_i mn rest2 _
          split at h
          · cases h
          · rename_i hlt2
            split at h
            · injection h with h
              injection h with h1 h2
              omega
            · cases h
      · cases h

theorem buildCronExpression_valid (dayOfWeek : Int) (timeStr : String)
    (ht : (timeParseClock timeStr.data).isSome = true) (h0 : 0 ≤ dayOfWeek)
    (h6 : dayOfWeek ≤ 6) :
    buildCronExpression dayOfWeek timeStr = .ok (cronExpressionOf dayOfWeek timeStr) ∧
      cronParseStandard (cronExpressionOf dayOfWeek timeStr) = none := by
  rcases hp : timeParseClock timeStr.data with _ | ⟨hour, minute⟩
  · rw [hp] at ht
    cases ht
  · obtain ⟨hh, hm⟩ := timeParseClock_bounds _ _ _ hp
    have hb : buildCronExpression dayOfWeek timeStr =
        .ok (toString minute ++ " " ++ toString hour ++ " * * " ++ toString dayOfWeek) := by
      unfold buildCronExpression
      rw [hp]
    have hc : cronExpressionOf dayOfWeek timeStr =
        toString minute ++ " " ++ toString hour ++ " * * " ++ toString dayOfWeek := by
      unfold cronExpressionOf
      rw [hb]
    rw [hc]
    exact ⟨hb, cronParseStandard_accepts minute hour dayOfWeek hm hh h0 h6⟩

theorem mapSet_keys (m : List (String × Int)) (key : String) (value : Int) :
    (mapSet m key value).map Prod.fst =
      if key ∈ m.map Prod.fst then m.map Prod.fst else m.map Prod.fst ++ [key] := by
  unfold mapSet
  by_cases h : m.any (fun kv => kv.1 == key) = true
  · have hmem : key ∈ m.map Prod.fst := by
      rw [List.any_eq_true] at h
      obtain ⟨kv, hkv, hk⟩ := h
      rw [List.mem_map]
      exact ⟨kv, hkv, by simpa using hk⟩
    rw [if_pos h, if_pos hmem, List.map_map]
    apply List.map_congr_left
    intro kv _
    by_cases hk : kv.1 == key
    · simp only [Function.comp, hk, if_true]
      exact (by simpa using hk : kv.1 = key).symm
    · simp [Function.comp, hk]
  · have hmem : key ∉ m.map Prod.fst := by
      intro hmem
      apply h
      rw [List.mem_map] at hmem
      obtain ⟨kv, hkv, hk⟩ := hmem
      rw [List.any_eq_true]
      exact ⟨kv, hkv, by simpa using hk⟩
    rw [if_neg h, if_neg hmem]
    simp

theorem cron_addFunc_ok (c : Cron) (na : String → Int) (spec : String) (job : Schedule)
    (h : cronParseStandard spec = none) :
    ∃ entry, entry.Spec = spec ∧ entry.Job = job ∧
      c.AddFunc na spec job =
        ({ c with nextID := c.nextID + 1, entries := c.entries ++ [entry] },
          .ok (c.nextID + 1)) ∧
      entry.ID = c.nextID + 1 := by
  unfold Cron.AddFunc
  rw [h]
  exact ⟨_, rfl, rfl, rfl, rfl⟩

theorem cron_addFunc_error (c : Cron) (na : String → Int) (spec : String) (job : Schedule)
    (e : String) (h : cronParseStandard spec = some e) :
    c.AddFunc na spec job = (c, .error e) := by
  unfold Cron.AddFunc
  rw [h]

theorem insertKeys_singleton (key : String) (present : List String) :
    insertKeys [key] present = if key ∈ present then present else present ++ [key] := rfl

theorem insertKeys_cons (key : String) (keys present : List String) :
    insertKeys (key :: keys) present = insertKeys keys (insertKeys [key] present) := rfl

theorem insertKeys_append (ks1 ks2 present : List String) :
    insertKeys (ks1 ++ ks2) present = insertKeys ks2 (insertKeys ks1 present) := by
  unfold insertKeys
  rw [List.foldl_append]

/-- One successful round of the loop over the times of a weekday: one trigger
and one key are added and the loop goes on. -/
theorem addScheduleTimes_step (na : String → Int) (schedule : Schedule) (d : Int)
    (t : String) (rest : List String) (s : SchedulerService) (expr : String)
    (hb : buildCronExpression d t = .ok expr) (hp : cronParseStandard expr = none) :
    ∃ s1, addScheduleTimes na schedule d (t :: rest) s = addScheduleTimes na schedule d rest s1 ∧
      s1.cron.triggers = s.cron.triggers ++ [(expr, schedule)] ∧
      s1.cron.running = s.cron.running ∧ s1.running = s.running ∧
      s1.nextRuns.map Prod.fst =
        insertKeys [nextRunKey schedule.ID d t] (s.nextRuns.map Prod.fst) := by
  obtain ⟨entry, he1, he2, hadd, hid⟩ := cron_addFunc_ok s.cron na expr schedule hp
  have hfind : ∃ found, (s.cron.entries ++ [entry]).find?
      (fun e => e.ID == s.cron.nextID + 1) = some found := by
    have : ((s.cron.entries ++ [entry]).find?
        (fun e => e.ID == s.cron.nextID + 1)).isSome = true := by
      rw [List.find?_isSome]
      exact ⟨entry, by simp, by simp [hid]⟩
    exact Option.isSome_iff_exists.mp this
  obtain ⟨found, hfound⟩ := hfind
  refine ⟨{ cron := { s.cron with nextID := s.cron.nextID + 1,
                                   entries := s.cron.entries ++ [entry] },
            running := s.running,
            nextRuns := mapSet s.nextRuns (nextRunKey schedule.ID d t) found.Next }, ?_, ?_, rfl,
    rfl, ?_⟩
  · rw [addScheduleTimes, hb]
    simp only
    rw [hadd]
    simp only
    rw [hfound]
  · unfold Cron.triggers
    simp [he1, he2]
  · simp only
    rw [mapSet_keys, insertKeys_singleton]

theorem addScheduleTimes_spec (na : String → Int) (schedule : Schedule) (d : Int) :
    ∀ (times : List String) (s : SchedulerService),
      ∃ added : List (String × Schedule),
        (addScheduleTimes na schedule d times s).1.cron.triggers = s.cron.triggers ++ added ∧
        (∀ tr ∈ added, tr.2 = schedule) ∧
        (addScheduleTimes na schedule d times s).1.cron.running = s.cron.running ∧
        (addScheduleTimes na schedule d times s).1.running = s.running ∧
        (0 ≤ d → d ≤ 6 → (∀ t ∈ times, (timeParseClock t.data).isSome = true) →
          (addScheduleTimes na schedule d times s).2 = none ∧
          added = times.map (fun t => (cronExpressionOf d t, schedule)) ∧
          (addScheduleTimes na schedule d times s).1.nextRuns.map Prod.fst =
            insertKeys (times.map (nextRunKey schedule.ID d)) (s.nextRuns.map Prod.fst))
  | [], s => ⟨[], by simp [addScheduleTimes], by simp, rfl, rfl,
      fun _ _ _ => ⟨rfl, rfl, rfl⟩⟩
  | t :: rest, s => by
    rcases hb : buildCronExpression d t with e | expr
    · refine ⟨[], ?_, by simp, ?_, ?_, ?_⟩
      · rw [addScheduleTimes, hb]
        simp
      · rw [addScheduleTimes, hb]
      · rw [addScheduleTimes, hb]
      · intro h0 h6 hv
        have := (buildCronExpression_valid d t (hv t (by simp)) h0 h6).1
        rw [hb] at this
        cases this
    · rcases hp : cronParseStandard expr with _ | e
      · obtain ⟨s1, hstep, h1, h2, h3, h4⟩ :=
          addScheduleTimes_step na schedule d t rest s expr hb hp
        obtain ⟨added, a1, a2, a3, a4, a5⟩ := addScheduleTimes_spec na schedule d rest s1
        refine ⟨(expr, schedule) :: added, ?_, ?_, ?_, ?_, ?_⟩
        · rw [hstep, a1, h1]
          simp
        · intro tr htr
          rcases List.mem_cons.mp htr with h | h
          · rw [h]
          · exact a2 tr h
        · rw [hstep, a3, h2]
        · rw [hstep, a4, h3]
        · intro h0 h6 hv
          obtain ⟨b1, b2, b3⟩ := a5 h0 h6 (fun t' ht' => hv t' (List.mem_cons_of_mem _ ht'))
          have hexpr : cronExpressionOf d t = expr := by
            unfold cronExpressionOf
            rw [hb]
          refine ⟨by rw [hstep, b1], ?_, ?_⟩
          · rw [b2, List.map_cons, hexpr]
          · rw [hstep, b3, h4, List.map_cons]
            rfl
      · have hout : addScheduleTimes na schedule d (t :: rest) s =
            (s, some ("failed to add cron job: " ++ e)) := by
          rw [addScheduleTimes, hb]
          simp only
          rw [cron_addFunc_error s.cron na expr schedule e hp]
        refine ⟨[], ?_, by simp, ?_, ?_, ?_⟩
        · rw [hout]
          simp
        · rw [hout]
        · rw [hout]
        · intro h0 h6 hv
          obtain ⟨v1, v2⟩ := buildCronExpression_valid d t (hv t (by simp)) h0 h6
          rw [hb] at v1
          injection v1 with v1
          rw [← v1, hp] at v2
          cases v2

theorem addScheduleDays_spec (na : String → Int) (schedule : Schedule) :
    ∀ (days : List Int) (s : SchedulerService),
      ∃ added : List (String × Schedule),
        (addScheduleDays na schedule days s).1.cron.triggers = s.cron.triggers ++ added ∧
        (∀ tr ∈ added, tr.2 = schedule) ∧
        (addScheduleDays na schedule days s).1.cron.running = s.cron.running ∧
        (addScheduleDays na schedule days s).1.running = s.running ∧
        ((∀ d ∈ days, 0 ≤ d ∧ d ≤ 6) →
          (∀ t ∈ schedule.Times, (timeParseClock t.data).isSome = true) →
          (addScheduleDays na schedule days s).2 = none ∧
          added = days.flatMap (fun d =>
            schedule.Times.map fun t => (cronExpressionOf d t, schedule)) ∧
          (addScheduleDays na schedule days s).1.nextRuns.map Prod.fst =
            insertKeys (days.flatMap fun d => schedule.Times.map (nextRunKey schedule.ID d))
              (s.nextRuns.map Prod.fst))
  | [], s => ⟨[], by simp [addScheduleDays], by simp, rfl, rfl,
      fun _ _ => ⟨rfl, rfl, rfl⟩⟩
  | d :: rest, s => by
    obtain ⟨added1, t1, t2, t3, t4, t5⟩ := addScheduleTimes_spec na schedule d schedule.Times s
    rcases hout : addScheduleTimes na schedule d schedule.Times s with ⟨s1, _ | e⟩
    · rw [hout] at t1 t3 t4 t5
      simp only at t1 t3 t4 t5
      obtain ⟨added2, a1, a2, a3, a4, a5⟩ := addScheduleDays_spec na schedule rest s1
      have hstep : addScheduleDays na schedule (d :: rest) s =
          addScheduleDays na schedule rest s1 := by
        rw [addScheduleDays, hout]
      refine ⟨added1 ++ added2, ?_, ?_, ?_, ?_, ?_⟩
      · rw [hstep, a1, t1, List.append_assoc]
      · intro tr htr
        rcases List.mem_append.mp htr with h | h
        · exact t2 tr h
        · exact a2 tr h
      · rw [hstep, a3, t3]
      · rw [hstep, a4, t4]
      · intro hd ht
        obtain ⟨-, c2, c3⟩ := t5 (hd d (by simp)).1 (hd d (by simp)).2 ht
        obtain ⟨b1, b2, b3⟩ := a5 (fun d' hd' => hd d' (List.mem_cons_of_mem _ hd')) ht
        refine ⟨by rw [hstep, b1], ?_, ?_⟩
        · rw [c2, b2, List.flatMap_cons]
        · rw [hstep, b3, c3, List.flatMap_cons, insertKeys_append]
    · rw [hout] at t1 t3 t4 t5
      simp only at t1 t3 t4 t5
      have hstep : addScheduleDays na schedule (d :: rest) s = (s1, some e) := by
        rw [addScheduleDays, hout]
      refine ⟨added1, ?_, t2, ?_, ?_, ?_⟩
      · rw [hstep]
        exact t1
      · rw [hstep]
        exact t3
      · rw [hstep]
        exact t4
      · intro hd ht
        obtain ⟨c1, -, -⟩ := t5 (hd d (by simp)).1 (hd d (by simp)).2 ht
        cases c1

theorem addScheduleToCron_spec (na : String → Int) (schedule : Schedule)
    (s : SchedulerService) :
    ∃ added : List (String × Schedule),
      (addScheduleToCron na schedule s).1.cron.triggers = s.cron.triggers ++ added ∧
      (∀ tr ∈ added, tr.2 = schedule) ∧
      (addScheduleToCron na schedule s).1.cron.running = s.cron.running ∧
      (addScheduleToCron na schedule s).1.running = s.running ∧
      (ScheduleValid schedule →
        (addScheduleToCron na schedule s).2 = none ∧
        added = scheduleTriggers schedule ∧
        (addScheduleToCron na schedule s).1.nextRuns.map Prod.fst =
          insertKeys (scheduleKeys schedule) (s.nextRuns.map Prod.fst)) := by
  obtain ⟨added, a1, a2, a3, a4, a5⟩ :=
    addScheduleDays_spec na schedule schedule.DaysOfWeek s
  exact ⟨added, a1, a2, a3, a4, fun hv => a5 hv.1 hv.2⟩

/-- The loop of `Start`: every enabled schedule contributes a group of
triggers of its own, whatever happens to the other schedules, and a valid
schedule contributes all its triggers. -/
theorem addSchedules_spec (na : String → Int) :
    ∀ (schedules : List Schedule) (s : SchedulerService),
      ∃ groups : List (List (String × Schedule)),
        (addSchedules na schedules s).cron.triggers = s.cron.triggers ++ groups.flatten ∧
        List.Forall₂ (fun schedule group =>
          (∀ tr ∈ group, tr.2 = schedule) ∧
            (ScheduleValid schedule → group = scheduleTriggers schedule)) schedules groups ∧
        (addSchedules na schedules s).cron.running = s.cron.running ∧
        (addSchedules na schedules s).running = s.running ∧
        ((∀ schedule ∈ schedules, ScheduleValid schedule) →
          (addSchedules na schedules s).nextRuns.map Prod.fst =
            insertKeys (schedules.flatMap scheduleKeys) (s.nextRuns.map Prod.fst))
  | [], s => ⟨[], by simp [addSchedules], List.Forall₂.nil, rfl, rfl, fun _ => rfl⟩
  | schedule :: rest, s => by
    obtain ⟨added, a1, a2, a3, a4, a5⟩ := addScheduleToCron_spec na schedule s
    obtain ⟨groups, g1, g2, g3, g4, g5⟩ :=
      addSchedules_spec na rest (addScheduleToCron na schedule s).1
    refine ⟨added :: groups, ?_, ?_, ?_, ?_, ?_⟩
    · rw [addSchedules, g1, a1]
      simp
    · exact List.Forall₂.cons ⟨a2, fun hv => (a5 hv).2.1⟩ g2
    · rw [addSchedules, g3, a3]
    · rw [addSchedules, g4, a4]
    · intro hv
      rw [addSchedules, g5 (fun sch hsch => hv sch (List.mem_cons_of_mem _ hsch)),
        (a5 (hv schedule (by simp))).2.2, List.flatMap_cons, insertKeys_append]

theorem cron_start_triggers (c : Cron) (na : String → Int) :
    (c.Start na).triggers = c.triggers := by
  unfold Cron.Start Cron.triggers
  split
  · rfl
  · simp [Function.comp]

/-! ## Keys of the next-fire cache -/

theorem timeGetnum_digits (s : List Char) (fixed : Bool) (n : Nat) (rest : List Char)
    (h : timeGetnum s fixed = some (n, rest)) :
    ∃ front, s = front ++ rest ∧ ∀ c ∈ front, isAsciiDigit c = true := by
  unfold timeGetnum at h
  split at h
  · cases h
  · rename_i a r
    split at h
    · rename_i ha
      split at h
      · split at h
        · cases h
        · injection h with h
          injection h with _ h
          exact ⟨[a], by simp [← h], by simpa using ha⟩
      · rename_i b r2
        split at h
        · rename_i hb
          injection h with h
          injection h with _ h
          refine ⟨[a, b], by simp [← h], ?_⟩
          intro c hc
          simp only [List.mem_cons, List.mem_singleton, List.not_mem_nil, or_false] at hc
          rcases hc with hc | hc <;> rw [hc] <;> assumption
        · split at h
          · cases h
          · injection h with h
            injection h with _ h
            exact ⟨[a], by simp [← h], by simpa using ha⟩
    · cases h

theorem timeParseClock_chars (l : List Char) (h : (timeParseClock l).isSome = true) :
    ∀ c ∈ l, isAsciiDigit c = true ∨ c = ':' := by
  unfold timeParseClock at h
  split at h
  · cases h
  · rename_i hr rest hg1
    obtain ⟨f1, e1, d1⟩ := timeGetnum_digits l false hr rest hg1
    split at h
    · cases h
    · split at h
      · rename_i rest1
        split at h
        · cases h
        · rename_i mn rest2 hg2
          obtain ⟨f2, e2, d2⟩ := timeGetnum_digits rest1 true mn rest2 hg2
          split at h
          · cases h
          · split at h
            · rename_i hnil
              intro c hc
              rw [e1, e2, hnil] at hc
              simp only [List.mem_append, List.mem_cons, List.append_nil] at hc
              rcases hc with hc | hc | hc
              · exact Or.inl (d1 c hc)
              · exact Or.inr hc
              · exact Or.inl (d2 c hc)
            · cases h
      · cases h

theorem timeParseClock_no_underscore (l : List Char) (h : (timeParseClock l).isSome = true) :
    '_' ∉ l := by
  intro hmem
  rcases timeParseClock_chars l h '_' hmem with h1 | h1
  · revert h1
    decide
  · revert h1
    decide

theorem append_sep_cancel (sep : Char) :
    ∀ (a a' b b' : List Char), sep ∉ a → sep ∉ a' → a ++ sep :: b = a' ++ sep :: b' →
      a = a' ∧ b = b'
  | [], [], b, b', _, _, h => by
    simp only [List.nil_append, List.cons.injEq, true_and] at h
    exact ⟨rfl, h⟩
  | [], c :: a', b, b', _, h2, h => by
    simp only [List.nil_append, List.cons_append, List.cons.injEq] at h
    exact absurd (by simp [h.1]) h2
  | c :: a, [], b, b', h1, _, h => by
    simp only [List.nil_append, List.cons_append, List.cons.injEq] at h
    exact absurd (by simp [h.1]) h1
  | c :: a, c' :: a', b, b', h1, h2, h => by
    simp only [List.cons_append, List.cons.injEq] at h
    obtain ⟨r1, r2⟩ := append_sep_cancel sep a a' b b'
      (fun hm => h1 (List.mem_cons_of_mem _ hm)) (fun hm => h2 (List.mem_cons_of_mem _ hm)) h.2
    exact ⟨by rw [h.1, r1], r2⟩

/-- The text of a weekday in 0..6 is one character. -/
theorem weekday_text : ∀ n, n < 7 → (toString n).data = [Char.ofNat (48 + n)] := by
  decide

theorem weekday_text_injective :
    ∀ n, n < 7 → ∀ m, m < 7 → (toString m).data = (toString n).data → m = n := by
  decide

theorem weekday_cases (d : Int) (h0 : 0 ≤ d) (h6 : d ≤ 6) : ∃ n : Nat, n < 7 ∧ d = (n : Int) :=
  ⟨d.toNat, by omega, by omega⟩

theorem nextRunKey_data (id : String) (n : Nat) (t : String) :
    (nextRunKey id (n : Int) t).data = id.data ++ '_' :: ((toString n).data ++ '_' :: t.data) := by
  unfold nextRunKey
  simp only [String.data_append]
  have : toString (n : Int) = toString n := rfl
  rw [this]
  simp

/-- Keys of the next-fire cache determine schedule id, weekday and time, for
weekdays in 0..6 and times that parse. -/
theorem nextRunKey_injective (id id' : String) (d d' : Int) (t t' : String)
    (hd : 0 ≤ d ∧ d ≤ 6) (hd' : 0 ≤ d' ∧ d' ≤ 6)
    (ht : (timeParseClock t.data).isSome = true) (ht' : (timeParseClock t'.data).isSome = true)
    (h : nextRunKey id d t = nextRunKey id' d' t') : id = id' ∧ d = d' ∧ t = t' := by
  obtain ⟨n, hn, rfl⟩ := weekday_cases d hd.1 hd.2
  obtain ⟨n', hn', rfl⟩ := weekday_cases d' hd'.1 hd'.2
  have hc := weekday_text n hn
  have hc' := weekday_text n' hn'
  have hdata : (nextRunKey id (n : Int) t).data = (nextRunKey id' (n' : Int) t').data := by rw [h]
  rw [nextRunKey_data, nextRunKey_data, hc, hc'] at hdata
  have hrev := congrArg List.reverse hdata
  simp only [List.reverse_append, List.reverse_cons, List.append_assoc, List.singleton_append,
    List.reverse_nil, List.nil_append, List.cons_append] at hrev
  have hu : '_' ∉ t.data.reverse := fun hm =>
    timeParseClock_no_underscore t.data ht (List.mem_reverse.mp hm)
  have hu' : '_' ∉ t'.data.reverse := fun hm =>
    timeParseClock_no_underscore t'.data ht' (List.mem_reverse.mp hm)
  obtain ⟨r1, r2⟩ := append_sep_cancel '_' _ _ _ _ hu hu' hrev
  have ht_eq : t = t' := String.ext (List.reverse_injective r1)
  have hc_eq : Char.ofNat (48 + n') = Char.ofNat (48 + n) := by
    injection r2 with r2 _
    exact r2.symm
  have hid : id = id' := by
    apply String.ext
    injection r2 with _ r2
    injection r2 with _ r2
    exact List.reverse_injective r2
  have hn_eq : n' = n := weekday_text_injective n hn n' hn' (by rw [hc', hc, hc_eq])
  exact ⟨hid, by rw [hn_eq], ht_eq⟩

/-! ## What `Start` registers -/

theorem groups_of_valid (schedules : List Schedule) (groups : List (List (String × Schedule)))
    (hf : List.Forall₂ (fun schedule group =>
      (∀ tr ∈ group, tr.2 = schedule) ∧
        (ScheduleValid schedule → group = scheduleTriggers schedule)) schedules groups)
    (hv : ∀ schedule ∈ schedules, ScheduleValid schedule) :
    groups = schedules.map scheduleTriggers := by
  induction hf with
  | nil => rfl
  | @cons schedule group rest restGroups h _ ih =>
    rw [List.map_cons, h.2 (hv schedule (by simp)),
      ih (fun sch hsch => hv sch (List.mem_cons_of_mem _ hsch))]

theorem scheduleTriggers_length (schedule : Schedule) :
    (scheduleTriggers schedule).length = schedule.DaysOfWeek.length * schedule.Times.length := by
  unfold scheduleTriggers
  induction schedule.DaysOfWeek with
  | nil => simp
  | cons d rest ih =>
    rw [List.flatMap_cons, List.length_append, ih, List.length_map, List.length_cons]
    ring

theorem scheduleKeys_length (schedule : Schedule) :
    (scheduleKeys schedule).length = schedule.DaysOfWeek.length * schedule.Times.length := by
  unfold scheduleKeys
  induction schedule.DaysOfWeek with
  | nil => simp
  | cons d rest ih =>
    rw [List.flatMap_cons, List.length_append, ih, List.length_map, List.length_cons]
    ring

theorem flatMap_length_sum {α β : Type} (f : α → List β) (g : α → Nat)
    (h : ∀ a, (f a).length = g a) : ∀ l : List α, (l.flatMap f).length = (l.map g).sum
  | [] => rfl
  | a :: l => by
    rw [List.flatMap_cons, List.length_append, h a, flatMap_length_sum f g h l, List.map_cons,
      List.sum_cons]

theorem insertKeys_of_nodup : ∀ (keys present : List String), (present ++ keys).Nodup →
    insertKeys keys present = present ++ keys
  | [], present, _ => by simp [insertKeys]
  | k :: keys, present, h => by
    have hk : k ∉ present := by
      intro hmem
      rw [List.nodup_append] at h
      exact h.2.2 hmem (by simp)
    rw [insertKeys_cons, insertKeys_singleton, if_neg hk,
      insertKeys_of_nodup keys (present ++ [k]) (by simpa using h)]
    simp

theorem mem_scheduleKeys (schedule : Schedule) (key : String) (h : key ∈ scheduleKeys schedule) :
    ∃ d ∈ schedule.DaysOfWeek, ∃ t ∈ schedule.Times, key = nextRunKey schedule.ID d t := by
  unfold scheduleKeys at h
  rw [List.mem_flatMap] at h
  obtain ⟨d, hd, hk⟩ := h
  rw [List.mem_map] at hk
  obtain ⟨t, ht, hk⟩ := hk
  exact ⟨d, hd, t, ht, hk.symm⟩

theorem scheduleKeys_nodup (schedule : Schedule) (hv : ScheduleValid schedule)
    (hd : schedule.DaysOfWeek.Nodup) (ht : schedule.Times.Nodup) :
    (scheduleKeys schedule).Nodup := by
  unfold scheduleKeys
  rw [List.nodup_flatMap]
  refine ⟨?_, ?_⟩
  · intro d hdm
    apply List.Nodup.map_on _ ht
    intro t1 h1 t2 h2 heq
    exact (nextRunKey_injective _ _ d d t1 t2 (hv.1 d hdm) (hv.1 d hdm) (hv.2 t1 h1)
      (hv.2 t2 h2) heq).2.2
  · apply List.Nodup.pairwise_of_forall_ne hd
    intro d1 h1 d2 h2 hne
    simp only [Function.onFun]
    rw [List.disjoint_left]
    intro key hk1 hk2
    rw [List.mem_map] at hk1 hk2
    obtain ⟨t1, ht1, e1⟩ := hk1
    obtain ⟨t2, ht2, e2⟩ := hk2
    exact hne (nextRunKey_injective _ _ d1 d2 t1 t2 (hv.1 d1 h1) (hv.1 d2 h2) (hv.2 t1 ht1)
      (hv.2 t2 ht2) (e1.trans e2.symm)).2.1

theorem allKeys_nodup : ∀ (schedules : List Schedule),
    (∀ schedule ∈ schedules, ScheduleValid schedule) →
    (schedules.map fun schedule => schedule.ID).Nodup →
    (∀ schedule ∈ schedules, schedule.DaysOfWeek.Nodup ∧ schedule.Times.Nodup) →
    (schedules.flatMap scheduleKeys).Nodup
  | [], _, _, _ => by simp
  | schedule :: rest, hv, hid, hl => by
    rw [List.flatMap_cons, List.nodup_append]
    rw [List.map_cons, List.nodup_cons] at hid
    refine ⟨scheduleKeys_nodup schedule (hv schedule (by simp)) (hl schedule (by simp)).1
        (hl schedule (by simp)).2,
      allKeys_nodup rest (fun s hs => hv s (List.mem_cons_of_mem _ hs)) hid.2
        (fun s hs => hl s (List.mem_cons_of_mem _ hs)), ?_⟩
    intro key hk1 hk2
    rw [List.mem_flatMap] at hk2
    obtain ⟨other, hother, hk2⟩ := hk2
    obtain ⟨d1, hd1, t1, ht1, e1⟩ := mem_scheduleKeys schedule key hk1
    obtain ⟨d2, hd2, t2, ht2, e2⟩ := mem_scheduleKeys other key hk2
    have hvo := hv other (List.mem_cons_of_mem _ hother)
    have hvs := hv schedule (by simp)
    have hideq := (nextRunKey_injective _ _ d1 d2 t1 t2 (hvs.1 d1 hd1) (hvo.1 d2 hd2)
      (hvs.2 t1 ht1) (hvo.2 t2 ht2) (e1.symm.trans e2)).1
    apply hid.1
    rw [List.mem_map]
    exact ⟨other, hother, hideq.symm⟩

/-- C16 (counterexample): two enabled schedules carry the same id, each with
the duplicate-free weekday list `[1]` and the duplicate-free time list
`["09:00"]`, all valid. `Start` succeeds on the fresh scheduler and registers
two cron entries, one per tuple, but the next-fire cache has a single key. -/
theorem duplicate_schedule_id_shares_key :
    (configWithSchedules twinSchedules).GetEnabledSchedules = twinSchedules ∧
      (Start (configWithSchedules twinSchedules) exampleNextActivation NewService).2 = none ∧
      (Start (configWithSchedules twinSchedules) exampleNextActivation
        NewService).1.cron.entries.length = 2 ∧
      (GetNextRuns (Start (configWithSchedules twinSchedules) exampleNextActivation
        NewService).1).map Prod.fst = ["schedule_1_1_09:00"] := by
  decide

/-- C16 (amended): when `Start` is called on a freshly created scheduler with
at least one enabled schedule, every time parsing in the layout `15:04` and
every weekday in 0..6, it succeeds and registers exactly one trigger per
(schedule, weekday, time) tuple of the enabled schedules, so the number of cron
entries is the sum over the enabled schedules of |DaysOfWeek| × |Times|; and
when moreover the enabled schedules have pairwise distinct ids and
duplicate-free weekday and time lists, the next-fire cache has that number of
keys. -/
theorem start_registers_one_trigger_per_tuple (cfg : Config) (na : String → Int)
    (h0 : cfg.GetEnabledSchedules ≠ [])
    (hv : ∀ schedule ∈ cfg.GetEnabledSchedules, ScheduleValid schedule) :
    (Start cfg na NewService).2 = none ∧
      (Start cfg na NewService).1.cron.triggers =
        cfg.GetEnabledSchedules.flatMap scheduleTriggers ∧
      (Start cfg na NewService).1.cron.entries.length =
        (cfg.GetEnabledSchedules.map fun schedule =>
          schedule.DaysOfWeek.length * schedule.Times.length).sum ∧
      ((cfg.GetEnabledSchedules.map fun schedule => schedule.ID).Nodup →
        (∀ schedule ∈ cfg.GetEnabledSchedules,
          schedule.DaysOfWeek.Nodup ∧ schedule.Times.Nodup) →
        (GetNextRuns (Start cfg na NewService).1).length =
          (cfg.GetEnabledSchedules.map fun schedule =>
            schedule.DaysOfWeek.length * schedule.Times.length).sum) := by
  obtain ⟨groups, g1, g2, -, -, g5⟩ := addSchedules_spec na cfg.GetEnabledSchedules NewService
  have hgroups := groups_of_valid _ _ g2 hv
  have htrig : (Start cfg na NewService).1.cron.triggers =
      cfg.GetEnabledSchedules.flatMap scheduleTriggers := by
    rw [start_ok cfg na NewService rfl h0]
    simp only
    rw [cron_start_triggers, g1, hgroups, List.flatMap_def]
    rfl
  refine ⟨by rw [start_ok cfg na NewService rfl h0], htrig, ?_, ?_⟩
  · have hlen : (Start cfg na NewService).1.cron.entries.length =
        (Start cfg na NewService).1.cron.triggers.length := by
      unfold Cron.triggers
      rw [List.length_map]
    rw [hlen, htrig]
    exact flatMap_length_sum scheduleTriggers _ scheduleTriggers_length _
  · intro hid hl
    have hkeys := g5 hv
    have hnodup := allKeys_nodup cfg.GetEnabledSchedules hv hid hl
    have hk : (GetNextRuns (Start cfg na NewService).1).map Prod.fst =
        cfg.GetEnabledSchedules.flatMap scheduleKeys := by
      rw [start_ok cfg na NewService rfl h0]
      unfold GetNextRuns
      simp only
      rw [hkeys]
      exact insertKeys_of_nodup _ [] (by simpa using hnodup)
    have hl2 : (GetNextRuns (Start cfg na NewService).1).length =
        ((GetNextRuns (Start cfg na NewService).1).map Prod.fst).length := by
      rw [List.length_map]
    rw [hl2, hk]
    exact flatMap_length_sum scheduleKeys _ scheduleKeys_length _

/-- Witness for `start_registers_one_trigger_per_tuple`: one schedule with
weekdays 1 and 3 and times 09:00 and 18:30, next to a disabled schedule; four
triggers are registered. -/
theorem start_registers_one_trigger_per_tuple_witness :
    (Start (configWithSchedules [exampleSchedule, { emptyCrossSchedule with Enabled := false }])
        exampleNextActivation NewService).1.cron.entries.length = 4 ∧
      (GetNextRuns (Start
        (configWithSchedules [exampleSchedule, { emptyCrossSchedule with Enabled := false }])
        exampleNextActivation NewService).1).length = 4 := by
  have hvalid : ∀ schedule ∈ (configWithSchedules
      [exampleSchedule, { emptyCrossSchedule with Enabled := false }]).GetEnabledSchedules,
      ScheduleValid schedule := by
    intro schedule hs
    have : schedule = exampleSchedule := by
      revert hs
      simp [Config.GetEnabledSchedules, configWithSchedules, exampleSchedule,
        emptyCrossSchedule]
    subst this
    refine ⟨?_, ?_⟩
    · decide
    · decide
  have h := start_registers_one_trigger_per_tuple
    (configWithSchedules [exampleSchedule, { emptyCrossSchedule with Enabled := false }])
    exampleNextActivation (by decide) hvalid
  exact ⟨h.2.2.1, h.2.2.2 (by decide) (by decide)⟩

/-- C20: on a stopped scheduler with at least one enabled schedule, `Start`
returns a nil error and marks the scheduler running whatever happens while the
triggers are registered. The triggers it adds are the groups contributed by the
enabled schedules, one group per schedule in order; the group of a schedule all
of whose times parse and whose weekdays lie in 0..6 consists of all its
triggers, whether or not the registration of another schedule failed. -/
theorem start_continues_after_failed_schedule (cfg : Config) (na : String → Int)
    (s : SchedulerService) (h : s.running = false) (h0 : cfg.GetEnabledSchedules ≠ []) :
    (Start cfg na s).2 = none ∧ IsRunning (Start cfg na s).1 = true ∧
      ∃ groups : List (List (String × Schedule)),
        (Start cfg na s).1.cron.triggers = s.cron.triggers ++ groups.flatten ∧
        List.Forall₂ (fun schedule group =>
          (∀ tr ∈ group, tr.2 = schedule) ∧
            (ScheduleValid schedule → group = scheduleTriggers schedule))
          cfg.GetEnabledSchedules groups := by
  obtain ⟨groups, g1, g2, -, -, -⟩ := addSchedules_spec na cfg.GetEnabledSchedules s
  rw [start_ok cfg na s h h0]
  refine ⟨rfl, rfl, groups, ?_, g2⟩
  simp only
  rw [cron_start_triggers, g1]

/-- Witness for `start_continues_after_failed_schedule`: a schedule whose
second time is `25:00` stands before the example schedule. Its registration
fails after its first trigger; `Start` returns nil and the four triggers of the
example schedule are registered. -/
theorem start_continues_after_failed_schedule_witness :
    (addScheduleToCron exampleNextActivation badTimeSchedule NewService).2 =
        some "failed to build cron expression: invalid time format: 25:00" ∧
      (Start (configWithSchedules [badTimeSchedule, exampleSchedule]) exampleNextActivation
        NewService).2 = none ∧
      IsRunning (Start (configWithSchedules [badTimeSchedule, exampleSchedule])
        exampleNextActivation NewService).1 = true ∧
      ((Start (configWithSchedules [badTimeSchedule, exampleSchedule]) exampleNextActivation
        NewService).1.cron.triggers.map fun tr => (tr.1, tr.2.ID)) =
        [("15 7 * * 1", "schedule_3"), ("0 9 * * 1", "schedule_1"),
          ("30 18 * * 1", "schedule_1"), ("0 9 * * 3", "schedule_1"),
          ("30 18 * * 3", "schedule_1")] :=
  ⟨by decide,
    (start_continues_after_failed_schedule
      (configWithSchedules [badTimeSchedule, exampleSchedule]) exampleNextActivation NewService
      rfl (by decide)).1,
    (start_continues_after_failed_schedule
      (configWithSchedules [badTimeSchedule, exampleSchedule]) exampleNextActivation NewService
      rfl (by decide)).2.1,
    by decide⟩

/-! ## Cron expressions from weekday and time -/

theorem digitChar_isAsciiDigit : ∀ n < 10, isAsciiDigit (digitChar n) = true := by
  decide

theorem digitChar_value : ∀ n < 10, (digitChar n).toNat - 48 = n := by
  decide

theorem timeGetnum_two_digits (a b : Nat) (ha : a < 10) (hb : b < 10) (fixed : Bool)
    (rest : List Char) :
    timeGetnum (digitChar a :: digitChar b :: rest) fixed = some (a * 10 + b, rest) := by
  simp [timeGetnum, digitChar_isAsciiDigit a ha, digitChar_isAsciiDigit b hb,
    digitChar_value a ha, digitChar_value b hb]

theorem timeParseClock_clockText (hour minute : Nat) (hh : hour < 24) (hm : minute < 60) :
    timeParseClock (clockText hour minute).data = some (hour, minute) := by
  have h1 : hour / 10 < 10 := by omega
  have h2 : hour % 10 < 10 := by omega
  have h3 : minute / 10 < 10 := by omega
  have h4 : minute % 10 < 10 := by omega
  have e1 : hour / 10 * 10 + hour % 10 = hour := by omega
  have e2 : minute / 10 * 10 + minute % 10 = minute := by omega
  unfold timeParseClock clockText
  simp only [timeGetnum_two_digits _ _ h1 h2, timeGetnum_two_digits _ _ h3 h4, e1, e2]
  rw [if_neg (by omega), if_neg (by omega), if_pos trivial]

/-- C29: for every integer weekday and every time of day written `HH:MM` with
hour below 24 and minute below 60, `buildCronExpression` returns the decimal
minute, the decimal hour, `*`, `*` and the weekday separated by single spaces;
`(1, "09:00")` gives `0 9 * * 1` and `(3, "18:30")` gives `30 18 * * 3`. A time
string that does not parse in the layout `15:04`, such as `24:00`, `12:60`,
`noon` or the empty string, gives the error `invalid time format` followed by
the string, and no expression. -/
theorem buildCronExpression_of_clock (d : Int) (hour minute : Nat) (hh : hour < 24)
    (hm : minute < 60) :
    buildCronExpression d (clockText hour minute) =
        .ok (toString minute ++ " " ++ toString hour ++ " * * " ++ toString d) ∧
      buildCronExpression 1 "09:00" = .ok "0 9 * * 1" ∧
      buildCronExpression 3 "18:30" = .ok "30 18 * * 3" ∧
      (∀ timeStr : String, timeParseClock timeStr.data = none →
        buildCronExpression d timeStr = .error ("invalid time format: " ++ timeStr)) ∧
      buildCronExpression d "24:00" = .error "invalid time format: 24:00" ∧
      buildCronExpression d "12:60" = .error "invalid time format: 12:60" ∧
      buildCronExpression d "noon" = .error "invalid time format: noon" ∧
      buildCronExpression d "" = .error "invalid time format: " := by
  refine ⟨?_, rfl, rfl, ?_, rfl, rfl, rfl, rfl⟩
  · unfold buildCronExpression
    rw [timeParseClock_clockText hour minute hh hm]
  · intro timeStr h
    unfold buildCronExpression
    rw [h]

/-- Witness for `buildCronExpression_of_clock`: Wednesday at 18:30. -/
theorem buildCronExpression_of_clock_witness :
    clockText 18 30 = "18:30" ∧
      buildCronExpression 3 (clockText 18 30) =
        .ok (toString 30 ++ " " ++ toString 18 ++ " * * " ++ toString (3 : Int)) :=
  ⟨by decide, (buildCronExpression_of_clock 3 18 30 (by decide) (by decide)).1⟩

/-! ## The nearest upcoming execution -/

theorem getNextRunLoop_fresh_minimum :
    ∀ (runs : List (String × Int)) (e : Int),
      ∃ t, getNextRunLoop true (some e) runs = some t ∧
        (t = e ∨ ∃ key, (key, t) ∈ runs) ∧ t ≤ e ∧ ∀ kv ∈ runs, t ≤ kv.2
  | [], e => ⟨e, rfl, Or.inl rfl, le_refl e, fun _ h => absurd h (List.not_mem_nil _)⟩
  | (key, nextRun) :: rest, e => by
    unfold getNextRunLoop
    simp only [if_true]
    by_cases h : nextRun < e
    · rw [if_pos h]
      obtain ⟨t, h1, h2, h3, h4⟩ := getNextRunLoop_fresh_minimum rest nextRun
      refine ⟨t, h1, Or.inr ?_, by omega, ?_⟩
      · rcases h2 with rfl | ⟨k, hk⟩
        · exact ⟨key, List.mem_cons_self _ _⟩
        · exact ⟨k, List.mem_cons_of_mem _ hk⟩
      · intro kv hkv
        rcases List.mem_cons.1 hkv with rfl | hkv
        · exact h3
        · exact h4 kv hkv
    · rw [if_neg h]
      obtain ⟨t, h1, h2, h3, h4⟩ := getNextRunLoop_fresh_minimum rest e
      refine ⟨t, h1, ?_, h3, ?_⟩
      · rcases h2 with rfl | ⟨k, hk⟩
        · exact Or.inl rfl
        · exact Or.inr ⟨k, List.mem_cons_of_mem _ hk⟩
      · intro kv hkv
        rcases List.mem_cons.1 hkv with rfl | hkv
        · simp only
          omega
        · exact h4 kv hkv

theorem getNextRun_fresh_minimum (s : SchedulerService) (h : GetNextRuns s ≠ []) :
    ∃ t, GetNextRun true s = some t ∧ (∃ key, (key, t) ∈ GetNextRuns s) ∧
      ∀ kv ∈ GetNextRuns s, t ≤ kv.2 := by
  unfold GetNextRun
  rcases hruns : GetNextRuns s with _ | ⟨⟨key, nextRun⟩, rest⟩
  · exact absurd hruns h
  · rw [if_neg (by simp)]
    unfold getNextRunLoop
    simp only [if_true]
    obtain ⟨t, h1, h2, h3, h4⟩ := getNextRunLoop_fresh_minimum rest nextRun
    refine ⟨t, h1, ?_, ?_⟩
    · rcases h2 with rfl | ⟨k, hk⟩
      · exact ⟨key, List.mem_cons_self _ _⟩
      · exact ⟨k, List.mem_cons_of_mem _ hk⟩
    · intro kv hkv
      rcases List.mem_cons.1 hkv with rfl | hkv
      · exact h3
      · exact h4 kv hkv

theorem getNextRun_none_iff (freshLoopVar : Bool) (s : SchedulerService) :
    GetNextRun freshLoopVar s = none ↔ GetNextRuns s = [] := by
  unfold GetNextRun
  rcases hruns : GetNextRuns s with _ | ⟨⟨key, nextRun⟩, rest⟩
  · simp
  · rw [if_neg (by simp)]
    simp only [reduceCtorEq, iff_false]
    have key : ∀ (runs : List (String × Int)) (e : Int),
        getNextRunLoop freshLoopVar (some e) runs ≠ none := by
      intro runs
      induction runs with
      | nil => intro e; simp [getNextRunLoop]
      | cons kv rest ih =>
        intro e
        obtain ⟨k, v⟩ := kv
        unfold getNextRunLoop
        cases freshLoopVar
        · simp only [Bool.false_eq_true, if_false, Option.map_some']
          split
          · exact ih _
          · exact ih _
        · simp only [if_true]
          split
          · exact ih _
          · exact ih _
    unfold getNextRunLoop
    cases freshLoopVar
    · simp only [Bool.false_eq_true, if_false, Option.map_none']
      exact key _ _
    · simp only [if_true]
      exact key _ _

/-- With one loop variable shared by all iterations (Go before 1.22) the
pointer kept by `GetNextRun` refers to that variable, and the value returned is
the one visited last. -/
theorem getNextRun_shared_variable_returns_last (s : SchedulerService) :
    GetNextRun false s = (GetNextRuns s).getLast?.map Prod.snd := by
  unfold GetNextRun
  have key : ∀ (runs : List (String × Int)) (e : Int) (kv : String × Int),
      getNextRunLoop false (some e) (kv :: runs) =
        ((kv :: runs).getLast?).map Prod.snd := by
    intro runs
    induction runs with
    | nil =>
      intro e kv
      simp [getNextRunLoop]
    | cons kv2 rest ih =>
      intro e kv
      rw [getNextRunLoop]
      simp only [Bool.false_eq_true, if_false, Option.map_some', lt_self_iff_false]
      rw [ih, List.getLast?_cons_cons]
  rcases hruns : GetNextRuns s with _ | ⟨kv, rest⟩
  · simp
  · rw [if_neg (by simp)]
    cases rest with
    | nil => simp [getNextRunLoop]
    | cons kv2 rest =>
      rw [getNextRunLoop]
      simp only [Bool.false_eq_true, if_false, Option.map_none']
      rw [key, List.getLast?_cons_cons]

/-- C30: with a loop variable of its own for every iteration (the semantics of
`range` from Go 1.22 on), `GetNextRun` returns nil if and only if the next-fire
cache is empty, and otherwise returns a time that is one of the cached instants
and is not later than any of them; the value does not depend on the order in
which the cache is visited. -/
theorem getNextRun_nearest (freshLoopVar : Bool) (s : SchedulerService)
    (hfresh : freshLoopVar = true) :
    (GetNextRun freshLoopVar s = none ↔ GetNextRuns s = []) ∧
      (GetNextRuns s ≠ [] →
        ∃ t, GetNextRun freshLoopVar s = some t ∧ (∃ key, (key, t) ∈ GetNextRuns s) ∧
          ∀ kv ∈ GetNextRuns s, t ≤ kv.2) ∧
      ∀ s2 : SchedulerService, (GetNextRuns s2).Perm (GetNextRuns s) →
        GetNextRun freshLoopVar s2 = GetNextRun freshLoopVar s := by
  subst hfresh
  refine ⟨getNextRun_none_iff true s, getNextRun_fresh_minimum s, ?_⟩
  intro s2 hperm
  by_cases h : GetNextRuns s = []
  · have h2 : GetNextRuns s2 = [] := by
      rw [h] at hperm
      exact List.Perm.eq_nil hperm
    rw [(getNextRun_none_iff true s).2 h, (getNextRun_none_iff true s2).2 h2]
  · have h2 : GetNextRuns s2 ≠ [] := by
      intro h2
      rw [h2] at hperm
      exact h (List.Perm.eq_nil hperm.symm)
    obtain ⟨t, e1, ⟨k, hk⟩, hmin⟩ := getNextRun_fresh_minimum s h
    obtain ⟨t2, e2, ⟨k2, hk2⟩, hmin2⟩ := getNextRun_fresh_minimum s2 h2
    have a1 : t ≤ t2 := hmin (k2, t2) (hperm.mem_iff.1 hk2)
    have a2 : t2 ≤ t := hmin2 (k, t) (hperm.mem_iff.2 hk)
    rw [e1, e2, le_antisymm a2 a1]

/-- Witness for `getNextRun_nearest`: a cache of three instants whose earliest
is neither the first nor the last. -/
theorem getNextRun_nearest_witness :
    GetNextRun true threeRunsService = some 1704099600000000000 ∧
      ((GetNextRun true threeRunsService = none ↔ GetNextRuns threeRunsService = []) ∧
        (GetNextRuns threeRunsService ≠ [] →
          ∃ t, GetNextRun true threeRunsService = some t ∧
            (∃ key, (key, t) ∈ GetNextRuns threeRunsService) ∧
            ∀ kv ∈ GetNextRuns threeRunsService, t ≤ kv.2) ∧
        ∀ s2 : SchedulerService, (GetNextRuns s2).Perm (GetNextRuns threeRunsService) →
          GetNextRun true s2 = GetNextRun true threeRunsService) :=
  ⟨by decide, getNextRun_nearest true threeRunsService rfl⟩

/-! ## What the retention cleanup removes -/

theorem cleanupWalk_removed_only_due (cutoff : Int) :
    ∀ (visited : List WalkEntry) (w : World) (p : String),
      (cleanupWalk cutoff visited w).1.files p = w.files p ∨
        ((cleanupWalk cutoff visited w).1.files p = none ∧
          ∃ entry ∈ visited, entry.path = p ∧ RemovalDue cutoff entry)
  | [], _, _ => Or.inl rfl
  | entry :: rest, w, p => by
    have lift : ∀ w1 : World, w1.files p = w.files p →
        (cleanupWalk cutoff rest w1).1.files p = w.files p ∨
          ((cleanupWalk cutoff rest w1).1.files p = none ∧
            ∃ e ∈ entry :: rest, e.path = p ∧ RemovalDue cutoff e) := by
      intro w1 h1
      rcases cleanupWalk_removed_only_due cutoff rest w1 p with h | ⟨h, e, he, hp⟩
      · exact Or.inl (h.trans h1)
      · exact Or.inr ⟨h, e, List.mem_cons_of_mem _ he, hp⟩
    unfold cleanupWalk
    split
    · exact Or.inl rfl
    · split
      · rename_i hold
        split
        · rename_i hsuffix
          split
          · exact Or.inl rfl
          · have hdue : RemovalDue cutoff entry := by
              simp only [Bool.and_eq_true, Bool.not_eq_true', decide_eq_true_eq] at hold
              exact ⟨hold.1, hold.2, hsuffix⟩
            by_cases hp : p = entry.path
            · right
              rcases cleanupWalk_removed_only_due cutoff rest
                  { w with files := w.files.remove entry.path } p with h | ⟨h, -⟩
              · refine ⟨?_, entry, List.mem_cons_self _ _, hp.symm, hdue⟩
                rw [h]
                simp [FileSystem.remove, hp]
              · exact ⟨h, entry, List.mem_cons_self _ _, hp.symm, hdue⟩
            · apply lift
              simp [FileSystem.remove, hp]
        · exact lift w rfl
      · exact lift w rfl

theorem cleanupWalk_removes_every_due (cutoff : Int) :
    ∀ (visited : List WalkEntry) (w : World),
      (∀ entry ∈ visited, entry.walkErr = none ∧ entry.removeErr = none) →
      (cleanupWalk cutoff visited w).2 = none ∧
        ∀ entry ∈ visited, RemovalDue cutoff entry →
          (cleanupWalk cutoff visited w).1.files entry.path = none
  | [], _, _ => ⟨rfl, fun _ h => absurd h (List.not_mem_nil _)⟩
  | entry :: rest, w, herr => by
    have hrest : ∀ e ∈ rest, e.walkErr = none ∧ e.removeErr = none :=
      fun e he => herr e (List.mem_cons_of_mem _ he)
    obtain ⟨hw, hr⟩ := herr entry (List.mem_cons_self _ _)
    by_cases hdue : RemovalDue cutoff entry
    · have hstep : cleanupWalk cutoff (entry :: rest) w =
          cleanupWalk cutoff rest { w with files := w.files.remove entry.path } := by
        obtain ⟨h1, h2, h3⟩ := hdue
        rw [cleanupWalk, hw]
        simp only
        split
        · split
          · rw [hr]
          · rename_i hsuffix
            exact absurd h3 hsuffix
        · rename_i hold
          exact absurd (by simp [h1, h2]) hold
      rw [hstep]
      obtain ⟨i1, i2⟩ := cleanupWalk_removes_every_due cutoff rest
        { w with files := w.files.remove entry.path } hrest
      refine ⟨i1, ?_⟩
      intro e he hd
      rcases List.mem_cons.1 he with rfl | he
      · rcases cleanupWalk_removed_only_due cutoff rest
            { w with files := w.files.remove e.path } e.path with h | ⟨h, -⟩
        · rw [h]
          simp [FileSystem.remove]
        · exact h
      · exact i2 e he hd
    · have hstep : cleanupWalk cutoff (entry :: rest) w = cleanupWalk cutoff rest w := by
        rw [cleanupWalk, hw]
        simp only
        split
        · rename_i hold
          split
          · rename_i hsuffix
            simp only [Bool.and_eq_true, Bool.not_eq_true', decide_eq_true_eq] at hold
            exact absurd ⟨hold.1, hold.2, hsuffix⟩ hdue
          · rfl
        · rfl
      rw [hstep]
      obtain ⟨i1, i2⟩ := cleanupWalk_removes_every_due cutoff rest w hrest
      refine ⟨i1, ?_⟩
      intro e he hd
      rcases List.mem_cons.1 he with rfl | he
      · exact absurd hd hdue
      · exact i2 e he hd

theorem isSuffixOf_path_iff_name (suffix dir name : List Char) (h : '/' ∉ suffix) :
    suffix.isSuffixOf (dir ++ '/' :: name) = suffix.isSuffixOf name := by
  rw [Bool.eq_iff_iff, List.isSuffixOf_iff_suffix, List.isSuffixOf_iff_suffix]
  constructor
  · intro hs
    have hn : ('/' :: name) <:+ dir ++ '/' :: name := List.suffix_append _ _
    rcases List.suffix_or_suffix_of_suffix hs hn with h1 | h1
    · rcases List.suffix_cons_iff.1 h1 with h2 | h2
      · exact absurd (h2 ▸ List.mem_cons_self _ _) h
      · exact h2
    · exact absurd (h1.mem (List.mem_cons_self _ _)) h
  · intro hs
    exact hs.trans ((List.suffix_cons _ _).trans (List.suffix_append _ _))

/-- C28: with `RetentionDays ≤ 0`, `CleanupOldBackups` returns nil and leaves
every file in place. In general, a path whose file differs after the call has
been removed, the retention is positive, and the walk visited it as a
non-directory modified strictly before the cutoff (the clock reading minus
`RetentionDays` days) whose path ends in `.sql`, `.gz` or `.zip`; so a file
modified at or after the cutoff, or with another suffix, stays. When the
retention is positive and neither the walk nor a removal reports an error, the
call returns nil and every visited path that meets the three conditions is
gone. The suffix test on a path below a directory is the suffix test on the
name. -/
theorem cleanupOldBackups_age_and_type (x : CleanupExternals) (w : World) :
    (w.config.Backup.RetentionDays ≤ 0 →
        (CleanupOldBackups x w).2 = none ∧ (CleanupOldBackups x w).1.files = w.files) ∧
      (∀ p, (CleanupOldBackups x w).1.files p ≠ w.files p →
        0 < w.config.Backup.RetentionDays ∧ (CleanupOldBackups x w).1.files p = none ∧
          ∃ entry ∈ x.visited, entry.path = p ∧
            RemovalDue (x.now - w.config.Backup.RetentionDays * 86400000000000) entry) ∧
      (0 < w.config.Backup.RetentionDays →
        (∀ entry ∈ x.visited, entry.walkErr = none ∧ entry.removeErr = none) →
        (CleanupOldBackups x w).2 = none ∧
          ∀ entry ∈ x.visited,
            RemovalDue (x.now - w.config.Backup.RetentionDays * 86400000000000) entry →
            (CleanupOldBackups x w).1.files entry.path = none) ∧
      ∀ dir name : String, hasBackupSuffix (dir ++ "/" ++ name) = hasBackupSuffix name := by
  refine ⟨?_, ?_, ?_, ?_⟩
  · intro h
    unfold CleanupOldBackups
    simp only
    rw [if_pos (by simpa [World.emit] using h)]
    exact ⟨rfl, rfl⟩
  · intro p hp
    by_cases h : w.config.Backup.RetentionDays ≤ 0
    · exfalso
      apply hp
      unfold CleanupOldBackups
      simp only
      rw [if_pos (by simpa [World.emit] using h)]
      rfl
    · have hstep : CleanupOldBackups x w =
          cleanupWalk (x.now - w.config.Backup.RetentionDays * 86400000000000) x.visited
            (w.emit .cleanupOldBackups) := by
        unfold CleanupOldBackups
        simp only
        rw [if_neg (by simpa [World.emit] using h)]
        rfl
      rw [hstep] at hp ⊢
      rcases cleanupWalk_removed_only_due _ x.visited (w.emit .cleanupOldBackups) p with
        h1 | ⟨h1, h2⟩
      · exact absurd h1 hp
      · exact ⟨by omega, h1, h2⟩
  · intro h herr
    have hstep : CleanupOldBackups x w =
        cleanupWalk (x.now - w.config.Backup.RetentionDays * 86400000000000) x.visited
          (w.emit .cleanupOldBackups) := by
      unfold CleanupOldBackups
      simp only
      rw [if_neg (by simpa [World.emit] using h)]
      rfl
    rw [hstep]
    exact cleanupWalk_removes_every_due _ x.visited _ herr
  · intro dir name
    unfold hasBackupSuffix
    have e : (dir ++ "/" ++ name).data = dir.data ++ '/' :: name.data := by
      simp [String.data_append]
    rw [e, isSuffixOf_path_iff_name _ _ _ (by decide), isSuffixOf_path_iff_name _ _ _ (by decide),
      isSuffixOf_path_iff_name _ _ _ (by decide)]

/-- Witness for `cleanupOldBackups_age_and_type`: with a retention of 30 days
the artifact of 1 November 2023 is removed on 2 January 2024, while the
artifact of 1 January 2024 and the old text file stay. -/
theorem cleanupOldBackups_age_and_type_witness :
    (CleanupOldBackups retentionCleanup retentionWorld).2 = none ∧
      (CleanupOldBackups retentionCleanup retentionWorld).1.files
        "/var/backups/mysql/local/backup_Local_Machine_shop_20231101_030405.sql.gz" = none ∧
      (CleanupOldBackups retentionCleanup retentionWorld).1.files
        "/var/backups/mysql/local/backup_Local_Machine_shop_20240101_030405.sql.gz" =
          some "recent" ∧
      (CleanupOldBackups retentionCleanup retentionWorld).1.files
        "/var/backups/mysql/local/notes.txt" = some "text" :=
  ⟨((cleanupOldBackups_age_and_type retentionCleanup retentionWorld).2.2.1 (by decide)
      (by decide)).1,
    ((cleanupOldBackups_age_and_type retentionCleanup retentionWorld).2.2.1 (by decide)
      (by decide)).2
      { path := "/var/backups/mysql/local/backup_Local_Machine_shop_20231101_030405.sql.gz",
        isDir := false, modTime := 1698807845000000000, walkErr := none, removeErr := none }
      (by decide) ⟨by decide, by decide, by decide⟩,
    by decide, by decide⟩

/-! ## The reserved local machine and deleting a machine -/

theorem machineID_ne_local (nanos : Int) : "machine_" ++ toString nanos ≠ "local" := by
  intro h
  have h2 := congrArg String.data h
  rw [String.data_append] at h2
  have h3 := congrArg List.head? h2
  simp at h3

theorem updateMachineLoop_ids (machineID : String) (machine : Machine) (updatedAt : String) :
    ∀ (machines updated : List Machine),
      updateMachineLoop machineID machine updatedAt machines = some updated →
      updated.map (fun m => m.ID) = machines.map fun m => m.ID
  | [], _, h => by simp [updateMachineLoop] at h
  | m :: rest, updated, h => by
    unfold updateMachineLoop at h
    split at h
    · rename_i hm
      simp only [Option.some.injEq] at h
      subst h
      simp [hm]
    · rcases hrest : updateMachineLoop machineID machine updatedAt rest with _ | ms
      · rw [hrest] at h
        simp at h
      · rw [hrest] at h
        simp only [Option.map_some', Option.some.injEq] at h
        subst h
        simp [updateMachineLoop_ids machineID machine updatedAt rest ms hrest]

theorem localMachineCount_of_ids (c1 c2 : Config)
    (h : c1.Machines.map (fun m => m.ID) = c2.Machines.map fun m => m.ID) :
    localMachineCount c1 = localMachineCount c2 := by
  have key : ∀ ms : List Machine,
      ms.countP (fun m => m.ID == "local") =
        (ms.map fun m => m.ID).countP fun i => i == "local" := by
    intro ms
    rw [List.countP_map]
    rfl
  unfold localMachineCount
  rw [key, key, h]

theorem deleteMachineLoop_found (machineID : String) :
    ∀ (machines : List Machine), (∃ m ∈ machines, m.ID = machineID) →
      ∃ before m after, machines = before ++ m :: after ∧ m.ID = machineID ∧
        (∀ b ∈ before, b.ID ≠ machineID) ∧
        deleteMachineLoop machineID machines = some (before ++ after)
  | [], h => by simp at h
  | m :: rest, h => by
    by_cases hm : m.ID = machineID
    · exact ⟨[], m, rest, rfl, hm, by simp, by simp [deleteMachineLoop, hm]⟩
    · have hrest : ∃ m2 ∈ rest, m2.ID = machineID := by
        obtain ⟨m2, h1, h2⟩ := h
        rcases List.mem_cons.1 h1 with rfl | h1
        · exact absurd h2 hm
        · exact ⟨m2, h1, h2⟩
      obtain ⟨before, m2, after, e1, e2, e3, e4⟩ := deleteMachineLoop_found machineID rest hrest
      refine ⟨m :: before, m2, after, by simp [e1], e2, ?_, ?_⟩
      · intro b hb
        rcases List.mem_cons.1 hb with rfl | hb
        · exact hm
        · exact e3 b hb
      · simp [deleteMachineLoop, hm, e4]

theorem deleteMachineLoop_missing (machineID : String) :
    ∀ (machines : List Machine), (∀ m ∈ machines, m.ID ≠ machineID) →
      deleteMachineLoop machineID machines = none
  | [], _ => rfl
  | m :: rest, h => by
    have hm : m.ID ≠ machineID := h m (List.mem_cons_self _ _)
    simp [deleteMachineLoop, hm,
      deleteMachineLoop_missing machineID rest fun m2 h2 => h m2 (List.mem_cons_of_mem _ h2)]

theorem deleteMachineLoop_local_count (machineID : String) (hid : machineID ≠ "local") :
    ∀ (machines remaining : List Machine),
      deleteMachineLoop machineID machines = some remaining →
      remaining.countP (fun m => m.ID == "local") = machines.countP fun m => m.ID == "local"
  | [], _, h => by simp [deleteMachineLoop] at h
  | m :: rest, remaining, h => by
    unfold deleteMachineLoop at h
    split at h
    · rename_i hm
      simp only [Option.some.injEq] at h
      subst h
      have : (m.ID == "local") = false := by
        rw [hm]
        simpa using hid
      rw [List.countP_cons_of_neg _ _ (by simp [this])]
    · rcases hrest : deleteMachineLoop machineID rest with _ | ms
      · rw [hrest] at h
        simp at h
      · rw [hrest] at h
        simp only [Option.map_some', Option.some.injEq] at h
        subst h
        simp only [List.countP_cons]
        rw [deleteMachineLoop_local_count machineID hid rest ms hrest]

/-- C24: `DeleteMachine("local")` returns the error `cannot delete local
machine` and leaves the configuration as it is; and the number of machines
with id `local` is the same after any call of `AddMachine`, `UpdateMachine` or
`DeleteMachine` as before it, whatever the arguments, the clock and the outcome
of `Save`, so that a configuration with exactly one such machine keeps exactly
one. -/
theorem local_machine_is_kept (c : Config) :
    (∀ x, c.DeleteMachine "local" x = (c, some "cannot delete local machine")) ∧
      (∀ machine x, localMachineCount (c.AddMachine machine x).1 = localMachineCount c) ∧
      (∀ machineID machine x,
        localMachineCount (c.UpdateMachine machineID machine x).1 = localMachineCount c) ∧
      ∀ machineID x, localMachineCount (c.DeleteMachine machineID x).1 = localMachineCount c := by
  refine ⟨?_, ?_, ?_, ?_⟩
  · intro x
    simp [Config.DeleteMachine]
  · intro machine x
    unfold localMachineCount Config.AddMachine
    simp only [List.countP_append]
    rw [List.countP_cons_of_neg]
    · simp
    · simpa using machineID_ne_local x.nanos
  · intro machineID machine x
    unfold Config.UpdateMachine
    rcases h : updateMachineLoop machineID machine x.updatedAt c.Machines with _ | ms
    · rfl
    · exact localMachineCount_of_ids _ _ (updateMachineLoop_ids _ _ _ _ _ h)
  · intro machineID x
    unfold Config.DeleteMachine
    by_cases hid : machineID = "local"
    · rw [if_pos hid]
    · rw [if_neg hid]
      rcases h : deleteMachineLoop machineID c.Machines with _ | ms
      · rfl
      · exact deleteMachineLoop_local_count machineID hid _ _ h

/-- C25: for an id other than `local`, when some machine has the id,
`DeleteMachine` removes the first machine of that id and keeps the others in
order, keeps exactly the schedules whose `MachineID` differs from the id, in
order, changes nothing else and returns what `Save` returns; when no machine
has the id it returns `machine not found` and the configuration is
unchanged. -/
theorem deleteMachine_cascades_to_schedules (c : Config) (machineID : String)
    (x : MutationExternals) (hid : machineID ≠ "local") :
    ((∃ m ∈ c.Machines, m.ID = machineID) →
        ∃ before m after, c.Machines = before ++ m :: after ∧ m.ID = machineID ∧
          (∀ b ∈ before, b.ID ≠ machineID) ∧
          c.DeleteMachine machineID x =
            ({ c with
                Machines := before ++ after,
                Scheduler := { c.Scheduler with
                  Schedules := c.Scheduler.Schedules.filter fun s => s.MachineID != machineID } },
              x.saveErr)) ∧
      ((∀ m ∈ c.Machines, m.ID ≠ machineID) →
        c.DeleteMachine machineID x = (c, some "machine not found")) := by
  constructor
  · intro h
    obtain ⟨before, m, after, e1, e2, e3, e4⟩ := deleteMachineLoop_found machineID c.Machines h
    refine ⟨before, m, after, e1, e2, e3, ?_⟩
    unfold Config.DeleteMachine
    rw [if_neg hid, e4]
  · intro h
    unfold Config.DeleteMachine
    rw [if_neg hid, deleteMachineLoop_missing machineID c.Machines h]

/-- Witness for `deleteMachine_cascades_to_schedules`: deleting the remote
example machine leaves the local machine and the two schedules that run on
it. -/
theorem deleteMachine_cascades_to_schedules_witness :
    (∃ before m after, twoMachineSchedules.Machines = before ++ m :: after ∧
        m.ID = "machine_1" ∧ (∀ b ∈ before, b.ID ≠ "machine_1") ∧
        twoMachineSchedules.DeleteMachine "machine_1" exampleMutation =
          ({ twoMachineSchedules with
              Machines := before ++ after,
              Scheduler := { twoMachineSchedules.Scheduler with
                Schedules := twoMachineSchedules.Scheduler.Schedules.filter
                  fun s => s.MachineID != "machine_1" } },
            exampleMutation.saveErr)) ∧
      (twoMachineSchedules.DeleteMachine "machine_1" exampleMutation).1.Machines =
        [exampleLocalMachine] ∧
      ((twoMachineSchedules.DeleteMachine "machine_1" exampleMutation).1.Scheduler.Schedules.map
        fun s => s.ID) = ["schedule_1", "schedule_2"] :=
  ⟨(deleteMachine_cascades_to_schedules twoMachineSchedules "machine_1" exampleMutation
      (by decide)).1 ⟨exampleRemoteMachine, by decide, rfl⟩,
    by decide, by decide⟩

/-! ## The backup log as a ring read newest first -/

theorem set_replicate_append (z x : BackupLog) (r : List BackupLog) :
    ∀ m : Nat, (List.replicate (m + 1) z ++ r).set m x = List.replicate m z ++ x :: r
  | 0 => rfl
  | m + 1 => by
    rw [List.replicate_succ, List.cons_append, List.set_cons_succ, set_replicate_append z x r m,
      List.replicate_succ, List.cons_append]

theorem getBackupLogs_fill (n : Nat) :
    ∀ (rest before : List BackupLog), n = before.length + rest.length →
      (rest.enumFrom before.length).foldl (fun logs il => logs.set (n - 1 - il.1) il.2)
        (List.replicate rest.length BackupLog.zero ++ before.reverse) = (before ++ rest).reverse
  | [], before, _ => by simp
  | log :: rest, before, h => by
    have hidx : n - 1 - before.length = rest.length := by
      simp only [List.length_cons] at h
      omega
    rw [List.enumFrom_cons, List.foldl_cons]
    simp only [List.length_cons]
    rw [hidx, set_replicate_append]
    have hnext := getBackupLogs_fill n rest (before ++ [log]) (by
      simp only [List.length_cons, List.length_append, List.length_nil] at h ⊢
      omega)
    simp only [List.length_append, List.length_cons, List.length_nil, List.reverse_append,
      List.reverse_cons, List.reverse_nil, List.nil_append, List.singleton_append,
      List.append_assoc, zero_add] at hnext
    simpa using hnext

theorem getBackupLogs_eq_reverse (c : Config) : c.GetBackupLogs = c.logs.reverse := by
  have h := getBackupLogs_fill c.logs.length c.logs [] (by simp)
  simpa [Config.GetBackupLogs, List.enum] using h

theorem addBackupLog_logs (c : Config) (log : BackupLog) (now : Int) :
    (c.AddBackupLog log now).logs =
      (c.logs ++ [storedLog (log, now)]).drop (c.logs.length + 1 - 1000) := by
  unfold Config.AddBackupLog storedLog
  simp only [List.length_append, List.length_cons, List.length_nil]
  split
  · rfl
  · rename_i h
    have : c.logs.length + 1 - 1000 = 0 := by omega
    rw [this, List.drop_zero]

theorem addBackupLogs_logs :
    ∀ (calls : List (BackupLog × Int)) (c : Config), c.logs.length ≤ 1000 →
      (addBackupLogs c calls).logs =
        (c.logs ++ calls.map storedLog).drop (c.logs.length + calls.length - 1000)
  | [], c, h => by
    have : c.logs.length - 1000 = 0 := by omega
    simp [addBackupLogs, this]
  | call :: rest, c, h => by
    have hstep : addBackupLogs c (call :: rest) =
        addBackupLogs (c.AddBackupLog call.1 call.2) rest := rfl
    have hlogs := addBackupLog_logs c call.1 call.2
    have hlen : (c.AddBackupLog call.1 call.2).logs.length =
        min (c.logs.length + 1) 1000 := by
      rw [hlogs]
      simp only [List.length_drop, List.length_append, List.length_cons, List.length_nil]
      omega
    rw [hstep, addBackupLogs_logs rest _ (by rw [hlen]; omega), hlen, hlogs]
    simp only [Prod.mk.eta, List.map_cons, List.length_cons]
    by_cases hfull : c.logs.length = 1000
    · have h1 : c.logs.length + 1 - 1000 = 1 := by omega
      have h2 : min (c.logs.length + 1) 1000 + rest.length - 1000 = rest.length := by omega
      have h3 : c.logs.length + (rest.length + 1) - 1000 = rest.length + 1 := by omega
      rw [h1, h2, h3]
      have h4 : List.drop 1 (c.logs ++ [storedLog call]) ++ List.map storedLog rest =
          List.drop 1 (c.logs ++ storedLog call :: List.map storedLog rest) := by
        cases hc : c.logs with
        | nil => rw [hc] at hfull; simp at hfull
        | cons a l => simp
      rw [h4, List.drop_drop, Nat.add_comm]
    · have h1 : c.logs.length + 1 - 1000 = 0 := by omega
      have h2 : min (c.logs.length + 1) 1000 + rest.length - 1000 =
          c.logs.length + (rest.length + 1) - 1000 := by omega
      rw [h1, h2, List.drop_zero]
      simp

/-- C21: starting from an empty log, after `AddBackupLog` has been called with
the entries e1..en in that order, `GetBackupLogs` returns the last min(n, 1000)
of them in reverse order, en first, each being its argument with only the `ID`
replaced by the clock reading; the stored log holds at most 1000 entries, and
`GetBackupLogs`, which only reads the configuration, returns the stored log
reversed. -/
theorem backup_log_is_ring_newest_first (c : Config) (calls : List (BackupLog × Int))
    (hempty : c.logs = []) :
    (addBackupLogs c calls).GetBackupLogs =
        ((calls.map fun call => { call.1 with ID := toString call.2 }).drop
          (calls.length - 1000)).reverse ∧
      (addBackupLogs c calls).GetBackupLogs.length = min calls.length 1000 ∧
      (addBackupLogs c calls).logs.length ≤ 1000 ∧
      (addBackupLogs c calls).GetBackupLogs = (addBackupLogs c calls).logs.reverse := by
  have hlogs := addBackupLogs_logs calls c (by simp [hempty])
  simp only [hempty, List.nil_append, List.length_nil, zero_add] at hlogs
  have hrev := getBackupLogs_eq_reverse (addBackupLogs c calls)
  refine ⟨?_, ?_, ?_, hrev⟩
  · rw [hrev, hlogs]
    rfl
  · rw [hrev, hlogs]
    simp only [List.length_reverse, List.length_drop, List.length_map]
    omega
  · rw [hlogs]
    simp only [List.length_drop, List.length_map]
    omega

/-- Witness for `backup_log_is_ring_newest_first`: three entries added to the
empty log of the example configuration are read back newest first. -/
theorem backup_log_is_ring_newest_first_witness :
    ((addBackupLogs (exampleConfig googleAbsent) exampleLogCalls).GetBackupLogs.map
        fun log => (log.ID, log.TableName)) =
        [("1704164648000000003", "wiki"), ("1704164648000000002", "crm"),
          ("1704164648000000001", "shop")] ∧
      (addBackupLogs (exampleConfig googleAbsent) exampleLogCalls).GetBackupLogs =
        ((exampleLogCalls.map fun call => { call.1 with ID := toString call.2 }).drop
          (exampleLogCalls.length - 1000)).reverse :=
  ⟨by decide,
    (backup_log_is_ring_newest_first (exampleConfig googleAbsent) exampleLogCalls rfl).1⟩

/-! ## Log entries written by a job -/

theorem ensureValidToken_logs (t : TokenExternals) (w : World) :
    (ensureValidToken t w).1.config.logs = w.config.logs := by
  unfold ensureValidToken RefreshToken
  split
  · rfl
  · split
    · split
      · rfl
      · split <;> rfl
    · rfl

theorem uploadFile_logs (filePath fileName : String) (x : DbExternals) (w : World) :
    (UploadFile filePath fileName x w).1.config.logs = w.config.logs := by
  have ht := ensureValidToken_logs x.uploadToken w
  unfold UploadFile
  rcases hev : ensureValidToken x.uploadToken w with ⟨w1, r⟩
  rw [hev] at ht
  cases r with
  | some e => exact ht
  | none =>
    simp only
    split
    · exact ht
    · split
      · exact ht
      · exact ht

theorem logToSheets_logs (log : BackupLog) (x : DbExternals) (w : World) :
    (LogToSheets log x w).config.logs = w.config.logs := by
  have ht := ensureValidToken_logs x.sheetsToken (w.emit (.logToSheets log))
  unfold LogToSheets
  simp only
  split
  · rfl
  · rcases hev : ensureValidToken x.sheetsToken (w.emit (.logToSheets log)) with ⟨w1, r⟩
    rw [hev] at ht
    cases r with
    | some e => exact ht
    | none =>
      simp only
      split
      · exact ht
      · exact ht

theorem uploadStage_logs (machine : Machine) (database filePath : String)
    (result : BackupResult) (x : DbExternals) (w : World) :
    (uploadStage machine database filePath result x w).config.logs = w.config.logs := by
  have hu := uploadFile_logs filePath result.FileName x w
  unfold uploadStage
  split
  · rcases hup : UploadFile filePath result.FileName x w with ⟨w1, e | driveID⟩
    · rw [hup] at hu
      exact (logToSheets_logs _ x w1).trans hu
    · rw [hup] at hu
      simp only
      exact (logToSheets_logs _ x w1).trans hu
  · rfl

theorem dumpDatabaseForMachine_config (machine : Machine) (database filePath mysqlHost : String)
    (mysqlPort : Int) (x : DbExternals) (w : World) :
    (dumpDatabaseForMachine machine database filePath mysqlHost mysqlPort x w).1.config =
      w.config := by
  unfold dumpDatabaseForMachine
  split
  · rfl
  · simp only
    split
    · rfl
    · split
      · rfl
      · split <;> rfl

theorem compressFileGzip_config (srcPath dstPath : String) (x : DbExternals) (w : World) :
    (compressFileGzip srcPath dstPath x w).1.config = w.config := by
  unfold compressFileGzip
  split
  · unfold osRename
    split
    · rfl
    · split <;> rfl
  · split
    · rfl
    · split
      · rfl
      · simp only
        split <;> rfl

theorem compressStage_config (fileName filePath : String) (result : BackupResult)
    (x : DbExternals) (w : World) :
    (compressStage fileName filePath result x w).1.config = w.config := by
  have hc := compressFileGzip_config filePath (filePath ++ ".gz") x w
  unfold compressStage
  simp only
  rcases hg : compressFileGzip filePath (filePath ++ ".gz") x w with ⟨w1, _ | e⟩
  · rw [hg] at hc
    simp only
    split
    · exact hc
    · exact hc
  · rw [hg] at hc
    exact hc

theorem addBackupLog_logs_congr (c1 c2 : Config) (log : BackupLog) (now : Int)
    (h : c1.logs = c2.logs) : (c1.AddBackupLog log now).logs = (c2.AddBackupLog log now).logs := by
  rw [addBackupLog_logs, addBackupLog_logs, h]

theorem addBackupLogs_logs_congr :
    ∀ (calls : List (BackupLog × Int)) (c1 c2 : Config), c1.logs = c2.logs →
      (addBackupLogs c1 calls).logs = (addBackupLogs c2 calls).logs
  | [], _, _, h => h
  | call :: rest, c1, c2, h =>
    addBackupLogs_logs_congr rest _ _ (addBackupLog_logs_congr c1 c2 call.1 call.2 h)

theorem backupDatabase_logs (machine : Machine) (sn bp ts mysqlHost : String)
    (mysqlPort : Int) (database : String) (x : DbExternals) (w : World) :
    (backupDatabase machine sn bp ts mysqlHost mysqlPort database x w).1.config.logs =
      (w.config.AddBackupLog
        { ID := "", Timestamp := x.logNow, MachineID := machine.ID, TableName := database,
          FileName := (backupDatabase machine sn bp ts mysqlHost mysqlPort database x w).2.FileName,
          FileSize := (backupDatabase machine sn bp ts mysqlHost mysqlPort database x w).2.FileSize,
          Success := (backupDatabase machine sn bp ts mysqlHost mysqlPort database x w).2.Success,
          Error := (backupDatabase machine sn bp ts mysqlHost mysqlPort database x w).2.Error,
          DriveID := "" } x.logIdNow).logs := by
  have hd := dumpDatabaseForMachine_config machine database
    (filepathJoin bp (artifactName sn database ts)) mysqlHost mysqlPort x w
  unfold backupDatabase
  simp only
  rcases hdump : dumpDatabaseForMachine machine database
      (filepathJoin bp (artifactName sn database ts)) mysqlHost mysqlPort x w with ⟨w1, e | u⟩
  · rw [hdump] at hd
    simp only
    exact addBackupLog_logs_congr _ _ _ _ (congrArg Config.logs hd)
  · rw [hdump] at hd
    simp only
    have key : ∀ r : BackupResult,
        (uploadStage machine database
          (compressStage (artifactName sn database ts)
            (filepathJoin bp (artifactName sn database ts)) r x w1).2.2
          (compressStage (artifactName sn database ts)
            (filepathJoin bp (artifactName sn database ts)) r x w1).2.1 x
          (compressStage (artifactName sn database ts)
            (filepathJoin bp (artifactName sn database ts)) r x w1).1).config.logs =
          w.config.logs := fun r =>
      (uploadStage_logs machine database _ _ x _).trans
        ((congrArg Config.logs (compressStage_config _ _ r x w1)).trans (congrArg Config.logs hd))
    split
    · exact addBackupLog_logs_congr _ _ _ _ (key _)
    · exact addBackupLog_logs_congr _ _ _ _ (key _)

theorem backupLoop_logs (machine : Machine) (sn bp ts mysqlHost : String) (mysqlPort : Int)
    (j : JobExternals) :
    ∀ (dbs : List String) (k : Nat) (w : World) (acc : List BackupResult),
      ∃ rs : List BackupResult,
        (backupLoop machine sn bp ts mysqlHost mysqlPort j k dbs w acc).2 = acc ++ rs ∧
          rs.length = dbs.length ∧
          (backupLoop machine sn bp ts mysqlHost mysqlPort j k dbs w acc).1.config.logs =
            (addBackupLogs w.config (jobLogCalls machine.ID j k dbs rs)).logs
  | [], k, w, acc => ⟨[], by simp [backupLoop], rfl, by simp [backupLoop, jobLogCalls, addBackupLogs]⟩
  | db :: rest, k, w, acc => by
    obtain ⟨rs, h1, h2, h3⟩ := backupLoop_logs machine sn bp ts mysqlHost mysqlPort j rest
      (k + 1) (backupDatabase machine sn bp ts mysqlHost mysqlPort db (j.perDatabase k) w).1
      (acc ++ [(backupDatabase machine sn bp ts mysqlHost mysqlPort db (j.perDatabase k) w).2])
    refine ⟨(backupDatabase machine sn bp ts mysqlHost mysqlPort db (j.perDatabase k) w).2 :: rs,
      ?_, by simp [h2], ?_⟩
    · rw [backupLoop]
      simp only
      rw [h1, List.append_assoc]
      rfl
    · rw [backupLoop]
      simp only
      rw [h3]
      exact addBackupLogs_logs_congr _ _ _
        (backupDatabase_logs machine sn bp ts mysqlHost mysqlPort db (j.perDatabase k) w)

theorem createBackupForMachine_logs (ctx : Context) (machine : Machine)
    (databases : List String) (j : JobExternals) (w : World) (results : List BackupResult)
    (h : (createBackupForMachine ctx machine databases j w).2 = .ok results) :
    results.length = databases.length ∧
      (createBackupForMachine ctx machine databases j w).1.config.logs =
        (addBackupLogs w.config (jobLogCalls machine.ID j 0 databases results)).logs := by
  have key : ∀ mysqlHost mysqlPort (w1 : World), w1.config = w.config →
      (backupLoop machine (sanitizeName machine.Name)
        (filepathJoin w.config.Backup.LocalPath machine.ID) j.timestamp mysqlHost mysqlPort j 0
        databases w1 []).2 = results →
      results.length = databases.length ∧
        (backupLoop machine (sanitizeName machine.Name)
          (filepathJoin w.config.Backup.LocalPath machine.ID) j.timestamp mysqlHost mysqlPort j 0
          databases w1 []).1.config.logs =
          (addBackupLogs w.config (jobLogCalls machine.ID j 0 databases results)).logs := by
    intro mysqlHost mysqlPort w1 hw1 hres
    obtain ⟨rs, e1, e2, e3⟩ := backupLoop_logs machine (sanitizeName machine.Name)
      (filepathJoin w.config.Backup.LocalPath machine.ID) j.timestamp mysqlHost mysqlPort j
      databases 0 w1 []
    rw [hres, List.nil_append] at e1
    subst e1
    rw [hw1] at e3
    exact ⟨e2, e3⟩
  rcases hmk : j.mkdirErr with _ | e
  · by_cases hk : machine.Kind = "remote"
    · rcases hport : createSSHTunnel j with e | port
      · simp [createBackupForMachine, hmk, hk, hport] at h
      · simp only [createBackupForMachine, hmk, hk, hport, if_true] at h ⊢
        injection h with h
        exact key _ _ _ rfl h
    · simp only [createBackupForMachine, hmk, hk, if_false] at h ⊢
      injection h with h
      exact key _ _ _ rfl h
  · simp [createBackupForMachine, hmk] at h

theorem getMachine_id (c : Config) (machineID : String) (machine : Machine)
    (h : c.GetMachine machineID = .ok machine) : machine.ID = machineID := by
  unfold Config.GetMachine at h
  rcases hf : c.Machines.find? (fun m => m.ID == machineID) with _ | m
  · rw [hf] at h
    cases h
  · rw [hf] at h
    injection h with h
    subst h
    simpa using List.find?_some hf

theorem jobLogCalls_mirror (machineID : String) (j : JobExternals) :
    ∀ (databases : List String) (results : List BackupResult) (k : Nat),
      results.length = databases.length →
      (jobLogCalls machineID j k databases results).length = databases.length ∧
        ((jobLogCalls machineID j k databases results).map fun call =>
          (call.1.MachineID, call.1.TableName, call.1.FileName, call.1.FileSize,
            call.1.Success, call.1.Error)) =
          (databases.zip results).map fun dr =>
            (machineID, dr.1, dr.2.FileName, dr.2.FileSize, dr.2.Success, dr.2.Error)
  | [], [], _, _ => ⟨rfl, rfl⟩
  | [], _ :: _, _, h => by simp at h
  | _ :: _, [], _, h => by simp at h
  | database :: databases, result :: results, k, h => by
    obtain ⟨h1, h2⟩ := jobLogCalls_mirror machineID j databases results (k + 1)
      (by simpa using h)
    constructor
    · simp [jobLogCalls, h1]
    · simp only [jobLogCalls, List.map_cons, List.zip_cons_cons, h2]

theorem results_databases_eq (databases : List String) (results : List BackupResult)
    (h : results.length = databases.length ∧
      ∀ i (h1 : i < results.length) (h2 : i < databases.length),
        (results.get ⟨i, h1⟩).Database = databases.get ⟨i, h2⟩) :
    results.map (fun r => r.Database) = databases := by
  apply List.ext_get
  · simp [h.1]
  · intro i h1 h2
    have := h.2 i (by simpa using h1) h2
    simpa using this

/-- C22: a job over n databases that returns its results has made exactly n
calls of `AddBackupLog`, one per database in input order and whatever that
database's outcome: the log afterwards is the log before with these n entries
added by `AddBackupLog`, and the i-th entry carries the machine's id, the i-th
database name, and the `FileName`, `FileSize`, `Success` and `Error` of the
i-th result, which is the result of that database. While the log stays within
its bound of 1000 the entries are appended at the end, with the `ID` from the
clock. -/
theorem job_appends_one_log_per_database (ctx : Context) (machineID : String)
    (databases : List String) (j : JobExternals) (w : World) (results : List BackupResult)
    (hres : (CreateMachineBackup ctx machineID databases j w).2 = .ok results) :
    results.length = databases.length ∧
      results.map (fun r => r.Database) = databases ∧
      (CreateMachineBackup ctx machineID databases j w).1.config.logs =
        (addBackupLogs w.config (jobLogCalls machineID j 0 databases results)).logs ∧
      (jobLogCalls machineID j 0 databases results).length = databases.length ∧
      ((jobLogCalls machineID j 0 databases results).map fun call =>
        (call.1.MachineID, call.1.TableName, call.1.FileName, call.1.FileSize,
          call.1.Success, call.1.Error)) =
        (databases.zip results).map (fun dr =>
          (machineID, dr.1, dr.2.FileName, dr.2.FileSize, dr.2.Success, dr.2.Error)) ∧
      (w.config.logs.length + databases.length ≤ 1000 →
        (CreateMachineBackup ctx machineID databases j w).1.config.logs =
          w.config.logs ++ (jobLogCalls machineID j 0 databases results).map storedLog) := by
  rcases hm : w.config.GetMachine machineID with e | machine
  · simp [CreateMachineBackup, hm] at hres
  · rw [createMachineBackup_eq ctx machineID databases j w machine hm] at hres ⊢
    have hid := getMachine_id _ _ _ hm
    obtain ⟨hlen, hlogs⟩ := createBackupForMachine_logs ctx machine databases j w results hres
    rw [hid] at hlogs
    have hdb := createBackupForMachine_results ctx machine databases j w
      (fun _ db r => r.Database = db)
      (fun mysqlHost mysqlPort i db w1 => backupDatabase_database machine _ _ _ mysqlHost
        mysqlPort db (j.perDatabase i) w1) results hres
    obtain ⟨hcalls, hmirror⟩ := jobLogCalls_mirror machineID j databases results 0 hlen
    refine ⟨hlen, results_databases_eq databases results hdb, hlogs, hcalls, hmirror, ?_⟩
    intro hbound
    rw [hlogs, addBackupLogs_logs _ _ (by omega), hcalls]
    have : w.config.logs.length + databases.length - 1000 = 0 := by omega
    rw [this, List.drop_zero]

/-- Witness for `job_appends_one_log_per_database`: a job over two databases
on the local example machine, the second of which fails to dump. -/
theorem job_appends_one_log_per_database_witness :
    ((CreateMachineBackup ⟨false⟩ "local" ["shop", "crm"]
        (exampleJob fun i => if i = 1 then dumpFails else smoothRun)
        (exampleWorld googleAbsent)).1.config.logs.map
      fun log => (log.MachineID, log.TableName, log.Success, log.Error)) =
        [("local", "shop", true, ""), ("local", "crm", false, "mariadb-dump failed: exit status 2")] ∧
      ∃ results,
        (CreateMachineBackup ⟨false⟩ "local" ["shop", "crm"]
          (exampleJob fun i => if i = 1 then dumpFails else smoothRun)
          (exampleWorld googleAbsent)).2 = .ok results ∧
        (CreateMachineBackup ⟨false⟩ "local" ["shop", "crm"]
          (exampleJob fun i => if i = 1 then dumpFails else smoothRun)
          (exampleWorld googleAbsent)).1.config.logs =
          (addBackupLogs (exampleWorld googleAbsent).config
            (jobLogCalls "local" (exampleJob fun i => if i = 1 then dumpFails else smoothRun) 0
              ["shop", "crm"] results)).logs :=
  ⟨by decide, _, rfl,
    (job_appends_one_log_per_database ⟨false⟩ "local" ["shop", "crm"]
      (exampleJob fun i => if i = 1 then dumpFails else smoothRun)
      (exampleWorld googleAbsent) _ rfl).2.2.1⟩

/-! ## The backup log across `Save` and `NewConfig` -/

theorem load_logs (c c2 : Config) (x : StoreExternals) (disk : ConfigDisk)
    (h : c.Load x disk = .ok c2) : c2.logs = c.logs ∧ c2.filePath = c.filePath := by
  unfold Config.Load at h
  split at h
  · cases h
  · split at h
    · cases h
    · split at h
      · injection h with h
        subst h
        exact ⟨rfl, rfl⟩
      · cases h
    · injection h with h
      subst h
      exact ⟨rfl, rfl⟩
    · cases h

theorem newConfig_logs_empty (configPath : String) (x : StoreExternals) (disk : ConfigDisk)
    (c : Config) (h : (NewConfig configPath x disk).2 = .ok c) : c.logs = [] := by
  unfold NewConfig at h
  simp only at h
  split at h
  · rename_i c2 hload
    injection h with h
    subst h
    exact (load_logs _ _ x disk hload).1
  · split at h
    · cases h
    · injection h with h
      subst h
      rfl
  · cases h

theorem save_then_load (c : Config) (x : StoreExternals) (disk : ConfigDisk) (receiver : Config)
    (hsave : (c.Save x disk).2 = none) (hread : x.readErr = none)
    (hpath : receiver.filePath = c.filePath) :
    receiver.Load x (c.Save x disk).1 = .ok (receiver.unmarshal c.marshal) := by
  unfold Config.Save at hsave ⊢
  rcases h1 : x.mkdirErr with _ | e
  · rcases h2 : x.nonceErr with _ | e
    · rcases h3 : x.writeErr with _ | e
      · simp only [Config.Load, hread, hpath, if_true]
      · simp [h1, h2, h3] at hsave
    · simp [h1, h2] at hsave
  · simp [h1] at hsave

/-- C23: a configuration `c` appends an entry with `AddBackupLog`, whose
closing `Save` succeeds; `NewConfig` is then called on the file just written,
on the same host. It returns a configuration with the exported fields of `c`
and with an empty backup log, while the configuration that saved holds the
entry: `Save` writes the exported fields only, and `logs` is not one of
them. -/
theorem backup_log_lost_on_reload (c : Config) (log : BackupLog) (now : Int)
    (x : StoreExternals) (disk : ConfigDisk) (hpath : c.filePath ≠ "")
    (hread : x.readErr = none) (hsave : ((c.AddBackupLog log now).Save x disk).2 = none) :
    ∃ c2, (NewConfig c.filePath x ((c.AddBackupLog log now).Save x disk).1).2 = .ok c2 ∧
      c2.marshal = c.marshal ∧ c2.GetBackupLogs = [] ∧
      (c.AddBackupLog log now).GetBackupLogs ≠ [] := by
  have hlast : (c.AddBackupLog log now).GetBackupLogs ≠ [] := by
    rw [getBackupLogs_eq_reverse, addBackupLog_logs]
    intro h
    have hl := congrArg List.length h
    simp only [List.length_reverse, List.length_drop, List.length_append, List.length_cons,
      List.length_nil] at hl
    omega
  have key : ∀ receiver : Config, receiver.filePath = c.filePath →
      receiver.Load x ((c.AddBackupLog log now).Save x disk).1 =
        .ok (receiver.unmarshal (c.AddBackupLog log now).marshal) := fun receiver hr =>
    save_then_load (c.AddBackupLog log now) x disk receiver hsave hread hr
  unfold NewConfig
  simp only
  rw [key _ (by simp [hpath, Config.AddBackupLog])]
  refine ⟨_, rfl, rfl, ?_, hlast⟩
  rw [getBackupLogs_eq_reverse]
  rfl

/-- Witness for `backup_log_lost_on_reload`: the example configuration logs a
backup of `shop` and saves to an empty disk; the configuration built from the
file has no entry, the one that saved has one. -/
theorem backup_log_lost_on_reload_witness :
    (((exampleConfig googleAbsent).AddBackupLog exampleLogEntry 1704164648).GetBackupLogs.map
        fun entry => (entry.ID, entry.TableName)) = [("1704164648", "shop")] ∧
      ∃ c2,
        (NewConfig (exampleConfig googleAbsent).filePath exampleStore
          (((exampleConfig googleAbsent).AddBackupLog exampleLogEntry 1704164648).Save
            exampleStore emptyDisk).1).2 = .ok c2 ∧
        c2.marshal = (exampleConfig googleAbsent).marshal ∧ c2.GetBackupLogs = [] ∧
        ((exampleConfig googleAbsent).AddBackupLog exampleLogEntry 1704164648).GetBackupLogs ≠
          [] :=
  ⟨by decide,
    backup_log_lost_on_reload (exampleConfig googleAbsent) exampleLogEntry 1704164648
      exampleStore emptyDisk (by decide) rfl rfl⟩

/-! ## The context of a job -/

theorem TraceGrows.keeps {w w2 : World} (h : TraceGrows w w2) (e : Event) (he : e ∈ w.trace) :
    e ∈ w2.trace := by
  obtain ⟨es, h1, -⟩ := h
  rw [h1]
  exact List.mem_append_left _ he

theorem dumpDatabaseForMachine_started (machine : Machine)
    (database filePath mysqlHost : String) (mysqlPort : Int) (x : DbExternals) (w : World)
    (h : x.dumpLookPathErr = none) :
    Event.commandRun "mariadb-dump" (dumpArgs machine database mysqlHost mysqlPort) ∈
      (dumpDatabaseForMachine machine database filePath mysqlHost mysqlPort x w).1.trace := by
  unfold dumpDatabaseForMachine
  rw [h]
  simp only
  split
  · simp [World.emit]
  · split
    · simp [World.emit]
    · split <;> simp [World.emit]

theorem backupDatabase_after_dump (machine : Machine) (sn bp ts mysqlHost : String)
    (mysqlPort : Int) (database : String) (x : DbExternals) (w : World) :
    TraceGrows
      (dumpDatabaseForMachine machine database (filepathJoin bp (artifactName sn database ts))
        mysqlHost mysqlPort x w).1
      (backupDatabase machine sn bp ts mysqlHost mysqlPort database x w).1 := by
  unfold backupDatabase
  simp only
  rcases hdump : dumpDatabaseForMachine machine database
      (filepathJoin bp (artifactName sn database ts)) mysqlHost mysqlPort x w with ⟨w1, e | u⟩
  · exact TraceGrows.of_trace_eq rfl
  · simp only
    have key : ∀ r : BackupResult,
        TraceGrows w1
          (uploadStage machine database
            (compressStage (artifactName sn database ts)
              (filepathJoin bp (artifactName sn database ts)) r x w1).2.2
            (compressStage (artifactName sn database ts)
              (filepathJoin bp (artifactName sn database ts)) r x w1).2.1 x
            (compressStage (artifactName sn database ts)
              (filepathJoin bp (artifactName sn database ts)) r x w1).1) := fun r =>
      (compressStage_traceGrows _ _ r x w1).andThen
        (uploadStage_traceGrows machine database _ _ x _)
    split
    · exact (key _).andThen (TraceGrows.of_trace_eq rfl)
    · exact (key _).andThen (TraceGrows.of_trace_eq rfl)

theorem backupLoop_dump_started (machine : Machine) (sn bp ts mysqlHost : String)
    (mysqlPort : Int) (j : JobExternals) :
    ∀ (dbs : List String) (k : Nat) (w : World) (acc : List BackupResult) (i : Nat)
      (h : i < dbs.length), (j.perDatabase (k + i)).dumpLookPathErr = none →
      Event.commandRun "mariadb-dump" (dumpArgs machine (dbs.get ⟨i, h⟩) mysqlHost mysqlPort) ∈
        (backupLoop machine sn bp ts mysqlHost mysqlPort j k dbs w acc).1.trace
  | [], _, _, _, i, h, _ => absurd h (Nat.not_lt_zero i)
  | db :: rest, k, w, acc, 0, _, hx => by
    rw [backupLoop]
    simp only
    apply (backupLoop_traceGrows machine sn bp ts mysqlHost mysqlPort j rest (k + 1) _ _).keeps
    apply (backupDatabase_after_dump machine sn bp ts mysqlHost mysqlPort db _ w).keeps
    exact dumpDatabaseForMachine_started machine db _ mysqlHost mysqlPort _ w hx
  | db :: rest, k, w, acc, i + 1, h, hx => by
    rw [backupLoop]
    simp only
    have hi : i < rest.length := by simpa using h
    have := backupLoop_dump_started machine sn bp ts mysqlHost mysqlPort j rest (k + 1)
      (backupDatabase machine sn bp ts mysqlHost mysqlPort db (j.perDatabase k) w).1
      (acc ++ [(backupDatabase machine sn bp ts mysqlHost mysqlPort db (j.perDatabase k) w).2])
      i hi (by rw [Nat.add_assoc, Nat.add_comm 1 i]; exact hx)
    simpa using this

theorem createBackupForMachine_dump_started (ctx : Context) (machine : Machine)
    (databases : List String) (j : JobExternals) (w : World) (hdir : j.mkdirErr = none)
    (htun : machine.Kind = "remote" → ∃ port, createSSHTunnel j = .ok port)
    (i : Nat) (h : i < databases.length) (hx : (j.perDatabase i).dumpLookPathErr = none) :
    ∃ mysqlHost mysqlPort,
      Event.commandRun "mariadb-dump"
          (dumpArgs machine (databases.get ⟨i, h⟩) mysqlHost mysqlPort) ∈
        (createBackupForMachine ctx machine databases j w).1.trace := by
  have key := fun mysqlHost mysqlPort w1 =>
    backupLoop_dump_started machine (sanitizeName machine.Name)
      (filepathJoin w.config.Backup.LocalPath machine.ID) j.timestamp mysqlHost mysqlPort j
      databases 0 w1 [] i h (by rw [Nat.zero_add]; exact hx)
  by_cases hk : machine.Kind = "remote"
  · obtain ⟨port, hport⟩ := htun hk
    refine ⟨"localhost", (port : Int), ?_⟩
    simp only [createBackupForMachine, hdir, hk, hport, if_true]
    exact mem_trace_emit _ _ _ (key _ _ _)
  · refine ⟨machine.MySQL.Host, machine.MySQL.Port, ?_⟩
    simp only [createBackupForMachine, hdir, hk, if_false]
    exact key _ _ _

/-- C27 (counterexample): the context is already cancelled when the job is
started, the machine is the local example machine and every stage succeeds. The
dump process and the compression process are started all the same. -/
theorem cancelled_context_still_dumps :
    Event.commandRun "mariadb-dump" (dumpArgs exampleLocalMachine "shop" "localhost" 3306) ∈
        (CreateMachineBackup ⟨true⟩ "local" ["shop"] (exampleJob fun _ => smoothRun)
          (exampleWorld googleAbsent)).1.trace ∧
      Event.commandRun "gzip" ["-c"] ∈
        (CreateMachineBackup ⟨true⟩ "local" ["shop"] (exampleJob fun _ => smoothRun)
          (exampleWorld googleAbsent)).1.trace := by
  decide

/-- C27 (amended): the context passed to `CreateMachineBackup` is never
consulted: whatever the context, cancelled or not, the job ends with the same
results, the same actions and the same files as with a live context; and in a
job that is not aborted a dump process is started for every database for which
`mariadb-dump` is found. -/
theorem context_is_not_consulted (ctx : Context) (machineID : String)
    (databases : List String) (j : JobExternals) (w : World) (machine : Machine)
    (hm : w.config.GetMachine machineID = .ok machine) (hdir : j.mkdirErr = none)
    (htun : machine.Kind = "remote" → ∃ port, createSSHTunnel j = .ok port) :
    (CreateMachineBackup ctx machineID databases j w).2 =
        (CreateMachineBackup ⟨false⟩ machineID databases j w).2 ∧
      (CreateMachineBackup ctx machineID databases j w).1.trace =
        (CreateMachineBackup ⟨false⟩ machineID databases j w).1.trace ∧
      (CreateMachineBackup ctx machineID databases j w).1.files =
        (CreateMachineBackup ⟨false⟩ machineID databases j w).1.files ∧
      ∀ (i : Nat) (h : i < databases.length), (j.perDatabase i).dumpLookPathErr = none →
        ∃ mysqlHost mysqlPort,
          Event.commandRun "mariadb-dump"
              (dumpArgs machine (databases.get ⟨i, h⟩) mysqlHost mysqlPort) ∈
            (CreateMachineBackup ctx machineID databases j w).1.trace := by
  refine ⟨rfl, rfl, rfl, ?_⟩
  intro i h hx
  rw [createMachineBackup_eq ctx machineID databases j w machine hm]
  exact createBackupForMachine_dump_started ctx machine databases j w hdir htun i h hx

/-- Witness for `context_is_not_consulted`: the remote example machine, two
databases and a cancelled context. -/
theorem context_is_not_consulted_witness :
    ∃ mysqlHost mysqlPort,
      Event.commandRun "mariadb-dump"
          (dumpArgs exampleRemoteMachine (["shop", "crm"].get ⟨1, by decide⟩) mysqlHost
            mysqlPort) ∈
        (CreateMachineBackup ⟨true⟩ "machine_1" ["shop", "crm"] (exampleJob fun _ => smoothRun)
          (exampleWorld googleAbsent)).1.trace :=
  (context_is_not_consulted ⟨true⟩ "machine_1" ["shop", "crm"] (exampleJob fun _ => smoothRun)
    (exampleWorld googleAbsent) exampleRemoteMachine rfl rfl (fun _ => ⟨40123, rfl⟩)).2.2.2 1
    (by decide) rfl

/-! ## Neutralising definer clauses -/

theorem replaceAllChars_skip (old new : List Char) :
    ∀ (k : Nat) (s : List Char),
      replaceAllChars old new k s = replaceAllChars old new 0 (s.drop k)
  | 0, _ => rfl
  | _ + 1, [] => by simp [replaceAllChars]
  | k + 1, _ :: rest => by
    rw [replaceAllChars, List.drop_succ_cons]
    exact replaceAllChars_skip old new k rest

theorem neutralizeDefiner_nil : neutralizeDefiner [] = [] := rfl

theorem neutralizeDefiner_match (rest : List Char) :
    neutralizeDefiner ("DEFINER=".data ++ rest) = "-- DEFINER=".data ++ neutralizeDefiner rest := by
  unfold neutralizeDefiner
  show replaceAllChars "DEFINER=".data "-- DEFINER=".data 0
    ('D' :: ("EFINER=".data ++ rest)) = _
  rw [replaceAllChars, if_pos (by simp [List.isPrefixOf]), replaceAllChars_skip]
  rfl

theorem neutralizeDefiner_step (c : Char) (rest : List Char)
    (h : "DEFINER=".data.isPrefixOf (c :: rest) = false) :
    neutralizeDefiner (c :: rest) = c :: neutralizeDefiner rest := by
  unfold neutralizeDefiner
  rw [replaceAllChars, if_neg (by simp [h])]

theorem definer_cases (s : List Char) :
    s = [] ∨ (∃ rest, s = "DEFINER=".data ++ rest) ∨
      ∃ c rest, s = c :: rest ∧ "DEFINER=".data.isPrefixOf (c :: rest) = false := by
  rcases s with _ | ⟨c, rest⟩
  · exact Or.inl rfl
  · right
    by_cases h : "DEFINER=".data.isPrefixOf (c :: rest) = true
    · left
      obtain ⟨t, ht⟩ := List.isPrefixOf_iff_prefix.1 h
      exact ⟨t, ht.symm⟩
    · right
      exact ⟨c, rest, rfl, Bool.eq_false_iff.2 h⟩

theorem countOccurrences_match (rest : List Char) :
    countOccurrences "DEFINER=".data ("DEFINER=".data ++ rest) =
      1 + countOccurrences "DEFINER=".data rest := by
  show countOccurrences ['D', 'E', 'F', 'I', 'N', 'E', 'R', '=']
    ('D' :: 'E' :: 'F' :: 'I' :: 'N' :: 'E' :: 'R' :: '=' :: rest) = _
  simp [countOccurrences, List.isPrefixOf]

theorem countOccurrences_step (c : Char) (rest : List Char)
    (h : "DEFINER=".data.isPrefixOf (c :: rest) = false) :
    countOccurrences "DEFINER=".data (c :: rest) = countOccurrences "DEFINER=".data rest := by
  rw [countOccurrences, if_neg (by simp [h]), Nat.zero_add]

theorem neutralizeDefiner_length (s : List Char) :
    (neutralizeDefiner s).length = s.length + 3 * countOccurrences "DEFINER=".data s ∧
      String.utf8Len (neutralizeDefiner s) =
        String.utf8Len s + 3 * countOccurrences "DEFINER=".data s := by
  suffices key : ∀ (n : Nat) (s : List Char), s.length = n →
      (neutralizeDefiner s).length = s.length + 3 * countOccurrences "DEFINER=".data s ∧
        String.utf8Len (neutralizeDefiner s) =
          String.utf8Len s + 3 * countOccurrences "DEFINER=".data s from key _ s rfl
  intro n
  induction n using Nat.strong_induction_on with
  | _ n ih =>
    intro s hn
    rcases definer_cases s with rfl | ⟨rest, rfl⟩ | ⟨c, rest, rfl, hc⟩
    · exact ⟨rfl, rfl⟩
    · have hlt : rest.length < n := by
        rw [← hn, List.length_append]
        have : "DEFINER=".data.length = 8 := rfl
        omega
      obtain ⟨h1, h2⟩ := ih rest.length hlt rest rfl
      have e1 : "DEFINER=".data.length = 8 := rfl
      have e2 : "-- DEFINER=".data.length = 11 := rfl
      have e3 : String.utf8Len "DEFINER=".data = 8 := by decide
      have e4 : String.utf8Len "-- DEFINER=".data = 11 := by decide
      rw [neutralizeDefiner_match, countOccurrences_match, List.length_append,
        List.length_append, String.utf8Len_append, String.utf8Len_append, h1, h2, e1, e2, e3, e4]
      constructor <;> omega
    · have hlt : rest.length < n := by
        rw [← hn, List.length_cons]
        omega
      obtain ⟨h1, h2⟩ := ih rest.length hlt rest rfl
      rw [neutralizeDefiner_step c rest hc, countOccurrences_step c rest hc, List.length_cons,
        List.length_cons, String.utf8Len_cons, String.utf8Len_cons, h1, h2]
      constructor <;> omega

theorem neutralizeDefiner_unchanged (s : List Char) :
    countOccurrences "DEFINER=".data s = 0 → neutralizeDefiner s = s := by
  suffices key : ∀ (n : Nat) (s : List Char), s.length = n →
      countOccurrences "DEFINER=".data s = 0 → neutralizeDefiner s = s from key _ s rfl
  intro n
  induction n using Nat.strong_induction_on with
  | _ n ih =>
    intro s hn h0
    rcases definer_cases s with rfl | ⟨rest, rfl⟩ | ⟨c, rest, rfl, hc⟩
    · rfl
    · rw [countOccurrences_match] at h0
      omega
    · have hlt : rest.length < n := by
        rw [← hn, List.length_cons]
        omega
      rw [countOccurrences_step c rest hc] at h0
      rw [neutralizeDefiner_step c rest hc, ih rest.length hlt rest rfl h0]

theorem prefix_of_neutralizeDefiner :
    ∀ (u s : List Char), '-' ∉ u → u <+: neutralizeDefiner s → u <+: s
  | [], _, _, _ => List.nil_prefix
  | a :: u, s, hu, hp => by
    have ha : a ≠ '-' := fun h => hu (h ▸ List.mem_cons_self _ _)
    have hu2 : '-' ∉ u := fun h => hu (List.mem_cons_of_mem _ h)
    rcases definer_cases s with rfl | ⟨rest, rfl⟩ | ⟨c, rest, rfl, hc⟩
    · rw [neutralizeDefiner_nil] at hp
      exact hp
    · rw [neutralizeDefiner_match] at hp
      have hp2 : a :: u <+: '-' :: ("- DEFINER=".data ++ neutralizeDefiner rest) := hp
      rw [List.cons_prefix_cons] at hp2
      exact absurd hp2.1 ha
    · rw [neutralizeDefiner_step c rest hc, List.cons_prefix_cons] at hp
      rw [List.cons_prefix_cons]
      exact ⟨hp.1, prefix_of_neutralizeDefiner u rest hu2 hp.2⟩

theorem peel_before_definer (x : Char) (xs pre post : List Char) (hx : x ≠ 'D')
    (h : x :: xs = pre ++ "DEFINER=".data ++ post) :
    ∃ pre2, pre = x :: pre2 ∧ xs = pre2 ++ "DEFINER=".data ++ post := by
  rcases pre with _ | ⟨p, pre2⟩
  · have h2 : x :: xs = 'D' :: ("EFINER=".data ++ post) := h
    injection h2 with h3 _
    exact absurd h3 hx
  · have h2 : x :: xs = p :: (pre2 ++ "DEFINER=".data ++ post) := h
    injection h2 with h3 h4
    exact ⟨pre2, by rw [h3], h4⟩

theorem neutralizeDefiner_preceded (s : List Char) :
    ∀ pre post : List Char, neutralizeDefiner s = pre ++ "DEFINER=".data ++ post →
      "-- ".data <:+ pre := by
  suffices key : ∀ (n : Nat) (s : List Char), s.length = n →
      ∀ pre post : List Char, neutralizeDefiner s = pre ++ "DEFINER=".data ++ post →
        "-- ".data <:+ pre from key _ s rfl
  intro n
  induction n using Nat.strong_induction_on with
  | _ n ih =>
    intro s hn pre post h
    rcases definer_cases s with rfl | ⟨rest, rfl⟩ | ⟨c, rest, rfl, hc⟩
    · rw [neutralizeDefiner_nil] at h
      have hl := congrArg List.length h
      simp at hl
      omega
    · have hlt : rest.length < n := by
        rw [← hn, List.length_append]
        have : "DEFINER=".data.length = 8 := rfl
        omega
      rw [neutralizeDefiner_match] at h
      have h0 : '-' :: '-' :: ' ' :: 'D' :: 'E' :: 'F' :: 'I' :: 'N' :: 'E' :: 'R' :: '=' ::
          neutralizeDefiner rest = pre ++ "DEFINER=".data ++ post := h
      obtain ⟨p1, e1, h1⟩ := peel_before_definer _ _ _ _ (by decide) h0
      obtain ⟨p2, e2, h2⟩ := peel_before_definer _ _ _ _ (by decide) h1
      obtain ⟨p3, e3, h3⟩ := peel_before_definer _ _ _ _ (by decide) h2
      subst e1 e2 e3
      rcases p3 with _ | ⟨d, p4⟩
      · exact List.suffix_refl _
      · have h3b : 'D' :: 'E' :: 'F' :: 'I' :: 'N' :: 'E' :: 'R' :: '=' ::
            neutralizeDefiner rest = d :: (p4 ++ "DEFINER=".data ++ post) := h3
        injection h3b with hd h4
        obtain ⟨p5, e5, h5⟩ := peel_before_definer _ _ _ _ (by decide) h4
        obtain ⟨p6, e6, h6⟩ := peel_before_definer _ _ _ _ (by decide) h5
        obtain ⟨p7, e7, h7⟩ := peel_before_definer _ _ _ _ (by decide) h6
        obtain ⟨p8, e8, h8⟩ := peel_before_definer _ _ _ _ (by decide) h7
        obtain ⟨p9, e9, h9⟩ := peel_before_definer _ _ _ _ (by decide) h8
        obtain ⟨p10, e10, h10⟩ := peel_before_definer _ _ _ _ (by decide) h9
        obtain ⟨p11, e11, h11⟩ := peel_before_definer _ _ _ _ (by decide) h10
        subst e5 e6 e7 e8 e9 e10 e11
        have hs := ih rest.length hlt rest rfl p11 post h11
        obtain ⟨t, ht⟩ := hs
        refine ⟨'-' :: '-' :: ' ' :: d :: 'E' :: 'F' :: 'I' :: 'N' :: 'E' :: 'R' :: '=' :: t, ?_⟩
        rw [← ht]
        rfl
    · have hlt : rest.length < n := by
        rw [← hn, List.length_cons]
        omega
      rw [neutralizeDefiner_step c rest hc] at h
      rcases pre with _ | ⟨p, pre2⟩
      · exfalso
        have hp : "DEFINER=".data <+: neutralizeDefiner (c :: rest) := by
          rw [neutralizeDefiner_step c rest hc, h]
          exact ⟨post, rfl⟩
        have := prefix_of_neutralizeDefiner _ _ (by decide) hp
        rw [← List.isPrefixOf_iff_prefix, hc] at this
        cases this
      · have h2 : c :: neutralizeDefiner rest = p :: (pre2 ++ "DEFINER=".data ++ post) := h
        injection h2 with _ h3
        obtain ⟨t, ht⟩ := ih rest.length hlt rest rfl pre2 post h3
        exact ⟨p :: t, by rw [← ht]; rfl⟩

/-- C26: when the dump of a database succeeds, the text written to the
artifact is the dump output with every occurrence of `DEFINER=` replaced by
`-- DEFINER=`: the filter maps the empty text to itself, a text starting with
`DEFINER=` to `-- DEFINER=` followed by the filtered rest, and any other text
to its first character followed by the filtered rest. Every occurrence of
`DEFINER=` in the written text is immediately preceded by `-- `, the written
length, in characters and in bytes, is the output length plus 3 times the
number of occurrences, and an output without `DEFINER=` is written
unchanged. -/
theorem definer_clauses_neutralised (machine : Machine)
    (database filePath mysqlHost : String) (mysqlPort : Int) (x : DbExternals) (w : World)
    (hok : (dumpDatabaseForMachine machine database filePath mysqlHost mysqlPort x w).2 =
      .ok ()) :
    (dumpDatabaseForMachine machine database filePath mysqlHost mysqlPort x w).1.files filePath =
        some (stringsReplaceAll x.dumpStdout "DEFINER=" "-- DEFINER=") ∧
      (stringsReplaceAll x.dumpStdout "DEFINER=" "-- DEFINER=").data =
        neutralizeDefiner x.dumpStdout.data ∧
      (neutralizeDefiner [] = [] ∧
        (∀ rest, neutralizeDefiner ("DEFINER=".data ++ rest) =
          "-- DEFINER=".data ++ neutralizeDefiner rest) ∧
        ∀ c rest, "DEFINER=".data.isPrefixOf (c :: rest) = false →
          neutralizeDefiner (c :: rest) = c :: neutralizeDefiner rest) ∧
      (∀ pre post : List Char,
        (stringsReplaceAll x.dumpStdout "DEFINER=" "-- DEFINER=").data =
          pre ++ "DEFINER=".data ++ post → "-- ".data <:+ pre) ∧
      (stringsReplaceAll x.dumpStdout "DEFINER=" "-- DEFINER=").length =
        x.dumpStdout.length + 3 * countOccurrences "DEFINER=".data x.dumpStdout.data ∧
      (stringsReplaceAll x.dumpStdout "DEFINER=" "-- DEFINER=").utf8ByteSize =
        x.dumpStdout.utf8ByteSize + 3 * countOccurrences "DEFINER=".data x.dumpStdout.data ∧
      (countOccurrences "DEFINER=".data x.dumpStdout.data = 0 →
        stringsReplaceAll x.dumpStdout "DEFINER=" "-- DEFINER=" = x.dumpStdout) := by
  have hfile : (dumpDatabaseForMachine machine database filePath mysqlHost mysqlPort x w).1.files
      filePath = some (stringsReplaceAll x.dumpStdout "DEFINER=" "-- DEFINER=") := by
    unfold dumpDatabaseForMachine at hok ⊢
    rcases h1 : x.dumpLookPathErr with _ | e
    · rcases h2 : x.dumpRunErr with _ | e
      · by_cases h3 : x.dumpStdout.utf8ByteSize = 0
        · simp [h1, h2, h3] at hok
        · rcases h4 : x.dumpWriteErr with _ | e
          · simp [h3, FileSystem.write]
          · simp [h1, h2, h3, h4] at hok
      · simp [h1, h2] at hok
    · simp [h1] at hok
  have hlen := neutralizeDefiner_length x.dumpStdout.data
  refine ⟨hfile, rfl, ⟨neutralizeDefiner_nil, neutralizeDefiner_match, neutralizeDefiner_step⟩,
    neutralizeDefiner_preceded x.dumpStdout.data, hlen.1, hlen.2, ?_⟩
  intro h0
  show String.mk (neutralizeDefiner x.dumpStdout.data) = x.dumpStdout
  rw [neutralizeDefiner_unchanged _ h0]

/-- Witness for `definer_clauses_neutralised`: the dump of the database `shop`
whose output is `CREATE DEFINER=root VIEW v AS SELECT 1;`. -/
theorem definer_clauses_neutralised_witness :
    stringsReplaceAll smoothRun.dumpStdout "DEFINER=" "-- DEFINER=" =
        "CREATE -- DEFINER=root VIEW v AS SELECT 1;" ∧
      countOccurrences "DEFINER=".data smoothRun.dumpStdout.data = 1 ∧
      (dumpDatabaseForMachine exampleLocalMachine "shop" "/var/backups/mysql/local/shop.sql"
          "localhost" 3306 smoothRun (exampleWorld googleAbsent)).1.files
        "/var/backups/mysql/local/shop.sql" =
        some (stringsReplaceAll smoothRun.dumpStdout "DEFINER=" "-- DEFINER=") :=
  ⟨by decide, by decide,
    (definer_clauses_neutralised exampleLocalMachine "shop" "/var/backups/mysql/local/shop.sql"
      "localhost" 3306 smoothRun (exampleWorld googleAbsent) rfl).1⟩

end Gockup
